import Mathlib

/-!
# Ocean AWS cluster resource: lifecycle controller

A shallow embedding of `spotinst/resource_spotinst_ocean_aws.go`.

* Go `interface{}` values are the inductive `Value`.
* `*schema.ResourceData` is the record `ResourceData`; the controller threads it, together
  with the log of collaborator calls, through the state `St`.
* The remote API client, the field registry (`commons.OceanAWSResource`), `commons.ToJson`
  and the field-name constants of the packages `ocean_aws` and
  `ocean_aws_launch_configuration` are not part of the embedded sources: they are the
  fields of `Env`, and every theorem quantifies over them.
* A Go run-time fault (failed type assertion, index out of range, nil dereference) is the
  outcome `Outcome.fault`.
* `log.Printf` calls are omitted.
-/

namespace Spotinst

/-! ## Errors -/

/-- SDK `client.Error`: one entry of a structured error list. -/
structure ClientError where
  Code : String
  Message : String
  deriving DecidableEq, Repr

/-- Go `error` values met by the controller. -/
inductive GoError where
  /-- SDK `client.Errors`, a list of `client.Error`. -/
  | clientErrors (errs : List ClientError)
  /-- a single `client.Error` used as an error value. -/
  | clientError (e : ClientError)
  /-- any other error value. -/
  | other (msg : String)
  /-- `fmt.Errorf(format, args...)` with string arguments only. -/
  | errorf (format : String) (args : List String)
  /-- `fmt.Errorf(format, args..., cause)`: the last argument is an error. -/
  | wrapf (format : String) (args : List String) (cause : GoError)
  deriving DecidableEq, Repr

/-- `diag.Diagnostics`: the empty list (Go `nil`) is success. -/
abbrev Diagnostics := List GoError

/-- `diag.FromErr(err)` for a non-nil `err`. -/
def diag.FromErr (err : GoError) : Diagnostics := [err]

/-- `diag.Errorf(format, err)`. -/
def diag.Errorf (format : String) (err : GoError) : Diagnostics :=
  [GoError.wrapf format [] err]

/-! ## Dynamic values -/

/-- Go values held in an `interface{}` by the configuration representation. -/
inductive Value where
  /-- the nil interface. -/
  | nil
  | bool (b : Bool)
  | int (i : Int)
  | str (s : String)
  /-- a non-nil `[]interface{}`. -/
  | slice (xs : List Value)
  /-- a nil `[]interface{}` held in an interface. -/
  | nilSlice
  /-- a `[]string`. -/
  | strings (xs : List String)
  /-- a non-nil `map[string]interface{}`, as an association list. -/
  | map (kvs : List (String × Value))
  /-- a nil `map[string]interface{}` held in an interface. -/
  | nilMap
  /-- a `*schema.Set`, given by the elements its `List()` method returns. -/
  | set (xs : List Value)
  /-- a `float64`, as a rational; NaN and the infinities are outside the model. -/
  | float (q : Rat)
  deriving Repr

/-- `v == nil` on an interface value. -/
def Value.isNil : Value → Bool
  | .nil => true
  | _ => false

/-- `m[key]` with the comma-ok flag on a `map[string]interface{}`. -/
def mapGet (m : List (String × Value)) (key : String) : Value × Bool :=
  match m.lookup key with
  | some v => (v, true)
  | none => (Value.nil, false)

/-- `v.(bool)` with comma-ok. -/
def Value.asBool : Value → Bool × Bool
  | .bool b => (b, true)
  | _ => (false, false)

/-- `v.(string)` with comma-ok. -/
def Value.asString : Value → String × Bool
  | .str s => (s, true)
  | _ => ("", false)

/-- `v.(int)` with comma-ok. -/
def Value.asInt : Value → Int × Bool
  | .int i => (i, true)
  | _ => (0, false)

/-- `v.([]string)` with comma-ok; `none` is the nil slice. -/
def Value.asStrings : Value → Option (List String) × Bool
  | .strings xs => (some xs, true)
  | _ => (none, false)

/-- A `[]interface{}`: `none` is the nil slice. -/
abbrev Slice := Option (List Value)

/-- `len(list)`. -/
def Slice.len : Slice → Nat
  | none => 0
  | some xs => xs.length

/-! ## Domain objects -/

/-- SDK `aws.Filters`. A pointer or slice field is `none` when nil. `nullFields` is the
SDK's record of the fields a setter was called on with nil, which are sent as explicit
nulls. -/
structure Filters where
  Architectures : Option (List String) := none
  Categories : Option (List String) := none
  DiskTypes : Option (List String) := none
  ExcludeFamilies : Option (List String) := none
  ExcludeMetal : Option Bool := none
  Hypervisor : Option (List String) := none
  IncludeFamilies : Option (List String) := none
  IsEnaSupported : Option Bool := none
  MaxGpu : Option Int := none
  MaxMemoryGiB : Option Rat := none
  MaxNetworkPerformance : Option Int := none
  MaxVcpu : Option Int := none
  MinEnis : Option Int := none
  MinGpu : Option Int := none
  MinMemoryGiB : Option Rat := none
  MinNetworkPerformance : Option Int := none
  MinVcpu : Option Int := none
  RootDeviceTypes : Option (List String) := none
  VirtualizationTypes : Option (List String) := none
  nullFields : List String := []
  deriving DecidableEq, Repr

/-- SDK setter `Filters.SetArchitectures`: assigns the field and, when the value is nil, records
the field in `nullFields`. -/
def Filters.SetArchitectures (o : Filters) (v : Option (List String)) : Filters :=
  { o with Architectures := v,
           nullFields := if v.isNone then o.nullFields ++ ["Architectures"] else o.nullFields }

/-- SDK setter `Filters.SetCategories`: assigns the field and, when the value is nil, records
the field in `nullFields`. -/
def Filters.SetCategories (o : Filters) (v : Option (List String)) : Filters :=
  { o with Categories := v,
           nullFields := if v.isNone then o.nullFields ++ ["Categories"] else o.nullFields }

/-- SDK setter `Filters.SetDiskTypes`: assigns the field and, when the value is nil, records
the field in `nullFields`. -/
def Filters.SetDiskTypes (o : Filters) (v : Option (List String)) : Filters :=
  { o with DiskTypes := v,
           nullFields := if v.isNone then o.nullFields ++ ["DiskTypes"] else o.nullFields }

/-- SDK setter `Filters.SetExcludeFamilies`: assigns the field and, when the value is nil, records
the field in `nullFields`. -/
def Filters.SetExcludeFamilies (o : Filters) (v : Option (List String)) : Filters :=
  { o with ExcludeFamilies := v,
           nullFields := if v.isNone then o.nullFields ++ ["ExcludeFamilies"] else o.nullFields }

/-- SDK setter `Filters.SetExcludeMetal`: assigns the field and, when the value is nil, records
the field in `nullFields`. -/
def Filters.SetExcludeMetal (o : Filters) (v : Option Bool) : Filters :=
  { o with ExcludeMetal := v,
           nullFields := if v.isNone then o.nullFields ++ ["ExcludeMetal"] else o.nullFields }

/-- SDK setter `Filters.SetHypervisor`: assigns the field and, when the value is nil, records
the field in `nullFields`. -/
def Filters.SetHypervisor (o : Filters) (v : Option (List String)) : Filters :=
  { o with Hypervisor := v,
           nullFields := if v.isNone then o.nullFields ++ ["Hypervisor"] else o.nullFields }

/-- SDK setter `Filters.SetIncludeFamilies`: assigns the field and, when the value is nil, records
the field in `nullFields`. -/
def Filters.SetIncludeFamilies (o : Filters) (v : Option (List String)) : Filters :=
  { o with IncludeFamilies := v,
           nullFields := if v.isNone then o.nullFields ++ ["IncludeFamilies"] else o.nullFields }

/-- SDK setter `Filters.SetIsEnaSupported`: assigns the field and, when the value is nil, records
the field in `nullFields`. -/
def Filters.SetIsEnaSupported (o : Filters) (v : Option Bool) : Filters :=
  { o with IsEnaSupported := v,
           nullFields := if v.isNone then o.nullFields ++ ["IsEnaSupported"] else o.nullFields }

/-- SDK setter `Filters.SetMaxGpu`: assigns the field and, when the value is nil, records
the field in `nullFields`. -/
def Filters.SetMaxGpu (o : Filters) (v : Option Int) : Filters :=
  { o with MaxGpu := v,
           nullFields := if v.isNone then o.nullFields ++ ["MaxGpu"] else o.nullFields }

/-- SDK setter `Filters.SetMaxMemoryGiB`: assigns the field and, when the value is nil, records
the field in `nullFields`. -/
def Filters.SetMaxMemoryGiB (o : Filters) (v : Option Rat) : Filters :=
  { o with MaxMemoryGiB := v,
           nullFields := if v.isNone then o.nullFields ++ ["MaxMemoryGiB"] else o.nullFields }

/-- SDK setter `Filters.SetMaxNetworkPerformance`: assigns the field and, when the value is nil,
records the field in `nullFields`. -/
def Filters.SetMaxNetworkPerformance (o : Filters) (v : Option Int) : Filters :=
  { o with MaxNetworkPerformance := v,
           nullFields :=
             if v.isNone then o.nullFields ++ ["MaxNetworkPerformance"] else o.nullFields }

/-- SDK setter `Filters.SetMaxVcpu`: assigns the field and, when the value is nil, records
the field in `nullFields`. -/
def Filters.SetMaxVcpu (o : Filters) (v : Option Int) : Filters :=
  { o with MaxVcpu := v,
           nullFields := if v.isNone then o.nullFields ++ ["MaxVcpu"] else o.nullFields }

/-- SDK setter `Filters.SetMinEnis`: assigns the field and, when the value is nil, records
the field in `nullFields`. -/
def Filters.SetMinEnis (o : Filters) (v : Option Int) : Filters :=
  { o with MinEnis := v,
           nullFields := if v.isNone then o.nullFields ++ ["MinEnis"] else o.nullFields }

/-- SDK setter `Filters.SetMinGpu`: assigns the field and, when the value is nil, records
the field in `nullFields`. -/
def Filters.SetMinGpu (o : Filters) (v : Option Int) : Filters :=
  { o with MinGpu := v,
           nullFields := if v.isNone then o.nullFields ++ ["MinGpu"] else o.nullFields }

/-- SDK setter `Filters.SetMinMemoryGiB`: assigns the field and, when the value is nil, records
the field in `nullFields`. -/
def Filters.SetMinMemoryGiB (o : Filters) (v : Option Rat) : Filters :=
  { o with MinMemoryGiB := v,
           nullFields := if v.isNone then o.nullFields ++ ["MinMemoryGiB"] else o.nullFields }

/-- SDK setter `Filters.SetMinNetworkPerformance`: assigns the field and, when the value is nil,
records the field in `nullFields`. -/
def Filters.SetMinNetworkPerformance (o : Filters) (v : Option Int) : Filters :=
  { o with MinNetworkPerformance := v,
           nullFields :=
             if v.isNone then o.nullFields ++ ["MinNetworkPerformance"] else o.nullFields }

/-- SDK setter `Filters.SetMinVcpu`: assigns the field and, when the value is nil, records
the field in `nullFields`. -/
def Filters.SetMinVcpu (o : Filters) (v : Option Int) : Filters :=
  { o with MinVcpu := v,
           nullFields := if v.isNone then o.nullFields ++ ["MinVcpu"] else o.nullFields }

/-- SDK setter `Filters.SetRootDeviceTypes`: assigns the field and, when the value is nil, records
the field in `nullFields`. -/
def Filters.SetRootDeviceTypes (o : Filters) (v : Option (List String)) : Filters :=
  { o with RootDeviceTypes := v,
           nullFields := if v.isNone then o.nullFields ++ ["RootDeviceTypes"] else o.nullFields }

/-- SDK setter `Filters.SetVirtualizationTypes`: assigns the field and, when the value is nil,
records the field in `nullFields`. -/
def Filters.SetVirtualizationTypes (o : Filters) (v : Option (List String)) : Filters :=
  { o with VirtualizationTypes := v,
           nullFields :=
             if v.isNone then o.nullFields ++ ["VirtualizationTypes"] else o.nullFields }

/-- SDK `aws.InstanceTypes`, the fields the mappers touch. -/
structure InstanceTypes where
  Whitelist : Option (List String) := none
  Blacklist : Option (List String) := none
  Filters : Option Filters := none
  nullFields : List String := []
  deriving DecidableEq, Repr

/-- SDK setter `InstanceTypes.SetWhitelist`. -/
def InstanceTypes.SetWhitelist (o : InstanceTypes) (v : Option (List String)) : InstanceTypes :=
  { o with Whitelist := v,
           nullFields := if v.isNone then o.nullFields ++ ["Whitelist"] else o.nullFields }

/-- SDK setter `InstanceTypes.SetBlacklist`. -/
def InstanceTypes.SetBlacklist (o : InstanceTypes) (v : Option (List String)) : InstanceTypes :=
  { o with Blacklist := v,
           nullFields := if v.isNone then o.nullFields ++ ["Blacklist"] else o.nullFields }

/-- SDK setter `InstanceTypes.SetFilters`. -/
def InstanceTypes.SetFilters (o : InstanceTypes) (v : Option Spotinst.Filters) :
    InstanceTypes :=
  { o with Filters := v,
           nullFields := if v.isNone then o.nullFields ++ ["Filters"] else o.nullFields }

/-- SDK `aws.Compute`: `InstanceTypes` and, in `rest`, all other fields. -/
structure Compute where
  InstanceTypes : Option InstanceTypes := none
  rest : String := ""
  deriving DecidableEq, Repr

/-- SDK `aws.Cluster`. The controller touches only `ID`, the instance-type mappers only
`Compute`; `rest` stands for all other fields, which are handed on untouched. -/
structure Cluster where
  ID : Option String
  rest : String
  Compute : Option Compute := none
  deriving DecidableEq, Repr

/-- `cluster.SetId(v)`. -/
def Cluster.SetId (c : Cluster) (v : Option String) : Cluster := { c with ID := v }

/-- `spotinst.StringValue`. -/
def StringValue : Option String → String
  | some s => s
  | none => ""

/-- SDK `aws.RollSpec`, the fields the controller fills. -/
structure RollSpec where
  ClusterID : Option String
  BatchSizePercentage : Option Int := none
  LaunchSpecIDs : Option (List String) := none
  BatchMinHealthyPercentage : Option Int := none
  RespectPDB : Option Bool := none
  deriving DecidableEq, Repr

/-- SDK `aws.CreateClusterOutput` and `aws.ReadClusterOutput`: a possibly nil cluster. -/
structure ClusterOutput where
  Cluster : Option Cluster
  deriving DecidableEq, Repr

/-! ## State, events and the environment -/

/-- `*schema.ResourceData`: the identity and the configuration accessors used. `GetOk`
reports `false` for a field that is unset or holds its zero value. -/
structure ResourceData where
  id : String
  Get : String → Value
  GetOkExists : String → Value × Bool
  GetOk : String → Value × Bool := fun _ => (Value.nil, false)

/-- One entry of the call log. Remote calls record the error they returned. -/
inductive Event where
  | OnCreate
  | OnRead (cluster : Cluster)
  | OnUpdate
  | Sleep (nanoseconds : Nat)
  | CreateCluster (cluster : Cluster) (err : Option GoError)
  | ReadCluster (clusterID : String) (err : Option GoError)
  | UpdateCluster (cluster : Cluster) (err : Option GoError)
  | DeleteCluster (clusterID : String) (err : Option GoError)
  | CreateRoll (roll : RollSpec) (err : Option GoError)
  /-- ghost marker: `rollOceanAWSCluster` was entered. -/
  | RollInvoked
  deriving DecidableEq, Repr

/-- Names of the configuration fields, constants of packages outside the embedded sources. -/
structure FieldNames where
  UpdatePolicy : String
  ShouldRoll : String
  ConditionedRoll : String
  AutoApplyTags : String
  RollConfig : String
  BatchSizePercentage : String
  LaunchSpecIDs : String
  BatchMinHealthyPercentage : String
  RespectPDB : String
  IAMInstanceProfile : String

/-- The collaborators of the controller. Every remote operation sees the log so far, so its
answer may depend on everything that happened before. -/
structure Env where
  names : FieldNames
  /-- `commons.OceanAWSResource.OnCreate`. -/
  OnCreate : ResourceData → Except GoError Cluster
  /-- `commons.OceanAWSResource.OnRead`; mutates the resource data. -/
  OnRead : Cluster → ResourceData → Option GoError × ResourceData
  /-- `commons.OceanAWSResource.OnUpdate`:
  `(shouldUpdate, changesRequiredRoll, tagsChanged, cluster)`. -/
  OnUpdate : ResourceData → Except GoError (Bool × Bool × Bool × Cluster)
  /-- `commons.ToJson` on a cluster. -/
  ToJsonCluster : Cluster → Except GoError String
  /-- `commons.ToJson` on a configuration value. -/
  ToJsonValue : Value → Except GoError String
  /-- `commons.ToJson` on a `DeleteClusterInput` with the given cluster ID. -/
  ToJsonDeleteInput : String → Except GoError String
  CreateCluster : List Event → Cluster → Except GoError ClusterOutput
  ReadCluster : List Event → String → Except GoError ClusterOutput
  UpdateCluster : List Event → Cluster → Option GoError
  DeleteCluster : List Event → String → Option GoError
  CreateRoll : List Event → RollSpec → Option GoError
  /-- number of further attempts the deadline of `resource.RetryContext` leaves room for. -/
  retries : Nat

/-- Controller state: the resource data and the call log (oldest first). -/
structure St where
  rd : ResourceData
  trace : List Event

/-- Result of running a piece of the controller. -/
inductive Outcome (α : Type) where
  | ret (a : α) (s : St)
  /-- a Go run-time panic. -/
  | fault (msg : String) (s : St)

/-- State after the run. -/
def Outcome.st {α : Type} : Outcome α → St
  | .ret _ s => s
  | .fault _ s => s

/-- Returned value, if the run returned. -/
def Outcome.val? {α : Type} : Outcome α → Option α
  | .ret a _ => some a
  | .fault _ _ => none

/-- Whether the run ended in a run-time panic. -/
def Outcome.isFault {α : Type} : Outcome α → Bool
  | .ret _ _ => false
  | .fault _ _ => true

/-- Controller computations. -/
def M (α : Type) : Type := St → Outcome α

/-- Sequencing; a panic ends the run. -/
def M.bind {α β : Type} (m : M α) (f : α → M β) : M β := fun s =>
  match m s with
  | .ret a s1 => f a s1
  | .fault msg s1 => .fault msg s1

instance : Monad M where
  pure a := fun s => .ret a s
  bind := M.bind

/-- Run-time panic. -/
def fault {α : Type} (msg : String) : M α := fun s => .fault msg s

/-- Append one event to the log. -/
def emit (e : Event) : M Unit := fun s => .ret () { s with trace := s.trace ++ [e] }

/-- `resourceData.Id()`. -/
def getId : M String := fun s => .ret s.rd.id s

/-- `resourceData.SetId(id)`. -/
def setId (id : String) : M Unit := fun s => .ret () { s with rd := { s.rd with id := id } }

/-- `resourceData.Get(key)`. -/
def rdGet (key : String) : M Value := fun s => .ret (s.rd.Get key) s

/-- `resourceData.GetOkExists(key)`. -/
def rdGetOkExists (key : String) : M (Value × Bool) := fun s => .ret (s.rd.GetOkExists key) s

/-- `v.([]interface{})` without comma-ok: panics on any other dynamic type. -/
def assertSlice : Value → M Slice
  | .slice xs => pure (some xs)
  | .nilSlice => pure none
  | _ => fault "interface conversion: value is not a []interface"

/-- `v.(map[string]interface{})` without comma-ok, by the entries of the map: a nil map
has none. -/
def assertMap : Value → M (List (String × Value))
  | .map kvs => pure kvs
  | .nilMap => pure []
  | _ => fault "interface conversion: value is not a map[string]interface"

/-- `list[0]`: panics on a slice of length zero. -/
def index0 : Slice → M Value
  | some (x :: _) => pure x
  | _ => fault "index out of range [0]"

/-! ## Remote calls and registry calls, logged -/

def callCreateCluster (env : Env) (c : Cluster) : M (Except GoError ClusterOutput) := fun s =>
  match env.CreateCluster s.trace c with
  | .ok out => .ret (.ok out) { s with trace := s.trace ++ [Event.CreateCluster c none] }
  | .error e => .ret (.error e) { s with trace := s.trace ++ [Event.CreateCluster c (some e)] }

def callReadCluster (env : Env) (id : String) : M (Except GoError ClusterOutput) := fun s =>
  match env.ReadCluster s.trace id with
  | .ok out => .ret (.ok out) { s with trace := s.trace ++ [Event.ReadCluster id none] }
  | .error e => .ret (.error e) { s with trace := s.trace ++ [Event.ReadCluster id (some e)] }

def callUpdateCluster (env : Env) (c : Cluster) : M (Option GoError) := fun s =>
  let r := env.UpdateCluster s.trace c
  .ret r { s with trace := s.trace ++ [Event.UpdateCluster c r] }

def callDeleteCluster (env : Env) (id : String) : M (Option GoError) := fun s =>
  let r := env.DeleteCluster s.trace id
  .ret r { s with trace := s.trace ++ [Event.DeleteCluster id r] }

def callCreateRoll (env : Env) (roll : RollSpec) : M (Option GoError) := fun s =>
  let r := env.CreateRoll s.trace roll
  .ret r { s with trace := s.trace ++ [Event.CreateRoll roll r] }

def callOnCreate (env : Env) : M (Except GoError Cluster) := fun s =>
  .ret (env.OnCreate s.rd) { s with trace := s.trace ++ [Event.OnCreate] }

def callOnUpdate (env : Env) : M (Except GoError (Bool × Bool × Bool × Cluster)) := fun s =>
  .ret (env.OnUpdate s.rd) { s with trace := s.trace ++ [Event.OnUpdate] }

def callOnRead (env : Env) (c : Cluster) : M (Option GoError) := fun s =>
  let r := env.OnRead c s.rd
  .ret r.1 { rd := r.2, trace := s.trace ++ [Event.OnRead c] }

/-! ## Read -/

def ErrCodeClusterNotFound : String := "CLUSTER_DOESNT_EXIST"

/-- The `for _, err := range errs` loop of Read: whether some entry has the not-found code. -/
def rangeNotFound : List ClientError → Bool
  | [] => false
  | err :: rest => if err.Code = ErrCodeClusterNotFound then true else rangeNotFound rest

/-- The guard `errs, ok := err.(client.Errors); ok && len(errs) > 0` followed by the loop. -/
def isClusterNotFound : GoError → Bool
  | .clientErrors errs => decide (errs.length > 0) && rangeNotFound errs
  | _ => false

def resourceSpotinstClusterAWSRead (env : Env) : M Diagnostics := do
  let id ← getId
  let r ← callReadCluster env id
  match r with
  | .error err =>
    if isClusterNotFound err then
      setId ""
      return []
    return diag.Errorf "failed to read cluster: %s" err
  | .ok resp =>
    match resp.Cluster with
    | none =>
      setId ""
      return []
    | some clusterResponse =>
      if let some err ← callOnRead env clusterResponse then
        return diag.FromErr err
      return []

/-! ## Delete -/

def deleteAWSCluster (env : Env) : M (Option GoError) := do
  let clusterID ← getId
  if let .error err := env.ToJsonDeleteInput clusterID then
    return some err
  if let some err ← callDeleteCluster env clusterID then
    return some (GoError.wrapf "[ERROR] onDelete() -> Failed to delete cluster: %s" [] err)
  return none

def resourceSpotinstClusterAWSDelete (env : Env) : M Diagnostics := do
  if let some err ← deleteAWSCluster env then
    return diag.FromErr err
  setId ""
  return []

/-! ## Create -/

/-- `time.Second`, in nanoseconds. -/
def time.Second : Nat := 1000000000

/-- SDK `resource.RetryError`. -/
structure RetryError where
  Err : GoError
  Retryable : Bool
  deriving DecidableEq, Repr

/-- SDK `resource.NonRetryableError`. -/
def resource.NonRetryableError (err : GoError) : RetryError := { Err := err, Retryable := false }

/-- SDK `resource.RetryContext`: run `f` again while it answers with a retryable error and
the deadline leaves room (`n` further attempts); a non-retryable error, or the last error
once the deadline is reached, is returned. `f` is always run at least once. -/
def RetryContext {α : Type} (f : M (Except RetryError α)) : Nat → M (Except GoError α)
  | 0 => do
    match ← f with
    | .ok a => return .ok a
    | .error re => return .error re.Err
  | n + 1 => do
    match ← f with
    | .ok a => return .ok a
    | .error re =>
      if re.Retryable then
        RetryContext f n
      else
        return .error re.Err

/-- Whether `sub` occurs in `s`, on character lists. -/
def containsChars : List Char → List Char → Bool
  | [], sub => sub.isEmpty
  | c :: cs, sub => sub.isPrefixOf (c :: cs) || containsChars cs sub

/-- `strings.Contains`. -/
def strings.Contains (s substr : String) : Bool := containsChars s.toList substr.toList

/-- The `for _, err := range errs` loop of the create callback: the first entry of the
recognised class ends the callback with a non-retryable error. -/
def rangeInvalidProfile : List ClientError → Option RetryError
  | [] => none
  | err :: rest =>
    if err.Code = "InvalidParamterValue" ∧
        strings.Contains err.Message "Invalid IAM Instance Profile" = true then
      some (resource.NonRetryableError (GoError.clientError err))
    else
      rangeInvalidProfile rest

/-- The part of the create callback that runs when `CreateCluster` returned `err`. -/
def classifyCreateError (err : GoError) : RetryError :=
  match err with
  | .clientErrors errs =>
    if errs.length > 0 then
      match rangeInvalidProfile errs with
      | some re => re
      | none => resource.NonRetryableError err
    else
      resource.NonRetryableError err
  | _ => resource.NonRetryableError err

/-- The function literal passed to `resource.RetryContext` in `createAWSCluster`; the
response it stores in `resp` is its `ok` value. -/
def createClusterAttempt (env : Env) (cluster : Cluster) : M (Except RetryError ClusterOutput) := do
  match ← callCreateCluster env cluster with
  | .error err => return .error (classifyCreateError err)
  | .ok r => return .ok r

def createAWSCluster (env : Env) (cluster : Cluster) : M (Except GoError (Option String)) := do
  if let .error err := env.ToJsonCluster cluster then
    return .error err
  let (v, ok) := (← rdGet env.names.IAMInstanceProfile).asString
  if ok && v != "" then
    emit (Event.Sleep (10 * time.Second))
  match ← RetryContext (createClusterAttempt env cluster) env.retries with
  | .error err => return .error (GoError.wrapf "[ERROR] failed to create cluster: %s" [] err)
  | .ok resp =>
    match resp.Cluster with
    | none => fault "invalid memory address or nil pointer dereference"
    | some c => return .ok c.ID

def resourceSpotinstClusterAWSCreate (env : Env) : M Diagnostics := do
  match ← callOnCreate env with
  | .error err => return diag.FromErr err
  | .ok cluster =>
    match ← createAWSCluster env cluster with
    | .error err => return diag.FromErr err
    | .ok clusterID =>
      setId (StringValue clusterID)
      resourceSpotinstClusterAWSRead env

/-! ## Roll -/

/-- The loop of `expandOceanAWSLaunchSpecIDs`: keeps the non-empty strings, in order. -/
def launchSpecIDsLoop : List Value → List String
  | [] => []
  | v :: rest =>
    if v.asString.2 && v.asString.1 != "" then
      v.asString.1 :: launchSpecIDsLoop rest
    else
      launchSpecIDsLoop rest

def expandOceanAWSLaunchSpecIDs (data : Value) : M (List String) := do
  let list ← assertSlice data
  return launchSpecIDsLoop (list.getD [])

def expandOceanAWSClusterRollConfig (env : Env) (data : Value) (clusterID : String) :
    M (RollSpec × Option GoError) := do
  let list ← assertSlice data
  let mut spec : RollSpec := { ClusterID := some clusterID }
  if list.isSome then
    let first ← index0 list
    if !first.isNil then
      let m ← assertMap first
      let (v, ok) := (mapGet m env.names.BatchSizePercentage).1.asInt
      if ok then
        spec := { spec with BatchSizePercentage := some v }
      let (v, ok) := (mapGet m env.names.LaunchSpecIDs).1.asStrings
      if ok then
        let ids ← expandOceanAWSLaunchSpecIDs (Value.strings (v.getD []))
        spec := { spec with LaunchSpecIDs := some ids }
      let (v, ok) := (mapGet m env.names.BatchMinHealthyPercentage).1.asInt
      if ok && v > 0 then
        spec := { spec with BatchMinHealthyPercentage := some v }
      let (v, ok) := (mapGet m env.names.RespectPDB).1.asBool
      if ok then
        spec := { spec with RespectPDB := some v }
  return (spec, none)

def rollOceanAWSCluster (env : Env) : M (Option GoError) := do
  emit Event.RollInvoked
  let clusterID ← getId
  let (updatePolicy, ex) ← rdGetOkExists env.names.UpdatePolicy
  if !ex then
    return some (GoError.errorf "ocean/aws: missing update policy for cluster %q" [clusterID])
  let list ← assertSlice updatePolicy
  if list.len > 0 then
    let first ← index0 list
    if !first.isNil then
      let updateClusterSchema ← assertMap first
      let (rollConfig, ok) := mapGet updateClusterSchema env.names.RollConfig
      if !ok || rollConfig.isNil then
        return some (GoError.errorf
          "ocean/aws: missing roll configuration, skipping roll for cluster %q" [clusterID])
      let (rollSpec, err) ← expandOceanAWSClusterRollConfig env rollConfig clusterID
      if let some err := err then
        return some (GoError.wrapf
          "ocean/aws: failed expanding roll configuration for cluster %q, error: %v"
          [clusterID] err)
      if let .error err := env.ToJsonValue rollConfig then
        return some (GoError.wrapf
          "ocean/aws: failed marshaling roll configuration for cluster %q, error: %v"
          [clusterID] err)
      if let some err ← callCreateRoll env rollSpec then
        return some (GoError.wrapf
          "onRoll() -> Roll failed for cluster [%v], error: %v" [clusterID] err)
  return none

/-! ## Update -/

/-- Lines 181-202 of `updateAWSCluster`: the three locals `shouldRoll`, `conditionedRoll`
and `autoApplyTags`, initialised to false and set from the first block of the update
policy. -/
def updateAWSCluster.policyFlags (env : Env) : M (Bool × Bool × Bool) := do
  let mut shouldRoll := false
  let mut conditionedRoll := false
  let mut autoApplyTags := false
  let (updatePolicy, ex) ← rdGetOkExists env.names.UpdatePolicy
  if ex then
    let list ← assertSlice updatePolicy
    if list.len > 0 then
      let first ← index0 list
      if !first.isNil then
        let m ← assertMap first
        let (roll, ok) := (mapGet m env.names.ShouldRoll).1.asBool
        if ok && roll then
          shouldRoll := roll
        let (condRoll, ok) := (mapGet m env.names.ConditionedRoll).1.asBool
        if ok && condRoll then
          conditionedRoll := condRoll
        let (aat, ok) := (mapGet m env.names.AutoApplyTags).1.asBool
        if ok && aat then
          autoApplyTags := aat
  return (shouldRoll, conditionedRoll, autoApplyTags)

def updateAWSCluster (env : Env) (cluster : Cluster) (changesRequiredRoll tagsChanged : Bool) :
    M (Option GoError) := do
  let clusterID ← getId
  let (shouldRoll, conditionedRoll, autoApplyTags) ← updateAWSCluster.policyFlags env
  if let .error err := env.ToJsonCluster cluster then
    return some err
  if let some err ← callUpdateCluster env cluster then
    return some (GoError.wrapf "[ERROR] Failed to update cluster [%v]: %v" [clusterID] err)
  else if shouldRoll then
    if !conditionedRoll || changesRequiredRoll || (!autoApplyTags && tagsChanged) then
      if let some err ← rollOceanAWSCluster env then
        return some err
  return none

def resourceSpotinstClusterAWSUpdate (env : Env) : M Diagnostics := do
  let id ← getId
  match ← callOnUpdate env with
  | .error err => return diag.FromErr err
  | .ok (shouldUpdate, changesRequiredRoll, tagsChanged, cluster) =>
    if shouldUpdate then
      if let some err ←
          updateAWSCluster env (cluster.SetId (some id)) changesRequiredRoll tagsChanged then
        return diag.FromErr err
    resourceSpotinstClusterAWSRead env

/-! ## Functions returning `(T, error)` -/

/-- Result of a Go function of type `(T, error)`: a value with a nil error, a non-nil error,
or a run-time panic. -/
inductive GoResult (α : Type) where
  | ok (a : α)
  | err (e : GoError)
  | panic (msg : String)
  deriving DecidableEq, Repr

/-- Sequencing: an error is returned to the caller as it is (`return nil, err`), a panic
ends the run. -/
def GoResult.bind {α β : Type} (x : GoResult α) (f : α → GoResult β) : GoResult β :=
  match x with
  | .ok a => f a
  | .err e => .err e
  | .panic msg => .panic msg

instance : Monad GoResult where
  pure a := .ok a
  bind := GoResult.bind

/-- `v.([]interface{})` without comma-ok. -/
def toSlice : Value → GoResult Slice
  | .slice xs => .ok (some xs)
  | .nilSlice => .ok none
  | _ => .panic "interface conversion: value is not a []interface"

/-- `v.(map[string]interface{})` without comma-ok, by the entries of the map: a nil map
has none. -/
def toMap : Value → GoResult (List (String × Value))
  | .map kvs => .ok kvs
  | .nilMap => .ok []
  | _ => .panic "interface conversion: value is not a map[string]interface"

/-- `v.(*schema.Set).List()`. -/
def toSetList : Value → GoResult (List Value)
  | .set xs => .ok xs
  | _ => .panic "interface conversion: value is not a *schema.Set"

/-- `list[0]`: panics on a slice of length zero. -/
def elem0 : Slice → GoResult Value
  | some (x :: _) => .ok x
  | _ => .panic "index out of range [0]"

/-- Dereference of a pointer: panics on nil. -/
def deref {α : Type} : Option α → GoResult α
  | some a => .ok a
  | none => .panic "invalid memory address or nil pointer dereference"

/-- `v.(float64)` with comma-ok. -/
def Value.asFloat : Value → Rat × Bool
  | .float q => (q, true)
  | _ => (0, false)

/-- `v.(map[string]interface{})` with comma-ok, by the entries of the map: a nil map has
none. -/
def Value.asMap : Value → List (String × Value) × Bool
  | .map kvs => (kvs, true)
  | .nilMap => ([], true)
  | _ => ([], false)

/-- `v.(map[string]interface{})` with comma-ok, by the map itself: `none` is the nil map. -/
def Value.asMapOrNil : Value → Option (List (String × Value)) × Bool
  | .map kvs => (some kvs, true)
  | .nilMap => (none, true)
  | _ => (none, false)

/-- A `map[string]interface{}` stored in an `interface{}`: `none` is the nil map. -/
def mapValue : Option (List (String × Value)) → Value
  | some kvs => Value.map kvs
  | none => Value.nilMap

/-- `m[key] = v` on a map with string keys: replaces the entry of `key` or adds one. -/
def mapSet {α : Type} (m : List (String × α)) (key : String) (v : α) : List (String × α) :=
  if (m.lookup key).isSome then
    m.map (fun kv => if kv.1 = key then (key, v) else kv)
  else
    m ++ [(key, v)]

/-- A `[]interface{}` stored in an `interface{}`. -/
def Slice.toValue : Slice → Value
  | none => Value.nilSlice
  | some xs => Value.slice xs

/-- `spotinst.BoolValue`. -/
def BoolValue : Option Bool → Bool
  | some b => b
  | none => false

/-- `spotinst.IntValue`. -/
def IntValue : Option Int → Int
  | some i => i
  | none => 0

/-- `spotinst.Float64Value`. -/
def Float64Value : Option Rat → Rat
  | some q => q
  | none => 0

/-! ## Instance types of the AWS cluster (`ocean_aws_instance_types`) -/

/-- Names of the instance-type fields, constants of the package outside the embedded
sources. -/
structure FilterNames where
  Whitelist : String
  Blacklist : String
  Filters : String
  Architectures : String
  Categories : String
  DiskTypes : String
  ExcludeFamilies : String
  ExcludeMetal : String
  Hypervisor : String
  IncludeFamilies : String
  IsEnaSupported : String
  MaxGpu : String
  MaxMemoryGiB : String
  MaxNetworkPerformance : String
  MaxVcpu : String
  MinEnis : String
  MinGpu : String
  MinMemoryGiB : String
  MinNetworkPerformance : String
  MinVcpu : String
  RootDeviceTypes : String
  VirtualizationTypes : String

/-- The loop shared by `expandInstanceTypeList` and `expandInstanceTypeFiltersList`: keeps
the elements that are non-empty strings, in order. -/
def instanceTypeLoop : List Value → List String
  | [] => []
  | v :: rest =>
    if v.asString.2 && v.asString.1 != "" then
      v.asString.1 :: instanceTypeLoop rest
    else
      instanceTypeLoop rest

/-- The result is the non-nil slice built by `make`; the error is always nil. -/
def expandInstanceTypeList (data : Value) : GoResult (List String) := do
  let list ← toSlice data
  return instanceTypeLoop (list.getD [])

/-- The result is the non-nil slice built by `make`; the error is always nil. -/
def expandInstanceTypeFiltersList (data : Value) : GoResult (List String) := do
  let list ← toSetList data
  return instanceTypeLoop list

/-- The slices returned by `expandInstanceTypeFiltersList` are never nil, so the test
`x != nil && len(x) > 0` of the source is `len(x) > 0`. -/
def expandFilters (names : FilterNames) (data : Value) (nullify : Bool) : GoResult Filters := do
  let filters : Filters := {}
  let list ← toSlice data
  if list.isNone then
    return filters
  else
    let first ← elem0 list
    if first.isNil then
      return filters
    else
      let m ← toMap first
      let filters ← (match mapGet m names.Architectures with
        | (v, true) => do
          let architectures ← expandInstanceTypeFiltersList v
          if architectures.length > 0 then
            pure (filters.SetArchitectures (some architectures))
          else if nullify then
            pure (filters.SetArchitectures none)
          else
            pure filters
        | (_, false) => pure filters)
      let filters ← (match mapGet m names.Categories with
        | (v, true) => do
          let categories ← expandInstanceTypeFiltersList v
          if categories.length > 0 then
            pure (filters.SetCategories (some categories))
          else if nullify then
            pure (filters.SetCategories none)
          else
            pure filters
        | (_, false) => pure filters)
      let filters ← (match mapGet m names.DiskTypes with
        | (v, true) => do
          let diskTypes ← expandInstanceTypeFiltersList v
          if diskTypes.length > 0 then
            pure (filters.SetDiskTypes (some diskTypes))
          else if nullify then
            pure (filters.SetDiskTypes none)
          else
            pure filters
        | (_, false) => pure filters)
      let filters ← (match mapGet m names.ExcludeFamilies with
        | (v, true) => do
          let excludeFamilies ← expandInstanceTypeFiltersList v
          if excludeFamilies.length > 0 then
            pure (filters.SetExcludeFamilies (some excludeFamilies))
          else if nullify then
            pure (filters.SetExcludeFamilies none)
          else
            pure filters
        | (_, false) => pure filters)
      let filters ← (match mapGet m names.Hypervisor with
        | (v, true) => do
          let hypervisor ← expandInstanceTypeFiltersList v
          if hypervisor.length > 0 then
            pure (filters.SetHypervisor (some hypervisor))
          else if nullify then
            pure (filters.SetHypervisor none)
          else
            pure filters
        | (_, false) => pure filters)
      let filters :=
        if (mapGet m names.ExcludeMetal).1.asBool.2 then
          filters.SetExcludeMetal (some (mapGet m names.ExcludeMetal).1.asBool.1)
        else filters
      let filters ← (match mapGet m names.IncludeFamilies with
        | (v, true) => do
          let includeFamilies ← expandInstanceTypeFiltersList v
          if includeFamilies.length > 0 then
            pure (filters.SetIncludeFamilies (some includeFamilies))
          else if nullify then
            pure (filters.SetIncludeFamilies none)
          else
            pure filters
        | (_, false) => pure filters)
      let filters :=
        if (mapGet m names.IsEnaSupported).1.asBool.2 then
          filters.SetIsEnaSupported (some (mapGet m names.IsEnaSupported).1.asBool.1)
        else filters
      let filters :=
        if (mapGet m names.MaxGpu).1.asInt.2 && decide ((mapGet m names.MaxGpu).1.asInt.1 > 0) then
          filters.SetMaxGpu (some (mapGet m names.MaxGpu).1.asInt.1)
        else filters
      let filters :=
        if (mapGet m names.MaxMemoryGiB).1.asFloat.2 &&
            decide ((mapGet m names.MaxMemoryGiB).1.asFloat.1 > 0) then
          filters.SetMaxMemoryGiB (some (mapGet m names.MaxMemoryGiB).1.asFloat.1)
        else filters
      let filters :=
        if (mapGet m names.MaxNetworkPerformance).1.asInt.2 &&
            decide ((mapGet m names.MaxNetworkPerformance).1.asInt.1 > 0) then
          filters.SetMaxNetworkPerformance (some (mapGet m names.MaxNetworkPerformance).1.asInt.1)
        else filters
      let filters :=
        if (mapGet m names.MaxVcpu).1.asInt.2 &&
            decide ((mapGet m names.MaxVcpu).1.asInt.1 > 0) then
          filters.SetMaxVcpu (some (mapGet m names.MaxVcpu).1.asInt.1)
        else filters
      let filters :=
        if (mapGet m names.MinEnis).1.asInt.2 &&
            decide ((mapGet m names.MinEnis).1.asInt.1 > 0) then
          filters.SetMinEnis (some (mapGet m names.MinEnis).1.asInt.1)
        else filters
      let filters :=
        if (mapGet m names.MinGpu).1.asInt.2 && decide ((mapGet m names.MinGpu).1.asInt.1 > 0) then
          filters.SetMinGpu (some (mapGet m names.MinGpu).1.asInt.1)
        else filters
      let filters :=
        if (mapGet m names.MinMemoryGiB).1.asFloat.2 &&
            decide ((mapGet m names.MinMemoryGiB).1.asFloat.1 > 0) then
          filters.SetMinMemoryGiB (some (mapGet m names.MinMemoryGiB).1.asFloat.1)
        else filters
      let filters :=
        if (mapGet m names.MinNetworkPerformance).1.asInt.2 &&
            decide ((mapGet m names.MinNetworkPerformance).1.asInt.1 > 0) then
          filters.SetMinNetworkPerformance (some (mapGet m names.MinNetworkPerformance).1.asInt.1)
        else filters
      let filters :=
        if (mapGet m names.MinVcpu).1.asInt.2 &&
            decide ((mapGet m names.MinVcpu).1.asInt.1 > 0) then
          filters.SetMinVcpu (some (mapGet m names.MinVcpu).1.asInt.1)
        else filters
      let filters ← (match mapGet m names.RootDeviceTypes with
        | (v, true) => do
          let rootDevicetypes ← expandInstanceTypeFiltersList v
          if rootDevicetypes.length > 0 then
            pure (filters.SetRootDeviceTypes (some rootDevicetypes))
          else if nullify then
            pure (filters.SetRootDeviceTypes none)
          else
            pure filters
        | (_, false) => pure filters)
      let filters ← (match mapGet m names.VirtualizationTypes with
        | (v, true) => do
          let virtualizationtypes ← expandInstanceTypeFiltersList v
          if virtualizationtypes.length > 0 then
            pure (filters.SetVirtualizationTypes (some virtualizationtypes))
          else if nullify then
            pure (filters.SetVirtualizationTypes none)
          else
            pure filters
        | (_, false) => pure filters)
      return filters

def flattenFilters (names : FilterNames) (filters : Option Filters) : Slice :=
  match filters with
  | none => none
  | some filters =>
    let result : List (String × Value) := []
    let result := mapSet result names.ExcludeMetal (.bool (BoolValue filters.ExcludeMetal))
    let result := mapSet result names.IsEnaSupported (.bool (BoolValue filters.IsEnaSupported))
    let result := mapSet result names.MaxGpu (.int (IntValue filters.MaxGpu))
    let result := mapSet result names.MinGpu (.int (IntValue filters.MinGpu))
    let result := mapSet result names.MaxMemoryGiB (.float (Float64Value filters.MaxMemoryGiB))
    let result := mapSet result names.MinMemoryGiB (.float (Float64Value filters.MinMemoryGiB))
    let result := mapSet result names.MaxVcpu (.int (IntValue filters.MaxVcpu))
    let result := mapSet result names.MinVcpu (.int (IntValue filters.MinVcpu))
    let result := mapSet result names.MaxNetworkPerformance
      (.int (IntValue filters.MaxNetworkPerformance))
    let result := mapSet result names.MinNetworkPerformance
      (.int (IntValue filters.MinNetworkPerformance))
    let result := mapSet result names.MinEnis (.int (IntValue filters.MinEnis))
    let result :=
      match filters.Architectures with
      | some xs => mapSet result names.Architectures (.strings xs)
      | none => result
    let result :=
      match filters.Categories with
      | some xs => mapSet result names.Categories (.strings xs)
      | none => result
    let result :=
      match filters.DiskTypes with
      | some xs => mapSet result names.DiskTypes (.strings xs)
      | none => result
    let result :=
      match filters.ExcludeFamilies with
      | some xs => mapSet result names.ExcludeFamilies (.strings xs)
      | none => result
    let result :=
      match filters.Hypervisor with
      | some xs => mapSet result names.Hypervisor (.strings xs)
      | none => result
    let result :=
      match filters.IncludeFamilies with
      | some xs => mapSet result names.IncludeFamilies (.strings xs)
      | none => result
    let result :=
      match filters.RootDeviceTypes with
      | some xs => mapSet result names.RootDeviceTypes (.strings xs)
      | none => result
    let result :=
      match filters.VirtualizationTypes with
      | some xs => mapSet result names.VirtualizationTypes (.strings xs)
      | none => result
    if result.length > 0 then some [Value.map result] else none

/-- The create-mapper of the `whitelist` field (third argument of `NewGenericField`); the
result is the cluster the mapper leaves behind. -/
def whitelistOnCreate (names : FilterNames) (cluster : Cluster) (rd : ResourceData) :
    GoResult Cluster := do
  if (rd.GetOk names.Whitelist).2 then
    let whitelist ← expandInstanceTypeList (rd.GetOk names.Whitelist).1
    let compute ← deref cluster.Compute
    let instanceTypes ← deref compute.InstanceTypes
    return { cluster with Compute := some { compute with
      InstanceTypes := some (instanceTypes.SetWhitelist (some whitelist)) } }
  return cluster

/-- The update-mapper of the `whitelist` field (fourth argument of `NewGenericField`). -/
def whitelistOnUpdate (names : FilterNames) (cluster : Cluster) (rd : ResourceData) :
    GoResult Cluster := do
  if (rd.GetOk names.Whitelist).2 then
    let whitelist ← expandInstanceTypeList (rd.GetOk names.Whitelist).1
    let compute ← deref cluster.Compute
    let instanceTypes ← deref compute.InstanceTypes
    return { cluster with Compute := some { compute with
      InstanceTypes := some (instanceTypes.SetWhitelist (some whitelist)) } }
  else
    let compute ← deref cluster.Compute
    let instanceTypes ← deref compute.InstanceTypes
    return { cluster with Compute := some { compute with
      InstanceTypes := some (instanceTypes.SetWhitelist none) } }

/-- The create-mapper of the `blacklist` field (third argument of `NewGenericField`); the
result is the cluster the mapper leaves behind. -/
def blacklistOnCreate (names : FilterNames) (cluster : Cluster) (rd : ResourceData) :
    GoResult Cluster := do
  if (rd.GetOk names.Blacklist).2 then
    let blacklist ← expandInstanceTypeList (rd.GetOk names.Blacklist).1
    let compute ← deref cluster.Compute
    let instanceTypes ← deref compute.InstanceTypes
    return { cluster with Compute := some { compute with
      InstanceTypes := some (instanceTypes.SetBlacklist (some blacklist)) } }
  return cluster

/-- The update-mapper of the `blacklist` field (fourth argument of `NewGenericField`). -/
def blacklistOnUpdate (names : FilterNames) (cluster : Cluster) (rd : ResourceData) :
    GoResult Cluster := do
  if (rd.GetOk names.Blacklist).2 then
    let blacklist ← expandInstanceTypeList (rd.GetOk names.Blacklist).1
    let compute ← deref cluster.Compute
    let instanceTypes ← deref compute.InstanceTypes
    return { cluster with Compute := some { compute with
      InstanceTypes := some (instanceTypes.SetBlacklist (some blacklist)) } }
  else
    let compute ← deref cluster.Compute
    let instanceTypes ← deref compute.InstanceTypes
    return { cluster with Compute := some { compute with
      InstanceTypes := some (instanceTypes.SetBlacklist none) } }

/-- The create-mapper of the `filters` field. -/
def filtersOnCreate (names : FilterNames) (cluster : Cluster) (rd : ResourceData) :
    GoResult Cluster := do
  if (rd.GetOk names.Filters).2 then
    let filters ← expandFilters names (rd.GetOk names.Filters).1 false
    let compute ← deref cluster.Compute
    let instanceTypes ← deref compute.InstanceTypes
    return { cluster with Compute := some { compute with
      InstanceTypes := some (instanceTypes.SetFilters (some filters)) } }
  return cluster

/-- The update-mapper of the `filters` field. -/
def filtersOnUpdate (names : FilterNames) (cluster : Cluster) (rd : ResourceData) :
    GoResult Cluster := do
  let value : Option Filters ←
    (if (rd.GetOk names.Filters).2 then do
      let filters ← expandFilters names (rd.GetOk names.Filters).1 true
      pure (some filters)
    else pure none)
  let compute ← deref cluster.Compute
  let instanceTypes : InstanceTypes :=
    match compute.InstanceTypes with
    | none => {}
    | some instanceTypes => instanceTypes
  return { cluster with Compute := some { compute with
    InstanceTypes := some (instanceTypes.SetFilters value) } }

/-! ## Ingress of the Spark cluster (`ocean_spark_ingress`) -/

/-- Names of the ingress fields, constants of the package outside the embedded sources. -/
structure IngressNames where
  Ingress : String
  ServiceAnnotations : String
  Controller : String
  LoadBalancer : String
  CustomEndpoint : String
  PrivateLink : String
  Managed : String
  TargetGroupARN : String
  Enabled : String
  Address : String
  VPCEndpointService : String

/-- A `map[string]string`, as an association list. -/
abbrev Annotations := List (String × String)

/-- SDK `spark.IngressConfigController`. -/
structure IngressConfigController where
  Managed : Option Bool := none
  nullFields : List String := []
  deriving DecidableEq, Repr

/-- SDK setter: assigns the field and records it in `nullFields` when the value is nil. -/
def IngressConfigController.SetManaged (o : IngressConfigController) (v : Option Bool) :
    IngressConfigController :=
  { o with Managed := v,
           nullFields := if v.isNone then o.nullFields ++ ["Managed"] else o.nullFields }

/-- SDK `spark.IngressConfigLoadBalancer`. -/
structure IngressConfigLoadBalancer where
  Managed : Option Bool := none
  TargetGroupARN : Option String := none
  ServiceAnnotations : Option Annotations := none
  nullFields : List String := []
  deriving DecidableEq, Repr

/-- SDK setter: assigns the field and records it in `nullFields` when the value is nil. -/
def IngressConfigLoadBalancer.SetManaged (o : IngressConfigLoadBalancer) (v : Option Bool) :
    IngressConfigLoadBalancer :=
  { o with Managed := v,
           nullFields := if v.isNone then o.nullFields ++ ["Managed"] else o.nullFields }

/-- SDK setter: assigns the field and records it in `nullFields` when the value is nil. -/
def IngressConfigLoadBalancer.SetTargetGroupARN (o : IngressConfigLoadBalancer)
    (v : Option String) : IngressConfigLoadBalancer :=
  { o with TargetGroupARN := v,
           nullFields := if v.isNone then o.nullFields ++ ["TargetGroupARN"] else o.nullFields }

/-- SDK setter: assigns the field and records it in `nullFields` when the value is nil. -/
def IngressConfigLoadBalancer.SetServiceAnnotations (o : IngressConfigLoadBalancer)
    (v : Option Annotations) : IngressConfigLoadBalancer :=
  { o with ServiceAnnotations := v,
           nullFields :=
             if v.isNone then o.nullFields ++ ["ServiceAnnotations"] else o.nullFields }

/-- SDK `spark.IngressConfigCustomEndpoint`. -/
structure IngressConfigCustomEndpoint where
  Enabled : Option Bool := none
  Address : Option String := none
  nullFields : List String := []
  deriving DecidableEq, Repr

/-- SDK setter: assigns the field and records it in `nullFields` when the value is nil. -/
def IngressConfigCustomEndpoint.SetEnabled (o : IngressConfigCustomEndpoint) (v : Option Bool) :
    IngressConfigCustomEndpoint :=
  { o with Enabled := v,
           nullFields := if v.isNone then o.nullFields ++ ["Enabled"] else o.nullFields }

/-- SDK setter: assigns the field and records it in `nullFields` when the value is nil. -/
def IngressConfigCustomEndpoint.SetAddress (o : IngressConfigCustomEndpoint)
    (v : Option String) : IngressConfigCustomEndpoint :=
  { o with Address := v,
           nullFields := if v.isNone then o.nullFields ++ ["Address"] else o.nullFields }

/-- SDK `spark.IngressConfigPrivateLink`. -/
structure IngressConfigPrivateLink where
  Enabled : Option Bool := none
  VPCEndpointService : Option String := none
  nullFields : List String := []
  deriving DecidableEq, Repr

/-- SDK setter: assigns the field and records it in `nullFields` when the value is nil. -/
def IngressConfigPrivateLink.SetEnabled (o : IngressConfigPrivateLink) (v : Option Bool) :
    IngressConfigPrivateLink :=
  { o with Enabled := v,
           nullFields := if v.isNone then o.nullFields ++ ["Enabled"] else o.nullFields }

/-- SDK setter: assigns the field and records it in `nullFields` when the value is nil. -/
def IngressConfigPrivateLink.SetVPCEndpointService (o : IngressConfigPrivateLink)
    (v : Option String) : IngressConfigPrivateLink :=
  { o with VPCEndpointService := v,
           nullFields :=
             if v.isNone then o.nullFields ++ ["VPCEndpointService"] else o.nullFields }

/-- SDK `spark.IngressConfig`. -/
structure IngressConfig where
  ServiceAnnotations : Option Annotations := none
  Controller : Option IngressConfigController := none
  LoadBalancer : Option IngressConfigLoadBalancer := none
  CustomEndpoint : Option IngressConfigCustomEndpoint := none
  PrivateLink : Option IngressConfigPrivateLink := none
  nullFields : List String := []
  deriving DecidableEq, Repr

/-- SDK setter: assigns the field and records it in `nullFields` when the value is nil. -/
def IngressConfig.SetServiceAnnotations (o : IngressConfig) (v : Option Annotations) :
    IngressConfig :=
  { o with ServiceAnnotations := v,
           nullFields :=
             if v.isNone then o.nullFields ++ ["ServiceAnnotations"] else o.nullFields }

/-- SDK setter: assigns the field and records it in `nullFields` when the value is nil. -/
def IngressConfig.SetController (o : IngressConfig) (v : Option IngressConfigController) :
    IngressConfig :=
  { o with Controller := v,
           nullFields := if v.isNone then o.nullFields ++ ["Controller"] else o.nullFields }

/-- SDK setter: assigns the field and records it in `nullFields` when the value is nil. -/
def IngressConfig.SetLoadBalancer (o : IngressConfig) (v : Option IngressConfigLoadBalancer) :
    IngressConfig :=
  { o with LoadBalancer := v,
           nullFields := if v.isNone then o.nullFields ++ ["LoadBalancer"] else o.nullFields }

/-- SDK setter: assigns the field and records it in `nullFields` when the value is nil. -/
def IngressConfig.SetCustomEndpoint (o : IngressConfig)
    (v : Option IngressConfigCustomEndpoint) : IngressConfig :=
  { o with CustomEndpoint := v,
           nullFields := if v.isNone then o.nullFields ++ ["CustomEndpoint"] else o.nullFields }

/-- SDK setter: assigns the field and records it in `nullFields` when the value is nil. -/
def IngressConfig.SetPrivateLink (o : IngressConfig) (v : Option IngressConfigPrivateLink) :
    IngressConfig :=
  { o with PrivateLink := v,
           nullFields := if v.isNone then o.nullFields ++ ["PrivateLink"] else o.nullFields }

/-- SDK `spark.Config`: `Ingress` and, in `rest`, all other fields. -/
structure SparkConfig where
  Ingress : Option IngressConfig := none
  nullFields : List String := []
  rest : String := ""
  deriving DecidableEq, Repr

/-- SDK setter: assigns the field and records it in `nullFields` when the value is nil. -/
def SparkConfig.SetIngress (o : SparkConfig) (v : Option IngressConfig) : SparkConfig :=
  { o with Ingress := v,
           nullFields := if v.isNone then o.nullFields ++ ["Ingress"] else o.nullFields }

/-- SDK `spark.Cluster`: `Config` and, in `rest`, all other fields. -/
structure SparkCluster where
  Config : Option SparkConfig := none
  rest : String := ""
  deriving DecidableEq, Repr

/-- The `for k, v := range m` loop of `expandAnnotations`, from the entries still to visit
and the `result` built so far: every value must be a string. -/
def annotationsLoop : List (String × Value) → Annotations → GoResult Annotations
  | [], result => .ok result
  | (k, v) :: rest, result =>
    if v.asString.2 then
      annotationsLoop rest (mapSet result k v.asString.1)
    else
      .err (GoError.errorf "could not cast annotation value to string" [])

/-- The map returned on success is the non-nil map built by `make`. -/
def expandAnnotations (data : Value) : GoResult Annotations :=
  if data.asMap.2 then
    annotationsLoop data.asMap.1 []
  else
    .err (GoError.errorf "could not cast annotations" [])

/-- The result is the non-nil map built by `make`, also for a nil argument. -/
def flattenAnnotations (annotations : Option Annotations) : List (String × Value) :=
  (annotations.getD []).foldl (fun result kv => mapSet result kv.1 (Value.str kv.2)) []

def expandController (names : IngressNames) (data : Value) (nullify : Bool) :
    GoResult IngressConfigController := do
  let controller : IngressConfigController := {}
  let list ← toSlice data
  if list.isNone then
    return controller
  else
    let first ← elem0 list
    if first.isNil then
      return controller
    else
      let m ← toMap first
      let controller :=
        if (mapGet m names.Managed).1.asBool.2 then
          controller.SetManaged (some (mapGet m names.Managed).1.asBool.1)
        else if nullify then controller.SetManaged none
        else controller
      return controller

def expandLoadBalancer (names : IngressNames) (data : Value) (nullify : Bool) :
    GoResult IngressConfigLoadBalancer := do
  let loadBalancer : IngressConfigLoadBalancer := {}
  let list ← toSlice data
  if list.isNone then
    return loadBalancer
  else
    let first ← elem0 list
    if first.isNil then
      return loadBalancer
    else
      let m ← toMap first
      let loadBalancer :=
        if (mapGet m names.Managed).1.asBool.2 then
          loadBalancer.SetManaged (some (mapGet m names.Managed).1.asBool.1)
        else if nullify then loadBalancer.SetManaged none
        else loadBalancer
      let loadBalancer :=
        if (mapGet m names.TargetGroupARN).1.asString.2 then
          loadBalancer.SetTargetGroupARN (some (mapGet m names.TargetGroupARN).1.asString.1)
        else if nullify then loadBalancer.SetTargetGroupARN none
        else loadBalancer
      let loadBalancer ← (match mapGet m names.ServiceAnnotations with
        | (v, true) => do
          let annotations ← expandAnnotations v
          if annotations.length > 0 then
            pure (loadBalancer.SetServiceAnnotations (some annotations))
          else if nullify then
            pure (loadBalancer.SetServiceAnnotations none)
          else
            pure loadBalancer
        | (_, false) => pure loadBalancer)
      return loadBalancer

def expandCustomEndpoint (names : IngressNames) (data : Value) (nullify : Bool) :
    GoResult IngressConfigCustomEndpoint := do
  let customEndpoint : IngressConfigCustomEndpoint := {}
  let list ← toSlice data
  if list.isNone then
    return customEndpoint
  else
    let first ← elem0 list
    if first.isNil then
      return customEndpoint
    else
      let m ← toMap first
      let customEndpoint :=
        if (mapGet m names.Enabled).1.asBool.2 then
          customEndpoint.SetEnabled (some (mapGet m names.Enabled).1.asBool.1)
        else if nullify then customEndpoint.SetEnabled none
        else customEndpoint
      let customEndpoint :=
        if (mapGet m names.Address).1.asString.2 then
          customEndpoint.SetAddress (some (mapGet m names.Address).1.asString.1)
        else if nullify then customEndpoint.SetAddress none
        else customEndpoint
      return customEndpoint

def expandPrivateLink (names : IngressNames) (data : Value) (nullify : Bool) :
    GoResult IngressConfigPrivateLink := do
  let privateLink : IngressConfigPrivateLink := {}
  let list ← toSlice data
  if list.isNone then
    return privateLink
  else
    let first ← elem0 list
    if first.isNil then
      return privateLink
    else
      let m ← toMap first
      let privateLink :=
        if (mapGet m names.Enabled).1.asBool.2 then
          privateLink.SetEnabled (some (mapGet m names.Enabled).1.asBool.1)
        else if nullify then privateLink.SetEnabled none
        else privateLink
      let privateLink :=
        if (mapGet m names.VPCEndpointService).1.asString.2 then
          privateLink.SetVPCEndpointService
            (some (mapGet m names.VPCEndpointService).1.asString.1)
        else if nullify then privateLink.SetVPCEndpointService none
        else privateLink
      return privateLink

def expandIngress (names : IngressNames) (data : Value) (nullify : Bool) :
    GoResult IngressConfig := do
  let ingress : IngressConfig := {}
  let list ← toSlice data
  if list.isNone then
    return ingress
  else
    let first ← elem0 list
    if first.isNil then
      return ingress
    else
      let m ← toMap first
      let ingress ← (match mapGet m names.ServiceAnnotations with
        | (v, true) => do
          let annotations ← expandAnnotations v
          if annotations.length > 0 then
            pure (ingress.SetServiceAnnotations (some annotations))
          else if nullify then
            pure (ingress.SetServiceAnnotations none)
          else
            pure ingress
        | (_, false) => pure ingress)
      let ingress ← (match mapGet m names.Controller with
        | (v, true) => do
          let controller ← expandController names v nullify
          pure (ingress.SetController (some controller))
        | (_, false) => pure (if nullify then ingress.SetController none else ingress))
      let ingress ← (match mapGet m names.LoadBalancer with
        | (v, true) => do
          let loadBalancer ← expandLoadBalancer names v nullify
          pure (ingress.SetLoadBalancer (some loadBalancer))
        | (_, false) => pure (if nullify then ingress.SetLoadBalancer none else ingress))
      let ingress ← (match mapGet m names.CustomEndpoint with
        | (v, true) => do
          let customEndpoint ← expandCustomEndpoint names v nullify
          pure (ingress.SetCustomEndpoint (some customEndpoint))
        | (_, false) => pure (if nullify then ingress.SetCustomEndpoint none else ingress))
      let ingress ← (match mapGet m names.PrivateLink with
        | (v, true) => do
          let privateLink ← expandPrivateLink names v nullify
          pure (ingress.SetPrivateLink (some privateLink))
        | (_, false) => pure (if nullify then ingress.SetPrivateLink none else ingress))
      return ingress

def flattenController (names : IngressNames) (controller : Option IngressConfigController) :
    Slice :=
  match controller with
  | none => none
  | some controller =>
    let result : List (String × Value) := []
    let result := mapSet result names.Managed (.bool (BoolValue controller.Managed))
    some [Value.map result]

def flattenLoadBalancer (names : IngressNames)
    (loadBalancer : Option IngressConfigLoadBalancer) : Slice :=
  match loadBalancer with
  | none => none
  | some loadBalancer =>
    let result : List (String × Value) := []
    let result := mapSet result names.ServiceAnnotations
      (.map (flattenAnnotations loadBalancer.ServiceAnnotations))
    let result := mapSet result names.Managed (.bool (BoolValue loadBalancer.Managed))
    let result := mapSet result names.TargetGroupARN
      (.str (StringValue loadBalancer.TargetGroupARN))
    some [Value.map result]

def flattenCustomEndpoint (names : IngressNames)
    (customEndpoint : Option IngressConfigCustomEndpoint) : Slice :=
  match customEndpoint with
  | none => none
  | some customEndpoint =>
    let result : List (String × Value) := []
    let result := mapSet result names.Enabled (.bool (BoolValue customEndpoint.Enabled))
    let result := mapSet result names.Address (.str (StringValue customEndpoint.Address))
    some [Value.map result]

def flattenPrivateLink (names : IngressNames)
    (privateLink : Option IngressConfigPrivateLink) : Slice :=
  match privateLink with
  | none => none
  | some privateLink =>
    let result : List (String × Value) := []
    let result := mapSet result names.Enabled (.bool (BoolValue privateLink.Enabled))
    let result := mapSet result names.VPCEndpointService
      (.str (StringValue privateLink.VPCEndpointService))
    some [Value.map result]

def flattenIngress (names : IngressNames) (ingress : Option IngressConfig) : Slice :=
  match ingress with
  | none => none
  | some ingress =>
    let result : List (String × Value) := []
    let result := mapSet result names.ServiceAnnotations
      (.map (flattenAnnotations ingress.ServiceAnnotations))
    let result := mapSet result names.Controller
      (flattenController names ingress.Controller).toValue
    let result := mapSet result names.LoadBalancer
      (flattenLoadBalancer names ingress.LoadBalancer).toValue
    let result := mapSet result names.CustomEndpoint
      (flattenCustomEndpoint names ingress.CustomEndpoint).toValue
    let result := mapSet result names.PrivateLink
      (flattenPrivateLink names ingress.PrivateLink).toValue
    some [Value.map result]

/-- The create-mapper of the `ingress` field; the result is the cluster the mapper leaves
behind. -/
def ingressOnCreate (names : IngressNames) (cluster : SparkCluster) (rd : ResourceData) :
    GoResult SparkCluster := do
  if (rd.GetOk names.Ingress).2 then
    let ingress ← expandIngress names (rd.GetOk names.Ingress).1 false
    let config : SparkConfig :=
      match cluster.Config with
      | none => {}
      | some config => config
    return { cluster with Config := some (config.SetIngress (some ingress)) }
  return cluster

/-- The update-mapper of the `ingress` field. -/
def ingressOnUpdate (names : IngressNames) (cluster : SparkCluster) (rd : ResourceData) :
    GoResult SparkCluster := do
  let value : Option IngressConfig ←
    (if (rd.GetOk names.Ingress).2 then do
      let ingress ← expandIngress names (rd.GetOk names.Ingress).1 true
      pure (some ingress)
    else pure none)
  let config : SparkConfig :=
    match cluster.Config with
    | none => {}
    | some config => config
  return { cluster with Config := some (config.SetIngress value) }

/-! ## Extensions of the Azure stateful node (`stateful_node_azure_extension`) -/

/-- Names of the extension fields and the read-failure message pattern, constants outside
the embedded sources. -/
structure ExtensionNames where
  Extensions : String
  APIVersion : String
  Name : String
  Publisher : String
  Type_ : String
  MinorVersionAutoUpgrade : String
  ProtectedSettings : String
  PublicSettings : String
  FailureFieldReadPattern : String

/-- SDK `azurev3.Extension`; the field `Type` is written `Type_`, `Type` being a reserved
word. -/
structure Extension where
  APIVersion : Option String := none
  Name : Option String := none
  Publisher : Option String := none
  Type_ : Option String := none
  MinorVersionAutoUpgrade : Option Bool := none
  ProtectedSettings : Option (List (String × Value)) := none
  PublicSettings : Option (List (String × Value)) := none
  nullFields : List String := []

/-- SDK `azurev3.LaunchSpecification`: `Extensions`, a possibly nil slice of possibly nil
pointers, and, in `rest`, all other fields. -/
structure AzureLaunchSpecification where
  Extensions : Option (List (Option Extension)) := none
  nullFields : List String := []
  rest : String := ""

/-- SDK `azurev3.Compute`. -/
structure AzureCompute where
  LaunchSpecification : Option AzureLaunchSpecification := none
  rest : String := ""

/-- SDK `azurev3.StatefulNode`. -/
structure StatefulNode where
  Compute : Option AzureCompute := none
  rest : String := ""

/-- The `for _, extension := range extensions` loop of `flattenExtensions`; dereferencing a
nil element panics. -/
def flattenExtensionsLoop (names : ExtensionNames) :
    List (Option Extension) → GoResult (List Value)
  | [] => .ok []
  | extension :: rest => do
    let extension ← deref extension
    let m : List (String × Value) := []
    let m := mapSet m names.APIVersion (.str (StringValue extension.APIVersion))
    let m := mapSet m names.Name (.str (StringValue extension.Name))
    let m := mapSet m names.Publisher (.str (StringValue extension.Publisher))
    let m := mapSet m names.Type_ (.str (StringValue extension.Type_))
    let m := mapSet m names.MinorVersionAutoUpgrade
      (.bool (BoolValue extension.MinorVersionAutoUpgrade))
    let m := mapSet m names.ProtectedSettings (mapValue extension.ProtectedSettings)
    let m := mapSet m names.PublicSettings (mapValue extension.PublicSettings)
    let result ← flattenExtensionsLoop names rest
    pure (Value.map m :: result)

/-- The result is the non-nil slice built by `make`. -/
def flattenExtensions (names : ExtensionNames) (extensions : List (Option Extension)) :
    GoResult (List Value) :=
  flattenExtensionsLoop names extensions

/-- What a read-mapper did to the resource data: the `resourceData.Set` calls it made, in
order, and the error it returned. -/
structure ReadEffect where
  sets : List (String × Value)
  err : Option GoError

/-- The read-mapper of the `extensions` field (second argument of `NewGenericField`).
`set` is `resourceData.Set`, which may fail. -/
def extensionsOnRead (names : ExtensionNames) (set : String → Value → Option GoError)
    (st : Option StatefulNode) : GoResult ReadEffect := do
  let result : Slice ←
    (match st with
      | none => pure none
      | some st =>
        match st.Compute with
        | none => pure none
        | some compute =>
          match compute.LaunchSpecification with
          | none => pure none
          | some launchSpecification =>
            match launchSpecification.Extensions with
            | none => pure none
            | some extensions => do
              let result ← flattenExtensions names extensions
              pure (some result))
  match result with
  | none => return { sets := [], err := none }
  | some result =>
    match set names.Extensions (Value.slice result) with
    | some err =>
      return { sets := [(names.Extensions, Value.slice result)],
               err := some (GoError.wrapf names.FailureFieldReadPattern [names.Extensions] err) }
    | none => return { sets := [(names.Extensions, Value.slice result)], err := none }

/-- SDK setter: assigns the field and records it in `nullFields` when the value is nil. -/
def Extension.SetAPIVersion (o : Extension) (v : Option String) : Extension :=
  { o with APIVersion := v,
           nullFields := if v.isNone then o.nullFields ++ ["APIVersion"] else o.nullFields }

/-- SDK setter: assigns the field and records it in `nullFields` when the value is nil. -/
def Extension.SetName (o : Extension) (v : Option String) : Extension :=
  { o with Name := v,
           nullFields := if v.isNone then o.nullFields ++ ["Name"] else o.nullFields }

/-- SDK setter: assigns the field and records it in `nullFields` when the value is nil. -/
def Extension.SetPublisher (o : Extension) (v : Option String) : Extension :=
  { o with Publisher := v,
           nullFields := if v.isNone then o.nullFields ++ ["Publisher"] else o.nullFields }

/-- SDK setter: assigns the field and records it in `nullFields` when the value is nil. -/
def Extension.SetType (o : Extension) (v : Option String) : Extension :=
  { o with Type_ := v,
           nullFields := if v.isNone then o.nullFields ++ ["Type"] else o.nullFields }

/-- SDK setter: assigns the field and records it in `nullFields` when the value is nil. -/
def Extension.SetMinorVersionAutoUpgrade (o : Extension) (v : Option Bool) : Extension :=
  { o with MinorVersionAutoUpgrade := v,
           nullFields :=
             if v.isNone then o.nullFields ++ ["MinorVersionAutoUpgrade"] else o.nullFields }

/-- SDK setter: assigns the field and records it in `nullFields` when the value is nil. -/
def Extension.SetProtectedSettings (o : Extension) (v : Option (List (String × Value))) :
    Extension :=
  { o with ProtectedSettings := v,
           nullFields :=
             if v.isNone then o.nullFields ++ ["ProtectedSettings"] else o.nullFields }

/-- SDK setter: assigns the field and records it in `nullFields` when the value is nil. -/
def Extension.SetPublicSettings (o : Extension) (v : Option (List (String × Value))) :
    Extension :=
  { o with PublicSettings := v,
           nullFields := if v.isNone then o.nullFields ++ ["PublicSettings"] else o.nullFields }

/-- SDK setter: assigns the field and records it in `nullFields` when the value is nil. -/
def AzureLaunchSpecification.SetExtensions (o : AzureLaunchSpecification)
    (v : Option (List (Option Extension))) : AzureLaunchSpecification :=
  { o with Extensions := v,
           nullFields := if v.isNone then o.nullFields ++ ["Extensions"] else o.nullFields }

/-- The body of the loop of `expandExtensions` for an element that is the map `ext`: the
extension built from it. A settings entry that is a map is passed to the setter as it is, a
nil map included. -/
def expandExtension (names : ExtensionNames) (ext : List (String × Value)) : Extension :=
  let extension : Extension := {}
  let extension :=
    if (mapGet ext names.APIVersion).1.asString.2 &&
        (mapGet ext names.APIVersion).1.asString.1 != "" then
      extension.SetAPIVersion (some (mapGet ext names.APIVersion).1.asString.1)
    else extension
  let extension :=
    if (mapGet ext names.Name).1.asString.2 && (mapGet ext names.Name).1.asString.1 != "" then
      extension.SetName (some (mapGet ext names.Name).1.asString.1)
    else extension
  let extension :=
    if (mapGet ext names.Publisher).1.asString.2 &&
        (mapGet ext names.Publisher).1.asString.1 != "" then
      extension.SetPublisher (some (mapGet ext names.Publisher).1.asString.1)
    else extension
  let extension :=
    if (mapGet ext names.Type_).1.asString.2 && (mapGet ext names.Type_).1.asString.1 != "" then
      extension.SetType (some (mapGet ext names.Type_).1.asString.1)
    else extension
  let extension :=
    if (mapGet ext names.MinorVersionAutoUpgrade).1.asBool.2 then
      extension.SetMinorVersionAutoUpgrade
        (some (mapGet ext names.MinorVersionAutoUpgrade).1.asBool.1)
    else extension
  let extension :=
    if (mapGet ext names.ProtectedSettings).1.asMapOrNil.2 then
      extension.SetProtectedSettings (mapGet ext names.ProtectedSettings).1.asMapOrNil.1
    else extension
  let extension :=
    if (mapGet ext names.PublicSettings).1.asMapOrNil.2 then
      extension.SetPublicSettings (mapGet ext names.PublicSettings).1.asMapOrNil.1
    else extension
  extension

/-- The `for _, v := range list` loop of `expandExtensions`, from the elements still to
visit and the slice `extensions` built so far: an element that is not a map is skipped,
an element that is a map appends one extension. -/
def expandExtensionsLoop (names : ExtensionNames) :
    List Value → Option (List (Option Extension)) → Option (List (Option Extension))
  | [], extensions => extensions
  | v :: rest, extensions =>
    if v.asMap.2 then
      expandExtensionsLoop names rest
        (some (extensions.getD [] ++ [some (expandExtension names v.asMap.1)]))
    else
      expandExtensionsLoop names rest extensions

/-- The error returned is always nil. -/
def expandExtensions (names : ExtensionNames) (data : Value)
    (extensions : Option (List (Option Extension))) :
    GoResult (Option (List (Option Extension))) := do
  let list ← toSetList data
  return expandExtensionsLoop names list extensions

/-- The create-mapper of the `extensions` field (third argument of `NewGenericField`); the
result is the node the mapper leaves behind. The local `extensions` is the list held by the
launch specification (nil when that list is nil). -/
def extensionsOnCreate (names : ExtensionNames) (st : Option StatefulNode)
    (rd : ResourceData) : GoResult (Option StatefulNode) :=
  if (rd.GetOk names.Extensions).2 then
    match st with
    | none => pure st
    | some node =>
      match node.Compute with
      | none => pure st
      | some compute =>
        match compute.LaunchSpecification with
        | none => pure st
        | some launchSpecification => do
          let extensions := launchSpecification.Extensions
          let value ← expandExtensions names (rd.GetOk names.Extensions).1 extensions
          pure (some { node with Compute := some { compute with
            LaunchSpecification := some (launchSpecification.SetExtensions value) } })
  else
    pure st

/-- The update-mapper of the `extensions` field (fourth argument of `NewGenericField`). -/
def extensionsOnUpdate (names : ExtensionNames) (st : Option StatefulNode)
    (rd : ResourceData) : GoResult (Option StatefulNode) :=
  if (rd.GetOk names.Extensions).2 then
    match st with
    | none => pure st
    | some node =>
      match node.Compute with
      | none => pure st
      | some compute =>
        match compute.LaunchSpecification with
        | none => pure st
        | some launchSpecification => do
          let extensions := launchSpecification.Extensions
          let value ← expandExtensions names (rd.GetOk names.Extensions).1 extensions
          pure (some { node with Compute := some { compute with
            LaunchSpecification := some (launchSpecification.SetExtensions value) } })
  else
    pure st

/-! ## Specification-side vocabulary -/

/-- The error is an error list holding an entry with code `CLUSTER_DOESNT_EXIST`. -/
def GoError.HasNotFoundCode (err : GoError) : Prop :=
  ∃ errs, err = GoError.clientErrors errs ∧ ∃ e ∈ errs, e.Code = "CLUSTER_DOESNT_EXIST"

/-- The events a run added to the log of the state it started in. -/
def newEvents {α : Type} (s : St) (o : Outcome α) : List Event := o.st.trace.drop s.trace.length

/-- The first block of the update policy, when the configuration holds one as a non-nil
map; a block that is a nil map has no entry and sets no flag. -/
def policyBlock (names : FieldNames) (rd : ResourceData) : Option (List (String × Value)) :=
  match rd.GetOkExists names.UpdatePolicy with
  | (.slice (.map m :: _), true) => some m
  | _ => none

/-- The boolean field `key` of the update policy is set to true. -/
def policyFlag (names : FieldNames) (rd : ResourceData) (key : String) : Bool :=
  match policyBlock names rd with
  | some m =>
    match m.lookup key with
    | some (.bool b) => b
    | _ => false
  | none => false

/-- The update policy is present with a dynamic type the controller cannot read: it is not
a list, or its first element is neither nil nor a map. -/
def policyMalformed (names : FieldNames) (rd : ResourceData) : Bool :=
  match rd.GetOkExists names.UpdatePolicy with
  | (_, false) => false
  | (.nilSlice, true) => false
  | (.slice [], true) => false
  | (.slice (.nil :: _), true) => false
  | (.slice (.map _ :: _), true) => false
  | (.slice (.nilMap :: _), true) => false
  | _ => true

/-- The roll gate of `updateAWSCluster`, on the configured flags. -/
def rollGate (names : FieldNames) (rd : ResourceData) (changesRequiredRoll tagsChanged : Bool) :
    Prop :=
  policyFlag names rd names.ShouldRoll = true ∧
    (policyFlag names rd names.ConditionedRoll = false ∨ changesRequiredRoll = true ∨
      (policyFlag names rd names.AutoApplyTags = false ∧ tagsChanged = true))

instance (names : FieldNames) (rd : ResourceData) (crr tc : Bool) :
    Decidable (rollGate names rd crr tc) := by
  unfold rollGate
  infer_instance

/-- The configuration value is a non-empty string. -/
def Value.isNonEmptyString : Value → Bool
  | .str s => s != ""
  | _ => false

/-- The settling delay `createAWSCluster` logs before the create call: ten seconds when the
IAM instance profile is configured as a non-empty string, nothing otherwise. -/
def settleEvents (names : FieldNames) (rd : ResourceData) : List Event :=
  if (rd.Get names.IAMInstanceProfile).isNonEmptyString then
    [Event.Sleep (10 * time.Second)]
  else
    []

/-- Events of the roll step. -/
def IsRollEvent : Event → Prop
  | .RollInvoked => True
  | .CreateRoll _ _ => True
  | _ => False

/-- Events of Read. -/
def IsReadEvent : Event → Prop
  | .ReadCluster _ _ => True
  | .OnRead _ => True
  | _ => False

/-- Every run of `m` only appends events satisfying `P` to the log. -/
structure Emits {α : Type} (P : Event → Prop) (m : M α) : Prop where
  out : ∀ s, ∃ l, (m s).st.trace = s.trace ++ l ∧ ∀ e ∈ l, P e

/-- No run of `m` changes the resource data. -/
structure Keeps {α : Type} (m : M α) : Prop where
  out : ∀ s, (m s).st.rd = s.rd

/-- Whether a log entry is a `CreateCluster` call. -/
def Event.isCreateCall : Event → Bool
  | .CreateCluster _ _ => true
  | _ => false

/-- The error `rollOceanAWSCluster` returns when the roll configuration is missing. -/
def missingRollConfig (clusterID : String) : GoError :=
  GoError.errorf "ocean/aws: missing roll configuration, skipping roll for cluster %q"
    [clusterID]

/-- The integer configured under `key`, if the entry is an `int`. -/
def configuredInt (m : List (String × Value)) (key : String) : Option Int :=
  match m.lookup key with
  | some (.int i) => some i
  | _ => none

/-- The boolean configured under `key`, if the entry is a `bool`. -/
def configuredBool (m : List (String × Value)) (key : String) : Option Bool :=
  match m.lookup key with
  | some (.bool b) => some b
  | _ => none

/-! ## Specification-side reading of `expandFilters` -/

/-- The strings a set-valued entry expands to: its non-empty string elements; nothing for a
value that is not a set. -/
def setStrings : Value → List String
  | .set xs => instanceTypeLoop xs
  | _ => []

/-- A set-valued filter field: set from a present, non-empty entry; cleared from a present,
empty entry when nullifying; otherwise left as it is. -/
def listStep (g : Value × Bool) (nullify : Bool)
    (set : Filters → Option (List String) → Filters) (f : Filters) : Filters :=
  if g.2 = true then
    if (setStrings g.1).length > 0 then set f (some (setStrings g.1))
    else if nullify = true then set f none
    else f
  else f

/-- A boolean filter field: set from an entry that is a `bool`. -/
def boolStep (g : Value × Bool) (set : Filters → Option Bool → Filters) (f : Filters) :
    Filters :=
  if g.1.asBool.2 = true then set f (some g.1.asBool.1) else f

/-- An integer filter field: set from an entry that is an `int` greater than zero. -/
def intStep (g : Value × Bool) (set : Filters → Option Int → Filters) (f : Filters) :
    Filters :=
  if (g.1.asInt.2 && decide (g.1.asInt.1 > 0)) = true then set f (some g.1.asInt.1) else f

/-- A float filter field: set from an entry that is a `float64` greater than zero. -/
def floatStep (g : Value × Bool) (set : Filters → Option Rat → Filters) (f : Filters) :
    Filters :=
  if (g.1.asFloat.2 && decide (g.1.asFloat.1 > 0)) = true then set f (some g.1.asFloat.1) else f

/-- The filters `expandFilters` builds from the entries of the map `m`, field by field. -/
def filtersOf (names : FilterNames) (m : List (String × Value)) (nullify : Bool) : Filters :=
  let f : Filters := {}
  let f := listStep (mapGet m names.Architectures) nullify Filters.SetArchitectures f
  let f := listStep (mapGet m names.Categories) nullify Filters.SetCategories f
  let f := listStep (mapGet m names.DiskTypes) nullify Filters.SetDiskTypes f
  let f := listStep (mapGet m names.ExcludeFamilies) nullify Filters.SetExcludeFamilies f
  let f := listStep (mapGet m names.Hypervisor) nullify Filters.SetHypervisor f
  let f := boolStep (mapGet m names.ExcludeMetal) Filters.SetExcludeMetal f
  let f := listStep (mapGet m names.IncludeFamilies) nullify Filters.SetIncludeFamilies f
  let f := boolStep (mapGet m names.IsEnaSupported) Filters.SetIsEnaSupported f
  let f := intStep (mapGet m names.MaxGpu) Filters.SetMaxGpu f
  let f := floatStep (mapGet m names.MaxMemoryGiB) Filters.SetMaxMemoryGiB f
  let f := intStep (mapGet m names.MaxNetworkPerformance) Filters.SetMaxNetworkPerformance f
  let f := intStep (mapGet m names.MaxVcpu) Filters.SetMaxVcpu f
  let f := intStep (mapGet m names.MinEnis) Filters.SetMinEnis f
  let f := intStep (mapGet m names.MinGpu) Filters.SetMinGpu f
  let f := floatStep (mapGet m names.MinMemoryGiB) Filters.SetMinMemoryGiB f
  let f := intStep (mapGet m names.MinNetworkPerformance) Filters.SetMinNetworkPerformance f
  let f := intStep (mapGet m names.MinVcpu) Filters.SetMinVcpu f
  let f := listStep (mapGet m names.RootDeviceTypes) nullify Filters.SetRootDeviceTypes f
  let f := listStep (mapGet m names.VirtualizationTypes) nullify Filters.SetVirtualizationTypes f
  f

/-- Every set-valued filter entry of `m` that is present holds a `*schema.Set`. -/
def SetsWellTyped (names : FilterNames) (m : List (String × Value)) : Prop :=
  ∀ key ∈ [names.Architectures, names.Categories, names.DiskTypes, names.ExcludeFamilies,
      names.Hypervisor, names.IncludeFamilies, names.RootDeviceTypes,
      names.VirtualizationTypes],
    ∀ v, m.lookup key = some v → ∃ xs, v = Value.set xs

/-- The entry a cleared set-valued field leaves in `nullFields`: the field name when the
entry is present, expands to no string and the expansion nullifies; nothing otherwise. -/
def cleared (g : Value × Bool) (nullify : Bool) (name : String) : List String :=
  if g.2 = true ∧ (setStrings g.1).length = 0 ∧ nullify = true then [name] else []

/-- The function `set` behaves as the SDK setter of the field called `name`: it appends the
name to `nullFields` exactly when the value is nil. -/
def IsSetter {α : Type} (name : String) (set : Filters → Option α → Filters) : Prop :=
  ∀ f v, (set f v).nullFields = f.nullFields ++ (if v.isNone = true then [name] else [])

/-- The extensions list the read-mapper reaches from the node: nil when the node, its
`Compute`, its `LaunchSpecification` or the list itself is nil. -/
def extensionsOf (st : Option StatefulNode) : Option (List (Option Extension)) :=
  match st with
  | none => none
  | some st =>
    match st.Compute with
    | none => none
    | some compute =>
      match compute.LaunchSpecification with
      | none => none
      | some launchSpecification => launchSpecification.Extensions

/-- The string configured under `key`, if the entry is a `string`. -/
def configuredString (m : List (String × Value)) (key : String) : Option String :=
  match m.lookup key with
  | some (.str s) => some s
  | _ => none

/-- The entry a nested scalar leaves in `nullFields`: the field name when no value of the
field's type is configured and the expansion nullifies; nothing otherwise. -/
def clearedScalar {α : Type} (configured : Option α) (nullify : Bool) (name : String) :
    List String :=
  if configured.isNone = true ∧ nullify = true then [name] else []

/-- The entry a nested block leaves in `nullFields`: the field name when the key is missing
and the expansion nullifies; nothing otherwise. -/
def clearedBlock (g : Value × Bool) (nullify : Bool) (name : String) : List String :=
  if g.2 = false ∧ nullify = true then [name] else []

/-- The entry an annotations map leaves in `nullFields`: the field name when the key is
present, the entry expands to the empty map and the expansion nullifies; nothing
otherwise. -/
def clearedAnnotations (g : Value × Bool) (nullify : Bool) (name : String) : List String :=
  if g.2 = true ∧ expandAnnotations g.1 = GoResult.ok [] ∧ nullify = true then [name] else []

/-- The strings configured under `key`, if the entry is present and expands to at least one
string. -/
def configuredSet (m : List (String × Value)) (key : String) : Option (List String) :=
  if (mapGet m key).2 = true ∧ (setStrings (mapGet m key).1).length > 0 then
    some (setStrings (mapGet m key).1)
  else none

/-- The elements that are non-empty strings, in their order. -/
def nonEmptyStrings (xs : List Value) : List String :=
  xs.filterMap (fun v =>
    match v with
    | .str s => if s = "" then none else some s
    | _ => none)

/-- The elements of a configured set that are maps, in their order, by their entries: a nil
map has none. -/
def mapShaped (xs : List Value) : List (List (String × Value)) :=
  xs.filterMap (fun v =>
    match v with
    | .map kvs => some kvs
    | .nilMap => some []
    | _ => none)

/-- A string-to-string map held as a `map[string]interface{}`. -/
def Annotations.toValues (a : Annotations) : List (String × Value) :=
  a.map (fun kv => (kv.1, Value.str kv.2))

/-- The result is the panic of a nil-pointer dereference. -/
def GoResult.isNilDereference {α : Type} : GoResult α → Bool
  | .panic msg => msg == "invalid memory address or nil pointer dereference"
  | _ => false

/-! ## Sample configurations used to instantiate the theorems -/

def sampleNames : FieldNames :=
  { UpdatePolicy := "update_policy"
    ShouldRoll := "should_roll"
    ConditionedRoll := "conditioned_roll"
    AutoApplyTags := "auto_apply_tags"
    RollConfig := "roll_config"
    BatchSizePercentage := "batch_size_percentage"
    LaunchSpecIDs := "launch_spec_ids"
    BatchMinHealthyPercentage := "batch_min_healthy_percentage"
    RespectPDB := "respect_pdb"
    IAMInstanceProfile := "iam_instance_profile" }

def sampleCluster : Cluster := { ID := some "o-1", rest := "spec" }

/-- An environment in which every collaborator succeeds. -/
def sampleEnv : Env :=
  { names := sampleNames
    OnCreate := fun _ => .ok { ID := none, rest := "spec" }
    OnRead := fun _ rd => (none, rd)
    OnUpdate := fun _ => .ok (true, false, false, { ID := none, rest := "spec" })
    ToJsonCluster := fun _ => .ok "json"
    ToJsonValue := fun _ => .ok "json"
    ToJsonDeleteInput := fun _ => .ok "json"
    CreateCluster := fun _ _ => .ok { Cluster := some sampleCluster }
    ReadCluster := fun _ _ => .ok { Cluster := some sampleCluster }
    UpdateCluster := fun _ _ => none
    DeleteCluster := fun _ _ => none
    CreateRoll := fun _ _ => none
    retries := 3 }

/-- Resource data with identity `o-1`, the given update policy and IAM instance profile. -/
def sampleData (policy : Value × Bool) (profile : Value) : ResourceData :=
  { id := "o-1"
    Get := fun k => if k = "iam_instance_profile" then profile else Value.nil
    GetOkExists := fun k => if k = "update_policy" then policy else (Value.nil, false) }

/-- A state with an empty log. -/
def sampleState (policy : Value × Bool) (profile : Value) : St :=
  { rd := sampleData policy profile, trace := [] }

/-- An update policy with one block holding the given entries. -/
def policyOf (kvs : List (String × Value)) : Value × Bool :=
  (Value.slice [Value.map kvs], true)

/-- An environment whose registry reports no change, all else as in `sampleEnv`. -/
def sampleEnvNoChange : Env :=
  { sampleEnv with OnUpdate := fun _ => .ok (false, false, false, { ID := none, rest := "spec" }) }

/-- An environment whose remote `UpdateCluster` call fails, all else as in `sampleEnv`. -/
def sampleEnvUpdateFails : Env :=
  { sampleEnv with UpdateCluster := fun _ _ => some (GoError.other "update refused") }

/-- An environment whose registry fails to compare the configurations. -/
def sampleEnvRegistryFails : Env :=
  { sampleEnv with OnUpdate := fun _ => .error (GoError.other "unexpected value shape") }

/-- An environment in which a delete request cannot be marshalled. -/
def sampleEnvMarshalFails : Env :=
  { sampleEnv with ToJsonDeleteInput := fun _ => .error (GoError.other "unsupported value") }

/-- An environment whose `ReadCluster` call returns the given answer. -/
def sampleEnvRead (r : Except GoError ClusterOutput) : Env :=
  { sampleEnv with ReadCluster := fun _ _ => r }

/-- An environment whose `DeleteCluster` call returns the given error. -/
def sampleEnvDelete (r : Option GoError) : Env :=
  { sampleEnv with DeleteCluster := fun _ _ => r }

/-- An environment whose `CreateCluster` call returns the given answer. -/
def sampleEnvCreate (r : Except GoError ClusterOutput) : Env :=
  { sampleEnv with CreateCluster := fun _ _ => r }

/-- A state with no identity yet and an empty log. -/
def freshState (profile : Value) : St :=
  { rd := { sampleData (Value.nil, false) profile with id := "" }, trace := [] }

/-- An environment whose `CreateRoll` call fails, all else as in `sampleEnv`. -/
def sampleEnvRollFails : Env :=
  { sampleEnv with CreateRoll := fun _ _ => some (GoError.other "roll rejected") }

/-- An update policy asking for an unconditioned roll with the given roll configuration
entries. -/
def rollingPolicy (rollConfig : List (String × Value)) : Value × Bool :=
  policyOf [("should_roll", .bool true), ("roll_config", .slice [.map rollConfig])]

def sampleFilterNames : FilterNames :=
  { Whitelist := "whitelist"
    Blacklist := "blacklist"
    Filters := "filters"
    Architectures := "architectures"
    Categories := "categories"
    DiskTypes := "disk_types"
    ExcludeFamilies := "exclude_families"
    ExcludeMetal := "exclude_metal"
    Hypervisor := "hypervisor"
    IncludeFamilies := "include_families"
    IsEnaSupported := "is_ena_supported"
    MaxGpu := "max_gpu"
    MaxMemoryGiB := "max_memory_gib"
    MaxNetworkPerformance := "max_network_performance"
    MaxVcpu := "max_vcpu"
    MinEnis := "min_enis"
    MinGpu := "min_gpu"
    MinMemoryGiB := "min_memory_gib"
    MinNetworkPerformance := "min_network_performance"
    MinVcpu := "min_vcpu"
    RootDeviceTypes := "root_device_types"
    VirtualizationTypes := "virtualization_types" }

def sampleIngressNames : IngressNames :=
  { Ingress := "ingress"
    ServiceAnnotations := "service_annotations"
    Controller := "controller"
    LoadBalancer := "load_balancer"
    CustomEndpoint := "custom_endpoint"
    PrivateLink := "private_link"
    Managed := "managed"
    TargetGroupARN := "target_group_arn"
    Enabled := "enabled"
    Address := "address"
    VPCEndpointService := "vpc_endpoint_service" }

def sampleExtensionNames : ExtensionNames :=
  { Extensions := "extension"
    APIVersion := "api_version"
    Name := "name"
    Publisher := "publisher"
    Type_ := "type"
    MinorVersionAutoUpgrade := "minor_version_auto_upgrade"
    ProtectedSettings := "protected_settings"
    PublicSettings := "public_settings"
    FailureFieldReadPattern := "failed reading field %s - %v" }

/-- Resource data in which `GetOk` finds the given entries and nothing else. -/
def configuredData (entries : List (String × Value)) : ResourceData :=
  { id := "o-1"
    Get := fun _ => Value.nil
    GetOkExists := fun _ => (Value.nil, false)
    GetOk := fun k => mapGet entries k }

/-- Instance types holding a whitelist, a blacklist and filters from an earlier run. -/
def sampleInstanceTypes : InstanceTypes :=
  { Whitelist := some ["m5.large"]
    Blacklist := some ["t2.micro"]
    Filters := some { MaxGpu := some 4 } }

def sampleCompute : Compute := { InstanceTypes := some sampleInstanceTypes }

/-- A cluster whose `Compute` and `Compute.InstanceTypes` are set. -/
def sampleAWSCluster : Cluster :=
  { ID := some "o-1", rest := "spec", Compute := some sampleCompute }

/-- A cluster whose `Compute` is set and whose `Compute.InstanceTypes` is nil. -/
def sampleClusterNoTypes : Cluster := { ID := some "o-1", rest := "spec", Compute := some {} }

/-- A Spark cluster holding an ingress configuration from an earlier run. -/
def sampleSparkCluster : SparkCluster :=
  { Config := some { Ingress := some { Controller := some { Managed := some true } } } }

/-- A stateful node whose launch specification holds the given extensions. -/
def sampleNode (extensions : Option (List (Option Extension))) : StatefulNode :=
  { Compute := some { LaunchSpecification := some { Extensions := extensions } } }

/-- An extension held by the node from an earlier run. -/
def sampleExtension : Extension :=
  { Name := some "monitor", Publisher := some "Microsoft.Azure.Monitor",
    Type_ := some "AzureMonitorLinuxAgent", APIVersion := some "1.0",
    MinorVersionAutoUpgrade := some true }

/-- A configured set of extensions: one map, whose protected settings are a nil map, and
one element that is not a map. -/
def sampleExtensionSet : Value :=
  Value.set [Value.map [("name", Value.str "script"), ("type", Value.str "CustomScript"),
    ("minor_version_auto_upgrade", Value.bool false), ("protected_settings", Value.nilMap),
    ("public_settings", Value.map [("port", Value.int 22)])], Value.str "stray"]

/-- An update policy asking for an unconditioned roll, whose roll configuration is the empty
list an unconfigured `roll_config` is supplied as. -/
def rollingPolicyUnconfigured : Value × Bool :=
  policyOf [("should_roll", .bool true), ("roll_config", .slice [])]

/-! ## The monad -/

theorem bind_ret_eq {α β : Type} (a : α) (f : α → M β) :
    M.bind (fun s => Outcome.ret a s) f = f a := rfl

theorem bind_fault_eq {α β : Type} (msg : String) (f : α → M β) :
    M.bind (fault msg) f = fault msg := rfl

/-! ## Lemmas on the loops -/

theorem rangeNotFound_iff (errs : List ClientError) :
    rangeNotFound errs = true ↔ ∃ e ∈ errs, e.Code = "CLUSTER_DOESNT_EXIST" := by
  induction errs with
  | nil => simp [rangeNotFound]
  | cons e rest ih =>
    by_cases h : e.Code = ErrCodeClusterNotFound
    · simp only [rangeNotFound, h, if_true, true_iff]
      exact ⟨e, List.mem_cons_self _ _, h⟩
    · have h2 : ¬ e.Code = "CLUSTER_DOESNT_EXIST" := h
      simp [rangeNotFound, h, ih, h2]

theorem isClusterNotFound_iff (err : GoError) :
    isClusterNotFound err = true ↔ err.HasNotFoundCode := by
  cases err with
  | clientErrors errs =>
    simp only [isClusterNotFound, GoError.HasNotFoundCode, Bool.and_eq_true, decide_eq_true_eq,
      rangeNotFound_iff, GoError.clientErrors.injEq, exists_eq_left']
    constructor
    · rintro ⟨_, h⟩
      exact h
    · rintro ⟨e, he, hc⟩
      exact ⟨List.length_pos_of_mem he, e, he, hc⟩
  | _ => simp [isClusterNotFound, GoError.HasNotFoundCode]

/-! ## The update policy -/

theorem asBool_flag (m : List (String × Value)) (key : String) :
    ((mapGet m key).1.asBool.2 && (mapGet m key).1.asBool.1) =
      (match m.lookup key with
        | some (.bool b) => b
        | _ => false) := by
  unfold mapGet
  cases h : m.lookup key with
  | none => simp [Value.asBool]
  | some v => cases v <;> simp [Value.asBool]

theorem policyFlags_eq (env : Env) (s : St) (hwf : policyMalformed env.names s.rd = false) :
    updateAWSCluster.policyFlags env s =
      .ret (policyFlag env.names s.rd env.names.ShouldRoll,
        policyFlag env.names s.rd env.names.ConditionedRoll,
        policyFlag env.names s.rd env.names.AutoApplyTags) s := by
  unfold policyMalformed at hwf
  unfold policyFlag policyBlock
  rcases hg : s.rd.GetOkExists env.names.UpdatePolicy with ⟨v, ex⟩
  rw [hg] at hwf
  cases ex
  · simp [updateAWSCluster.policyFlags, bind, M.bind, pure, rdGetOkExists, hg]
  · cases v with
    | nilSlice =>
      simp [updateAWSCluster.policyFlags, bind, M.bind, pure, rdGetOkExists, hg, assertSlice,
        Slice.len]
    | slice xs =>
      cases xs with
      | nil =>
        simp [updateAWSCluster.policyFlags, bind, M.bind, pure, rdGetOkExists, hg, assertSlice,
          Slice.len]
      | cons first rest =>
        cases first with
        | nil =>
          simp [updateAWSCluster.policyFlags, bind, M.bind, pure, rdGetOkExists, hg,
            assertSlice, Slice.len, index0, Value.isNil]
        | map m =>
          simp only [← asBool_flag]
          simp [updateAWSCluster.policyFlags, bind, M.bind, bind_ret_eq, pure, rdGetOkExists,
            hg, assertSlice, Slice.len, index0, Value.isNil, assertMap]
          generalize (mapGet m env.names.ShouldRoll).1.asBool = p1
          generalize (mapGet m env.names.ConditionedRoll).1.asBool = p2
          generalize (mapGet m env.names.AutoApplyTags).1.asBool = p3
          rcases p1 with ⟨b1, k1⟩
          rcases p2 with ⟨b2, k2⟩
          rcases p3 with ⟨b3, k3⟩
          cases b1 <;> cases k1 <;> cases b2 <;> cases k2 <;> cases b3 <;> cases k3 <;> rfl
        | nilMap =>
          simp [updateAWSCluster.policyFlags, bind, M.bind, pure, rdGetOkExists, hg,
            assertSlice, Slice.len, index0, Value.isNil, assertMap, mapGet, Value.asBool]
        | _ => simp at hwf
    | _ => simp at hwf

theorem policyFlags_fault (env : Env) (s : St) (hwf : policyMalformed env.names s.rd = true) :
    ∃ msg, updateAWSCluster.policyFlags env s = .fault msg s := by
  unfold policyMalformed at hwf
  rcases hg : s.rd.GetOkExists env.names.UpdatePolicy with ⟨v, ex⟩
  rw [hg] at hwf
  cases ex
  · simp at hwf
  · cases v with
    | nilSlice => simp at hwf
    | slice xs =>
      cases xs with
      | nil => simp at hwf
      | cons first rest =>
        cases first with
        | nil => simp at hwf
        | map m => simp at hwf
        | nilMap => simp at hwf
        | _ =>
          exact ⟨"interface conversion: value is not a map[string]interface", by
            simp [updateAWSCluster.policyFlags, bind, M.bind, pure, rdGetOkExists, hg,
              assertSlice, Slice.len, index0, Value.isNil, assertMap, fault]⟩
    | _ =>
      exact ⟨"interface conversion: value is not a []interface", by
        simp [updateAWSCluster.policyFlags, bind, M.bind, pure, rdGetOkExists, hg,
          assertSlice, fault]⟩

/-! ## Update: the remote call and the roll gate -/

theorem updateAWSCluster_fault (env : Env) (c : Cluster) (crr tc : Bool) (s : St)
    (hwf : policyMalformed env.names s.rd = true) :
    ∃ msg, updateAWSCluster env c crr tc s = .fault msg s := by
  obtain ⟨msg, h⟩ := policyFlags_fault env s hwf
  exact ⟨msg, by simp [updateAWSCluster, bind, M.bind, getId, h]⟩

theorem updateAWSCluster_eq (env : Env) (c : Cluster) (crr tc : Bool) (s : St)
    (hwf : policyMalformed env.names s.rd = false) :
    updateAWSCluster env c crr tc s =
      match env.ToJsonCluster c with
      | .error err => .ret (some err) s
      | .ok _ =>
        match env.UpdateCluster s.trace c with
        | some err =>
          .ret (some (GoError.wrapf "[ERROR] Failed to update cluster [%v]: %v" [s.rd.id] err))
            { s with trace := s.trace ++ [Event.UpdateCluster c (some err)] }
        | none =>
          if rollGate env.names s.rd crr tc then
            rollOceanAWSCluster env { s with trace := s.trace ++ [Event.UpdateCluster c none] }
          else
            .ret none { s with trace := s.trace ++ [Event.UpdateCluster c none] } := by
  have hp := policyFlags_eq env s hwf
  cases hj : env.ToJsonCluster c with
  | error e => simp [updateAWSCluster, bind, M.bind, pure, getId, hp, hj]
  | ok j =>
    cases hu : env.UpdateCluster s.trace c with
    | some e => simp [updateAWSCluster, bind, M.bind, pure, getId, hp, hj, hu, callUpdateCluster]
    | none =>
      by_cases hgate : rollGate env.names s.rd crr tc
      · rw [if_pos hgate]
        obtain ⟨h1, h2⟩ := hgate
        have h2b : (policyFlag env.names s.rd env.names.ConditionedRoll = false ∨ crr = true) ∨
            policyFlag env.names s.rd env.names.AutoApplyTags = false ∧ tc = true := by
          tauto
        cases hr : rollOceanAWSCluster env
            { rd := s.rd, trace := s.trace ++ [Event.UpdateCluster c none] } with
        | ret a s2 =>
          cases a <;>
            simp [updateAWSCluster, bind, M.bind, pure, getId, hp, hj, hu, callUpdateCluster, h1,
              h2b, hr]
        | fault msg s2 =>
          simp [updateAWSCluster, bind, M.bind, pure, getId, hp, hj, hu, callUpdateCluster, h1,
            h2b, hr]
      · rw [if_neg hgate]
        by_cases h1 : policyFlag env.names s.rd env.names.ShouldRoll = true
        · have h2b : ¬ ((policyFlag env.names s.rd env.names.ConditionedRoll = false ∨
              crr = true) ∨
              policyFlag env.names s.rd env.names.AutoApplyTags = false ∧ tc = true) := by
            intro h
            exact hgate ⟨h1, by tauto⟩
          simp [updateAWSCluster, bind, M.bind, pure, getId, hp, hj, hu, callUpdateCluster, h1,
            h2b]
        · simp [updateAWSCluster, bind, M.bind, pure, getId, hp, hj, hu, callUpdateCluster, h1]

/-! ## What a run may log, and whether it keeps the resource data -/

theorem emits_pure {α : Type} (P : Event → Prop) (a : α) : Emits P (pure a : M α) :=
  ⟨fun s => ⟨[], by simp [Pure.pure, Outcome.st], by simp⟩⟩

theorem emits_bind {α β : Type} {P : Event → Prop} {m : M α} {f : α → M β}
    (hm : Emits P m) (hf : ∀ a, Emits P (f a)) : Emits P (m >>= f) := by
  constructor
  intro s
  obtain ⟨l1, h1, p1⟩ := hm.out s
  simp only [Bind.bind, M.bind]
  cases hms : m s with
  | ret a s1 =>
    obtain ⟨l2, h2, p2⟩ := (hf a).out s1
    rw [hms] at h1
    simp only [Outcome.st] at h1
    refine ⟨l1 ++ l2, ?_, ?_⟩
    · simp only [h2, h1, List.append_assoc]
    · intro e he
      rcases List.mem_append.1 he with h | h
      · exact p1 e h
      · exact p2 e h
  | fault msg s1 =>
    rw [hms] at h1
    exact ⟨l1, h1, p1⟩

theorem emits_fault {α : Type} (P : Event → Prop) (msg : String) : Emits P (fault msg : M α) :=
  ⟨fun s => ⟨[], by simp [Spotinst.fault, Outcome.st], by simp⟩⟩

theorem emits_emit {P : Event → Prop} {e : Event} (h : P e) : Emits P (emit e) :=
  ⟨fun s => ⟨[e], by simp [Spotinst.emit, Outcome.st], by simpa using h⟩⟩

theorem emits_getId (P : Event → Prop) : Emits P getId :=
  ⟨fun s => ⟨[], by simp [Spotinst.getId, Outcome.st], by simp⟩⟩

theorem emits_setId (P : Event → Prop) (id : String) : Emits P (setId id) :=
  ⟨fun s => ⟨[], by simp [Spotinst.setId, Outcome.st], by simp⟩⟩

theorem emits_rdGetOkExists (P : Event → Prop) (k : String) : Emits P (rdGetOkExists k) :=
  ⟨fun s => ⟨[], by simp [Spotinst.rdGetOkExists, Outcome.st], by simp⟩⟩

theorem emits_assertSlice (P : Event → Prop) (v : Value) : Emits P (assertSlice v) := by
  cases v <;> first | exact emits_pure P _ | exact emits_fault P _

theorem emits_assertMap (P : Event → Prop) (v : Value) : Emits P (assertMap v) := by
  cases v <;> first | exact emits_pure P _ | exact emits_fault P _

theorem emits_index0 (P : Event → Prop) (l : Slice) : Emits P (index0 l) := by
  unfold Spotinst.index0
  split
  · exact emits_pure P _
  · exact emits_fault P _

theorem emits_callCreateRoll {P : Event → Prop} (env : Env) (r : RollSpec)
    (h : ∀ err, P (Event.CreateRoll r err)) : Emits P (callCreateRoll env r) :=
  ⟨fun s => ⟨[Event.CreateRoll r (env.CreateRoll s.trace r)],
    by simp [Spotinst.callCreateRoll, Outcome.st], by simpa using h _⟩⟩

theorem emits_callReadCluster {P : Event → Prop} (env : Env) (id : String)
    (h : ∀ err, P (Event.ReadCluster id err)) : Emits P (callReadCluster env id) := by
  constructor
  intro s
  cases hr : env.ReadCluster s.trace id with
  | ok out =>
    exact ⟨[Event.ReadCluster id none], by simp [Spotinst.callReadCluster, Outcome.st, hr],
      by simpa using h _⟩
  | error e =>
    exact ⟨[Event.ReadCluster id (some e)], by simp [Spotinst.callReadCluster, Outcome.st, hr],
      by simpa using h _⟩

theorem emits_callOnRead {P : Event → Prop} (env : Env) (c : Cluster)
    (h : P (Event.OnRead c)) : Emits P (callOnRead env c) :=
  ⟨fun s => ⟨[Event.OnRead c], by simp [Spotinst.callOnRead, Outcome.st], by simpa using h⟩⟩

theorem emits_expandLaunch (P : Event → Prop) (v : Value) :
    Emits P (expandOceanAWSLaunchSpecIDs v) := by
  unfold expandOceanAWSLaunchSpecIDs
  exact emits_bind (emits_assertSlice P v) (fun _ => emits_pure P _)

theorem emits_expandRoll (P : Event → Prop) (env : Env) (v : Value) (id : String) :
    Emits P (expandOceanAWSClusterRollConfig env v id) := by
  unfold expandOceanAWSClusterRollConfig
  repeat (first
    | exact emits_pure P _
    | exact emits_fault P _
    | exact emits_assertSlice P _
    | exact emits_assertMap P _
    | exact emits_index0 P _
    | exact emits_expandLaunch P _
    | refine emits_bind ?_ ?_
    | intro _
    | split
    | dsimp only)

theorem emits_roll (env : Env) : Emits IsRollEvent (rollOceanAWSCluster env) := by
  unfold rollOceanAWSCluster
  repeat (first
    | exact emits_pure _ _
    | exact emits_fault _ _
    | exact emits_getId _
    | exact emits_rdGetOkExists _ _
    | exact emits_assertSlice _ _
    | exact emits_assertMap _ _
    | exact emits_index0 _ _
    | exact emits_expandRoll _ _ _ _
    | exact emits_emit trivial
    | exact emits_callCreateRoll _ _ (fun _ => trivial)
    | refine emits_bind ?_ ?_
    | intro _
    | split
    | dsimp only)

theorem emits_read (env : Env) : Emits IsReadEvent (resourceSpotinstClusterAWSRead env) := by
  unfold resourceSpotinstClusterAWSRead
  repeat (first
    | exact emits_pure _ _
    | exact emits_getId _
    | exact emits_setId _ _
    | exact emits_callReadCluster _ _ (fun _ => trivial)
    | exact emits_callOnRead _ _ trivial
    | refine emits_bind ?_ ?_
    | intro _
    | split
    | dsimp only)

theorem keeps_pure {α : Type} (a : α) : Keeps (pure a : M α) :=
  ⟨fun _ => rfl⟩

theorem keeps_bind {α β : Type} {m : M α} {f : α → M β}
    (hm : Keeps m) (hf : ∀ a, Keeps (f a)) : Keeps (m >>= f) := by
  constructor
  intro s
  have h1 := hm.out s
  simp only [Bind.bind, M.bind]
  cases hms : m s with
  | ret a s1 =>
    rw [hms] at h1
    simp only [Outcome.st] at h1
    rw [← h1]
    exact (hf a).out s1
  | fault msg s1 =>
    rw [hms] at h1
    exact h1

theorem keeps_fault {α : Type} (msg : String) : Keeps (fault msg : M α) :=
  ⟨fun _ => rfl⟩

theorem keeps_emit (e : Event) : Keeps (emit e) :=
  ⟨fun _ => rfl⟩

theorem keeps_getId : Keeps getId :=
  ⟨fun _ => rfl⟩

theorem keeps_rdGetOkExists (k : String) : Keeps (rdGetOkExists k) :=
  ⟨fun _ => rfl⟩

theorem keeps_assertSlice (v : Value) : Keeps (assertSlice v) := by
  cases v <;> first | exact keeps_pure _ | exact keeps_fault _

theorem keeps_assertMap (v : Value) : Keeps (assertMap v) := by
  cases v <;> first | exact keeps_pure _ | exact keeps_fault _

theorem keeps_index0 (l : Slice) : Keeps (index0 l) := by
  unfold Spotinst.index0
  split
  · exact keeps_pure _
  · exact keeps_fault _

theorem keeps_callCreateRoll (env : Env) (r : RollSpec) : Keeps (callCreateRoll env r) :=
  ⟨fun _ => rfl⟩

theorem keeps_expandLaunch (v : Value) : Keeps (expandOceanAWSLaunchSpecIDs v) := by
  unfold expandOceanAWSLaunchSpecIDs
  exact keeps_bind (keeps_assertSlice v) (fun _ => keeps_pure _)

theorem keeps_expandRoll (env : Env) (v : Value) (id : String) :
    Keeps (expandOceanAWSClusterRollConfig env v id) := by
  unfold expandOceanAWSClusterRollConfig
  repeat (first
    | exact keeps_pure _
    | exact keeps_fault _
    | exact keeps_assertSlice _
    | exact keeps_assertMap _
    | exact keeps_index0 _
    | exact keeps_expandLaunch _
    | refine keeps_bind ?_ ?_
    | intro _
    | split
    | dsimp only)

theorem keeps_roll (env : Env) : Keeps (rollOceanAWSCluster env) := by
  unfold rollOceanAWSCluster
  repeat (first
    | exact keeps_pure _
    | exact keeps_fault _
    | exact keeps_getId
    | exact keeps_rdGetOkExists _
    | exact keeps_assertSlice _
    | exact keeps_assertMap _
    | exact keeps_index0 _
    | exact keeps_expandRoll _ _ _
    | exact keeps_emit _
    | exact keeps_callCreateRoll _ _
    | refine keeps_bind ?_ ?_
    | intro _
    | split
    | dsimp only)

theorem newEvents_eq {α : Type} {s : St} {o : Outcome α} {l : List Event}
    (h : o.st.trace = s.trace ++ l) : newEvents s o = l := by
  simp [newEvents, h]

theorem emit_bind_trace {α : Type} {P : Event → Prop} (e : Event) {f : Unit → M α}
    (hf : ∀ a, Emits P (f a)) (s : St) :
    ∃ l, ((emit e >>= f) s).st.trace = s.trace ++ e :: l ∧ ∀ x ∈ l, P x := by
  obtain ⟨l, h, p⟩ := (hf ()).out { s with trace := s.trace ++ [e] }
  refine ⟨l, ?_, p⟩
  simpa [Bind.bind, M.bind, emit] using h

theorem roll_trace (env : Env) (s : St) :
    ∃ l, (rollOceanAWSCluster env s).st.trace = s.trace ++ Event.RollInvoked :: l ∧
      ∀ e ∈ l, IsRollEvent e := by
  unfold rollOceanAWSCluster
  refine emit_bind_trace _ ?_ s
  repeat (first
    | exact emits_pure _ _
    | exact emits_fault _ _
    | exact emits_getId _
    | exact emits_rdGetOkExists _ _
    | exact emits_assertSlice _ _
    | exact emits_assertMap _ _
    | exact emits_index0 _ _
    | exact emits_expandRoll _ _ _ _
    | exact emits_callCreateRoll _ _ (fun _ => trivial)
    | refine emits_bind ?_ ?_
    | intro _
    | split
    | dsimp only)

/-- New events of `updateAWSCluster`, by cases: nothing before the remote call is issued,
the call alone when it fails or the gate is closed, the call followed by the roll step when
the gate is open. -/
theorem updateAWSCluster_events (env : Env) (c : Cluster) (crr tc : Bool) (s : St) :
    newEvents s (updateAWSCluster env c crr tc s) = [] ∨
    (∃ err, newEvents s (updateAWSCluster env c crr tc s) = [Event.UpdateCluster c (some err)]) ∨
    (¬ rollGate env.names s.rd crr tc ∧
      newEvents s (updateAWSCluster env c crr tc s) = [Event.UpdateCluster c none]) ∨
    (rollGate env.names s.rd crr tc ∧ ∃ l, (∀ e ∈ l, IsRollEvent e) ∧
      newEvents s (updateAWSCluster env c crr tc s) =
        Event.UpdateCluster c none :: Event.RollInvoked :: l) := by
  cases hwf : policyMalformed env.names s.rd with
  | true =>
    obtain ⟨msg, h⟩ := updateAWSCluster_fault env c crr tc s hwf
    exact Or.inl (newEvents_eq (by simp [h, Outcome.st]))
  | false =>
    rw [updateAWSCluster_eq env c crr tc s hwf]
    cases env.ToJsonCluster c with
    | error e => exact Or.inl (newEvents_eq (by simp [Outcome.st]))
    | ok j =>
      cases env.UpdateCluster s.trace c with
      | some e => exact Or.inr (Or.inl ⟨e, newEvents_eq (by simp [Outcome.st])⟩)
      | none =>
        by_cases hgate : rollGate env.names s.rd crr tc
        · obtain ⟨l, h, p⟩ := roll_trace env
            { rd := s.rd, trace := s.trace ++ [Event.UpdateCluster c none] }
          refine Or.inr (Or.inr (Or.inr ⟨hgate, l, p, newEvents_eq ?_⟩))
          simp only [if_pos hgate]
          rw [h]
          simp
        · refine Or.inr (Or.inr (Or.inl ⟨hgate, newEvents_eq ?_⟩))
          simp [if_neg hgate, Outcome.st]

/-! ## Roll gate (claim C1) -/

/-- C1. In `updateAWSCluster` the roll step is entered if and only if the remote
`UpdateCluster` call was issued and returned no error, `should_roll` is true, and
`conditioned_roll` is false or `changesRequiredRoll` is true or (`auto_apply_tags` is false
and `tagsChanged` is true). In particular the roll is skipped for conditioned roll without
a roll-requiring change or tag change, and entered for conditioned roll with a tag change
while `auto_apply_tags` is false. -/
theorem roll_invoked_iff (env : Env) (c : Cluster) (crr tc : Bool) (s : St) :
    (Event.RollInvoked ∈ newEvents s (updateAWSCluster env c crr tc s) ↔
      Event.UpdateCluster c none ∈ newEvents s (updateAWSCluster env c crr tc s) ∧
      policyFlag env.names s.rd env.names.ShouldRoll = true ∧
      (policyFlag env.names s.rd env.names.ConditionedRoll = false ∨ crr = true ∨
        (policyFlag env.names s.rd env.names.AutoApplyTags = false ∧ tc = true))) ∧
    (policyFlag env.names s.rd env.names.ShouldRoll = true →
      policyFlag env.names s.rd env.names.ConditionedRoll = true →
      crr = false → tc = false →
      Event.RollInvoked ∉ newEvents s (updateAWSCluster env c crr tc s)) ∧
    (Event.UpdateCluster c none ∈ newEvents s (updateAWSCluster env c crr tc s) →
      policyFlag env.names s.rd env.names.ShouldRoll = true →
      policyFlag env.names s.rd env.names.ConditionedRoll = true →
      policyFlag env.names s.rd env.names.AutoApplyTags = false →
      crr = false → tc = true →
      Event.RollInvoked ∈ newEvents s (updateAWSCluster env c crr tc s)) := by
  have key : Event.RollInvoked ∈ newEvents s (updateAWSCluster env c crr tc s) ↔
      Event.UpdateCluster c none ∈ newEvents s (updateAWSCluster env c crr tc s) ∧
      rollGate env.names s.rd crr tc := by
    rcases updateAWSCluster_events env c crr tc s with h | ⟨e, h⟩ | ⟨hg, h⟩ | ⟨hg, l, _, h⟩
    · simp [h]
    · simp [h]
    · simp [h, hg]
    · simp [h, hg]
  refine ⟨key, ?_, ?_⟩
  · intro h1 h2 h3 h4 hmem
    obtain ⟨_, _, hg⟩ := key.1 hmem
    simp [h2, h3, h4] at hg
  · intro hu h1 h2 h3 _ h5
    exact key.2 ⟨hu, h1, Or.inr (Or.inr ⟨h3, h5⟩)⟩

theorem roll_invoked_iff_witness :
    Event.RollInvoked ∉ newEvents
        (sampleState (policyOf [("should_roll", .bool true), ("conditioned_roll", .bool true)])
          .nil)
        (updateAWSCluster sampleEnv sampleCluster false false
          (sampleState (policyOf [("should_roll", .bool true), ("conditioned_roll", .bool true)])
            .nil)) ∧
    Event.RollInvoked ∈ newEvents
        (sampleState (policyOf [("should_roll", .bool true), ("conditioned_roll", .bool true)])
          .nil)
        (updateAWSCluster sampleEnv sampleCluster false true
          (sampleState (policyOf [("should_roll", .bool true), ("conditioned_roll", .bool true)])
            .nil)) :=
  ⟨(roll_invoked_iff sampleEnv sampleCluster false false _).2.1 rfl rfl rfl rfl,
   (roll_invoked_iff sampleEnv sampleCluster false true _).2.2 (by decide) rfl rfl rfl rfl rfl⟩

theorem updateAWSCluster_keeps (env : Env) (c : Cluster) (crr tc : Bool) (s : St) :
    (updateAWSCluster env c crr tc s).st.rd = s.rd := by
  cases hwf : policyMalformed env.names s.rd with
  | true =>
    obtain ⟨msg, h⟩ := updateAWSCluster_fault env c crr tc s hwf
    simp [h, Outcome.st]
  | false =>
    rw [updateAWSCluster_eq env c crr tc s hwf]
    cases env.ToJsonCluster c with
    | error e => rfl
    | ok j =>
      cases env.UpdateCluster s.trace c with
      | some e => rfl
      | none =>
        by_cases hgate : rollGate env.names s.rd crr tc
        · simp only [if_pos hgate]
          exact (keeps_roll env).out _
        · simp only [if_neg hgate]
          rfl

theorem updateAWSCluster_extends (env : Env) (c : Cluster) (crr tc : Bool) (s : St) :
    (updateAWSCluster env c crr tc s).st.trace =
      s.trace ++ newEvents s (updateAWSCluster env c crr tc s) := by
  cases hwf : policyMalformed env.names s.rd with
  | true =>
    obtain ⟨msg, h⟩ := updateAWSCluster_fault env c crr tc s hwf
    simp [h, Outcome.st, newEvents]
  | false =>
    rw [updateAWSCluster_eq env c crr tc s hwf]
    cases env.ToJsonCluster c with
    | error e => simp [Outcome.st, newEvents]
    | ok j =>
      cases env.UpdateCluster s.trace c with
      | some e => simp [Outcome.st, newEvents]
      | none =>
        by_cases hgate : rollGate env.names s.rd crr tc
        · simp only [if_pos hgate]
          obtain ⟨l, h, _⟩ := roll_trace env
            { rd := s.rd, trace := s.trace ++ [Event.UpdateCluster c none] }
          simp [h, newEvents]
        · simp [if_neg hgate, Outcome.st, newEvents]

/-- Read started in a state whose log extends that of `s` by `l` adds only Read events. -/
theorem read_events_after (env : Env) (s s2 : St) (l : List Event)
    (h : s2.trace = s.trace ++ l) :
    ∃ lr, newEvents s (resourceSpotinstClusterAWSRead env s2) = l ++ lr ∧
      ∀ e ∈ lr, IsReadEvent e := by
  obtain ⟨lr, hr, p⟩ := (emits_read env).out s2
  exact ⟨lr, newEvents_eq (by rw [hr, h, List.append_assoc]), p⟩

theorem resourceSpotinstClusterAWSUpdate_eq (env : Env) (s : St) :
    resourceSpotinstClusterAWSUpdate env s =
      match env.OnUpdate s.rd with
      | .error err => .ret [err] { s with trace := s.trace ++ [Event.OnUpdate] }
      | .ok (shouldUpdate, crr, tc, c) =>
        if shouldUpdate = true then
          match updateAWSCluster env (c.SetId (some s.rd.id)) crr tc
              { s with trace := s.trace ++ [Event.OnUpdate] } with
          | .ret (some err) s2 => .ret [err] s2
          | .ret none s2 => resourceSpotinstClusterAWSRead env s2
          | .fault msg s2 => .fault msg s2
        else
          resourceSpotinstClusterAWSRead env { s with trace := s.trace ++ [Event.OnUpdate] } := by
  cases hU : env.OnUpdate s.rd with
  | error e =>
    simp [resourceSpotinstClusterAWSUpdate, bind, M.bind, pure, getId, callOnUpdate, hU,
      diag.FromErr]
  | ok r =>
    obtain ⟨su, crr, tc, c⟩ := r
    cases su with
    | false =>
      simp [resourceSpotinstClusterAWSUpdate, bind, M.bind, pure, getId, callOnUpdate, hU]
    | true =>
      cases hup : updateAWSCluster env (c.SetId (some s.rd.id)) crr tc
          { rd := s.rd, trace := s.trace ++ [Event.OnUpdate] } with
      | ret a s2 =>
        cases a <;>
          simp [resourceSpotinstClusterAWSUpdate, bind, M.bind, pure, getId, callOnUpdate, hU,
            hup, diag.FromErr]
      | fault msg s2 =>
        simp [resourceSpotinstClusterAWSUpdate, bind, M.bind, pure, getId, callOnUpdate, hU, hup]

/-! ## Update (claims C2, C3, C4) -/

theorem absent_policy_gate (names : FieldNames) (rd : ResourceData) (crr tc : Bool)
    (habs : (rd.GetOkExists names.UpdatePolicy).2 = false) :
    policyMalformed names rd = false ∧ ¬ rollGate names rd crr tc := by
  rcases hg : rd.GetOkExists names.UpdatePolicy with ⟨v, ex⟩
  rw [hg] at habs
  simp only at habs
  subst habs
  constructor
  · simp [policyMalformed, hg]
  · simp [rollGate, policyFlag, policyBlock, hg]

/-- C2, counterexample. With no update policy configured and a registry reporting a change,
Update does issue the remote `UpdateCluster` call. -/
theorem update_absent_policy_counterexample :
    ((sampleState (Value.nil, false) Value.nil).rd.GetOkExists
        sampleEnv.names.UpdatePolicy).2 = false ∧
    Event.UpdateCluster { ID := some "o-1", rest := "spec" } none ∈
      newEvents (sampleState (Value.nil, false) Value.nil)
        (resourceSpotinstClusterAWSUpdate sampleEnv (sampleState (Value.nil, false) Value.nil)) := by
  decide

/-- C2, amended. With the update policy absent from the configuration, Update never enters
the roll step and never issues `CreateRoll`, whatever the registry reports; when the
registry reports `shouldUpdate = false` it calls only Read, and when it reports
`shouldUpdate = true` and the cluster marshals, the remote `UpdateCluster` call is issued. -/
theorem update_absent_policy (env : Env) (s : St)
    (habs : (s.rd.GetOkExists env.names.UpdatePolicy).2 = false) :
    (∀ e ∈ newEvents s (resourceSpotinstClusterAWSUpdate env s), ¬ IsRollEvent e) ∧
    (∀ crr tc c, env.OnUpdate s.rd = .ok (false, crr, tc, c) →
      resourceSpotinstClusterAWSUpdate env s =
        resourceSpotinstClusterAWSRead env { s with trace := s.trace ++ [Event.OnUpdate] }) ∧
    (∀ crr tc c j, env.OnUpdate s.rd = .ok (true, crr, tc, c) →
      env.ToJsonCluster (c.SetId (some s.rd.id)) = .ok j →
      ∃ err, Event.UpdateCluster (c.SetId (some s.rd.id)) err ∈
        newEvents s (resourceSpotinstClusterAWSUpdate env s)) := by
  have hU := resourceSpotinstClusterAWSUpdate_eq env s
  refine ⟨?_, ?_, ?_⟩
  · cases hO : env.OnUpdate s.rd with
    | error err =>
      rw [hO] at hU
      rw [hU, newEvents_eq (l := [Event.OnUpdate]) (by simp [Outcome.st])]
      simp [IsRollEvent]
    | ok r =>
      obtain ⟨su, crr, tc, c⟩ := r
      rw [hO] at hU
      cases su with
      | false =>
        simp only [Bool.false_eq_true, if_false] at hU
        obtain ⟨lr, hr, p⟩ := read_events_after env s
          { s with trace := s.trace ++ [Event.OnUpdate] } [Event.OnUpdate] rfl
        rw [hU, hr]
        intro e he
        rcases List.mem_append.1 he with h | h
        · simp at h
          subst h
          simp [IsRollEvent]
        · have := p e h
          cases e <;> simp_all [IsRollEvent, IsReadEvent]
      | true =>
        simp only [if_true] at hU
        have hs1 : ({ s with trace := s.trace ++ [Event.OnUpdate] } : St).rd = s.rd := rfl
        obtain ⟨hwf, hgate⟩ := absent_policy_gate env.names s.rd crr tc habs
        have hev := updateAWSCluster_events env (c.SetId (some s.rd.id)) crr tc
          { s with trace := s.trace ++ [Event.OnUpdate] }
        have hext := updateAWSCluster_extends env (c.SetId (some s.rd.id)) crr tc
          { s with trace := s.trace ++ [Event.OnUpdate] }
        have hnr : ∀ e ∈ newEvents { s with trace := s.trace ++ [Event.OnUpdate] }
            (updateAWSCluster env (c.SetId (some s.rd.id)) crr tc
              { s with trace := s.trace ++ [Event.OnUpdate] }), ¬ IsRollEvent e := by
          rcases hev with h | ⟨e, h⟩ | ⟨_, h⟩ | ⟨hg, _⟩
          · simp [h]
          · simp [h, IsRollEvent]
          · simp [h, IsRollEvent]
          · exact absurd hg hgate
        generalize newEvents { s with trace := s.trace ++ [Event.OnUpdate] }
            (updateAWSCluster env (c.SetId (some s.rd.id)) crr tc
              { s with trace := s.trace ++ [Event.OnUpdate] }) = lu at hext hnr
        cases hup : updateAWSCluster env (c.SetId (some s.rd.id)) crr tc
            { rd := s.rd, trace := s.trace ++ [Event.OnUpdate] } with
        | ret a s2 =>
          rw [hup] at hU hext
          simp only [Outcome.st] at hext
          cases a with
          | some err =>
            simp only at hU
            rw [hU, newEvents_eq (l := Event.OnUpdate :: lu) (by simp [Outcome.st, hext])]
            intro e he
            rcases List.mem_cons.1 he with h | h
            · subst h
              simp [IsRollEvent]
            · exact hnr e h
          | none =>
            simp only at hU
            obtain ⟨lr, hr, p⟩ := read_events_after env s s2 (Event.OnUpdate :: lu)
              (by simp [hext])
            rw [hU, hr]
            intro e he
            rcases List.mem_append.1 he with h | h
            · rcases List.mem_cons.1 h with h | h
              · subst h
                simp [IsRollEvent]
              · exact hnr e h
            · have := p e h
              cases e <;> simp_all [IsRollEvent, IsReadEvent]
        | fault msg s2 =>
          rw [hup] at hU hext
          simp only [Outcome.st] at hext
          simp only at hU
          rw [hU, newEvents_eq (l := Event.OnUpdate :: lu) (by simp [Outcome.st, hext])]
          intro e he
          rcases List.mem_cons.1 he with h | h
          · subst h
            simp [IsRollEvent]
          · exact hnr e h
  · intro crr tc c hO
    rw [hO] at hU
    simpa using hU
  · intro crr tc c j hO hj
    rw [hO] at hU
    simp only [if_true] at hU
    obtain ⟨hwf, hgate⟩ := absent_policy_gate env.names s.rd crr tc habs
    have heq := updateAWSCluster_eq env (c.SetId (some s.rd.id)) crr tc
      { s with trace := s.trace ++ [Event.OnUpdate] } hwf
    rw [hj] at heq
    simp only [if_neg hgate] at heq
    refine ⟨env.UpdateCluster (s.trace ++ [Event.OnUpdate]) (c.SetId (some s.rd.id)), ?_⟩
    cases hu : env.UpdateCluster (s.trace ++ [Event.OnUpdate]) (c.SetId (some s.rd.id)) with
    | some e =>
      rw [hu] at heq
      simp only at heq
      rw [heq] at hU
      simp only at hU
      rw [hU, newEvents_eq (l := [Event.OnUpdate, Event.UpdateCluster (c.SetId (some s.rd.id))
        (some e)]) (by simp [Outcome.st])]
      simp
    | none =>
      rw [hu] at heq
      simp only at heq
      rw [heq] at hU
      simp only at hU
      obtain ⟨lr, hr, _⟩ := read_events_after env s
        { rd := s.rd, trace := s.trace ++ [Event.OnUpdate] ++
          [Event.UpdateCluster (c.SetId (some s.rd.id)) none] }
        [Event.OnUpdate, Event.UpdateCluster (c.SetId (some s.rd.id)) none] (by simp)
      rw [hU, hr]
      simp

theorem update_absent_policy_witness :
    ((sampleState (Value.nil, false) Value.nil).rd.GetOkExists
        sampleEnv.names.UpdatePolicy).2 = false ∧
    (∀ e ∈ newEvents (sampleState (Value.nil, false) Value.nil)
        (resourceSpotinstClusterAWSUpdate sampleEnv (sampleState (Value.nil, false) Value.nil)),
      ¬ IsRollEvent e) ∧
    resourceSpotinstClusterAWSUpdate sampleEnvNoChange
        (sampleState (Value.nil, false) Value.nil) =
      resourceSpotinstClusterAWSRead sampleEnvNoChange
        { rd := sampleData (Value.nil, false) Value.nil, trace := [Event.OnUpdate] } ∧
    ∃ err, Event.UpdateCluster { ID := some "o-1", rest := "spec" } err ∈
      newEvents (sampleState (Value.nil, false) Value.nil)
        (resourceSpotinstClusterAWSUpdate sampleEnv (sampleState (Value.nil, false) Value.nil)) :=
  ⟨rfl, (update_absent_policy sampleEnv (sampleState (Value.nil, false) Value.nil) rfl).1,
   (update_absent_policy sampleEnvNoChange (sampleState (Value.nil, false) Value.nil) rfl).2.1
      false false { ID := none, rest := "spec" } rfl,
   (update_absent_policy sampleEnv (sampleState (Value.nil, false) Value.nil) rfl).2.2
      false false { ID := none, rest := "spec" } "json" rfl rfl⟩

/-- C3. When the registry reports `shouldUpdate = false` without error, Update goes straight
to Read on the unchanged resource data and returns what Read returns; its log holds no
`UpdateCluster` and no `CreateRoll` call. -/
theorem update_noop (env : Env) (s : St) (crr tc : Bool) (c : Cluster)
    (hO : env.OnUpdate s.rd = .ok (false, crr, tc, c)) :
    resourceSpotinstClusterAWSUpdate env s =
      resourceSpotinstClusterAWSRead env { rd := s.rd, trace := s.trace ++ [Event.OnUpdate] } ∧
    ∀ e ∈ newEvents s (resourceSpotinstClusterAWSUpdate env s),
      (∀ c1 err, e ≠ Event.UpdateCluster c1 err) ∧ (∀ r err, e ≠ Event.CreateRoll r err) := by
  have hU := resourceSpotinstClusterAWSUpdate_eq env s
  rw [hO] at hU
  simp only [Bool.false_eq_true, if_false] at hU
  refine ⟨hU, ?_⟩
  obtain ⟨lr, hr, p⟩ := read_events_after env s
    { s with trace := s.trace ++ [Event.OnUpdate] } [Event.OnUpdate] rfl
  rw [hU, hr]
  intro e he
  rcases List.mem_append.1 he with h | h
  · simp at h
    subst h
    simp
  · have := p e h
    cases e <;> simp_all [IsReadEvent]

theorem update_noop_witness :
    resourceSpotinstClusterAWSUpdate sampleEnvNoChange
        (sampleState (policyOf [("should_roll", .bool true)]) Value.nil) =
      resourceSpotinstClusterAWSRead sampleEnvNoChange
        { rd := sampleData (policyOf [("should_roll", .bool true)]) Value.nil,
          trace := [Event.OnUpdate] } :=
  (update_noop sampleEnvNoChange (sampleState (policyOf [("should_roll", .bool true)]) Value.nil)
    false false { ID := none, rest := "spec" } rfl).1

/-- C4, counterexample. When the remote `UpdateCluster` call fails, Update returns the error
and its log ends with that call: no Read follows. -/
theorem update_read_last_counterexample :
    newEvents (sampleState (Value.nil, false) Value.nil)
        (resourceSpotinstClusterAWSUpdate sampleEnvUpdateFails
          (sampleState (Value.nil, false) Value.nil)) =
      [Event.OnUpdate,
        Event.UpdateCluster { ID := some "o-1", rest := "spec" }
          (some (GoError.other "update refused"))] ∧
    (resourceSpotinstClusterAWSUpdate sampleEnvUpdateFails
        (sampleState (Value.nil, false) Value.nil)).val? =
      some [GoError.wrapf "[ERROR] Failed to update cluster [%v]: %v" ["o-1"]
        (GoError.other "update refused")] := by
  decide

/-- C4, amended. Update finishes with the Read of the cluster by its identity whenever the
registry comparison reports no error and the update step (remote call and roll), when it
runs, reports no error; when the registry comparison or the update step reports an error,
Update returns that error and performs no Read. -/
theorem update_read_last (env : Env) (s : St) :
    (∀ crr tc c, env.OnUpdate s.rd = .ok (false, crr, tc, c) →
      resourceSpotinstClusterAWSUpdate env s =
        resourceSpotinstClusterAWSRead env { rd := s.rd, trace := s.trace ++ [Event.OnUpdate] }) ∧
    (∀ crr tc c s2, env.OnUpdate s.rd = .ok (true, crr, tc, c) →
      updateAWSCluster env (c.SetId (some s.rd.id)) crr tc
        { rd := s.rd, trace := s.trace ++ [Event.OnUpdate] } = .ret none s2 →
      resourceSpotinstClusterAWSUpdate env s = resourceSpotinstClusterAWSRead env s2 ∧
        s2.rd = s.rd) ∧
    (∀ crr tc c err s2, env.OnUpdate s.rd = .ok (true, crr, tc, c) →
      updateAWSCluster env (c.SetId (some s.rd.id)) crr tc
        { rd := s.rd, trace := s.trace ++ [Event.OnUpdate] } = .ret (some err) s2 →
      resourceSpotinstClusterAWSUpdate env s = .ret [err] s2 ∧
        ∀ e ∈ newEvents s (resourceSpotinstClusterAWSUpdate env s), ¬ IsReadEvent e) ∧
    (∀ err, env.OnUpdate s.rd = .error err →
      resourceSpotinstClusterAWSUpdate env s =
        .ret [err] { rd := s.rd, trace := s.trace ++ [Event.OnUpdate] }) := by
  have hU := resourceSpotinstClusterAWSUpdate_eq env s
  refine ⟨?_, ?_, ?_, ?_⟩
  · intro crr tc c hO
    rw [hO] at hU
    simpa using hU
  · intro crr tc c s2 hO hup
    rw [hO] at hU
    simp only [if_true, hup] at hU
    refine ⟨hU, ?_⟩
    have := updateAWSCluster_keeps env (c.SetId (some s.rd.id)) crr tc
      { rd := s.rd, trace := s.trace ++ [Event.OnUpdate] }
    rw [hup] at this
    exact this
  · intro crr tc c err s2 hO hup
    rw [hO] at hU
    simp only [if_true, hup] at hU
    refine ⟨hU, ?_⟩
    have hev := updateAWSCluster_events env (c.SetId (some s.rd.id)) crr tc
      { rd := s.rd, trace := s.trace ++ [Event.OnUpdate] }
    have hext := updateAWSCluster_extends env (c.SetId (some s.rd.id)) crr tc
      { rd := s.rd, trace := s.trace ++ [Event.OnUpdate] }
    have hnr : ∀ e ∈ newEvents { rd := s.rd, trace := s.trace ++ [Event.OnUpdate] }
        (updateAWSCluster env (c.SetId (some s.rd.id)) crr tc
          { rd := s.rd, trace := s.trace ++ [Event.OnUpdate] }), ¬ IsReadEvent e := by
      rcases hev with h | ⟨e, h⟩ | ⟨_, h⟩ | ⟨_, l, p, h⟩
      · simp [h]
      · simp [h, IsReadEvent]
      · simp [h, IsReadEvent]
      · rw [h]
        intro e he
        rcases List.mem_cons.1 he with h1 | h1
        · subst h1
          simp [IsReadEvent]
        · rcases List.mem_cons.1 h1 with h2 | h2
          · subst h2
            simp [IsReadEvent]
          · have := p e h2
            cases e <;> simp_all [IsReadEvent, IsRollEvent]
    generalize newEvents { rd := s.rd, trace := s.trace ++ [Event.OnUpdate] }
        (updateAWSCluster env (c.SetId (some s.rd.id)) crr tc
          { rd := s.rd, trace := s.trace ++ [Event.OnUpdate] }) = lu at hext hnr
    rw [hup] at hext
    simp only [Outcome.st] at hext
    rw [hU, newEvents_eq (l := Event.OnUpdate :: lu) (by simp [Outcome.st, hext])]
    intro e he
    rcases List.mem_cons.1 he with h | h
    · subst h
      simp [IsReadEvent]
    · exact hnr e h
  · intro err hO
    rw [hO] at hU
    exact hU

theorem update_read_last_witness :
    resourceSpotinstClusterAWSUpdate sampleEnvNoChange
        (sampleState (Value.nil, false) Value.nil) =
      resourceSpotinstClusterAWSRead sampleEnvNoChange
        { rd := sampleData (Value.nil, false) Value.nil, trace := [Event.OnUpdate] } ∧
    (resourceSpotinstClusterAWSUpdate sampleEnv (sampleState (Value.nil, false) Value.nil) =
      resourceSpotinstClusterAWSRead sampleEnv
        { rd := sampleData (Value.nil, false) Value.nil,
          trace := [Event.OnUpdate,
            Event.UpdateCluster { ID := some "o-1", rest := "spec" } none] } ∧
      (sampleData (Value.nil, false) Value.nil).id = "o-1") ∧
    (resourceSpotinstClusterAWSUpdate sampleEnvUpdateFails
        (sampleState (Value.nil, false) Value.nil) =
      .ret [GoError.wrapf "[ERROR] Failed to update cluster [%v]: %v" ["o-1"]
          (GoError.other "update refused")]
        { rd := sampleData (Value.nil, false) Value.nil,
          trace := [Event.OnUpdate,
            Event.UpdateCluster { ID := some "o-1", rest := "spec" }
              (some (GoError.other "update refused"))] } ∧
      ∀ e ∈ newEvents (sampleState (Value.nil, false) Value.nil)
          (resourceSpotinstClusterAWSUpdate sampleEnvUpdateFails
            (sampleState (Value.nil, false) Value.nil)), ¬ IsReadEvent e) ∧
    resourceSpotinstClusterAWSUpdate sampleEnvRegistryFails
        (sampleState (Value.nil, false) Value.nil) =
      .ret [GoError.other "unexpected value shape"]
        { rd := sampleData (Value.nil, false) Value.nil, trace := [Event.OnUpdate] } :=
  ⟨(update_read_last sampleEnvNoChange (sampleState (Value.nil, false) Value.nil)).1
      false false { ID := none, rest := "spec" } rfl,
   ⟨((update_read_last sampleEnv (sampleState (Value.nil, false) Value.nil)).2.1
      false false { ID := none, rest := "spec" } _ rfl rfl).1, rfl⟩,
   (update_read_last sampleEnvUpdateFails (sampleState (Value.nil, false) Value.nil)).2.2.1
      false false { ID := none, rest := "spec" } _ _ rfl rfl,
   (update_read_last sampleEnvRegistryFails (sampleState (Value.nil, false) Value.nil)).2.2.2
      _ rfl⟩

/-! ## Read (claim C5) -/

/-- C5. Read clears the identity and returns success, without running the registry, when
`ReadCluster` returns an error list holding the code `CLUSTER_DOESNT_EXIST` or returns no
error and a nil cluster; on any other `ReadCluster` error it returns a failure and leaves
the resource data, identity included, as it was. -/
theorem read_vanished_or_failed (env : Env) (s : St) :
    (∀ err, env.ReadCluster s.trace s.rd.id = .error err → err.HasNotFoundCode →
      resourceSpotinstClusterAWSRead env s =
        .ret [] { rd := { s.rd with id := "" },
                  trace := s.trace ++ [Event.ReadCluster s.rd.id (some err)] }) ∧
    (env.ReadCluster s.trace s.rd.id = .ok { Cluster := none } →
      resourceSpotinstClusterAWSRead env s =
        .ret [] { rd := { s.rd with id := "" },
                  trace := s.trace ++ [Event.ReadCluster s.rd.id none] }) ∧
    (∀ err, env.ReadCluster s.trace s.rd.id = .error err → ¬ err.HasNotFoundCode →
      ∃ d, d ≠ [] ∧ resourceSpotinstClusterAWSRead env s =
        .ret d { rd := s.rd, trace := s.trace ++ [Event.ReadCluster s.rd.id (some err)] }) := by
  refine ⟨?_, ?_, ?_⟩
  · intro err hr hnf
    have h := (isClusterNotFound_iff err).2 hnf
    simp [resourceSpotinstClusterAWSRead, bind, M.bind, pure, getId, callReadCluster, setId,
      hr, h]
  · intro hr
    simp [resourceSpotinstClusterAWSRead, bind, M.bind, pure, getId, callReadCluster, setId, hr]
  · intro err hr hnf
    have h : isClusterNotFound err = false := by
      cases hb : isClusterNotFound err with
      | false => rfl
      | true => exact absurd ((isClusterNotFound_iff err).1 hb) hnf
    refine ⟨diag.Errorf "failed to read cluster: %s" err, by simp [diag.Errorf], ?_⟩
    simp [resourceSpotinstClusterAWSRead, bind, M.bind, pure, getId, callReadCluster, hr, h]

theorem read_vanished_or_failed_witness :
    resourceSpotinstClusterAWSRead
        (sampleEnvRead (.error (.clientErrors
          [{ Code := "THROTTLED", Message := "" }, { Code := "CLUSTER_DOESNT_EXIST", Message := "" }])))
        (sampleState (Value.nil, false) Value.nil) =
      .ret [] { rd := { sampleData (Value.nil, false) Value.nil with id := "" },
                trace := [Event.ReadCluster "o-1" (some (.clientErrors
                  [{ Code := "THROTTLED", Message := "" },
                   { Code := "CLUSTER_DOESNT_EXIST", Message := "" }]))] } ∧
    resourceSpotinstClusterAWSRead (sampleEnvRead (.ok { Cluster := none }))
        (sampleState (Value.nil, false) Value.nil) =
      .ret [] { rd := { sampleData (Value.nil, false) Value.nil with id := "" },
                trace := [Event.ReadCluster "o-1" none] } ∧
    ∃ d, d ≠ [] ∧
      resourceSpotinstClusterAWSRead (sampleEnvRead (.error (.other "timeout")))
          (sampleState (Value.nil, false) Value.nil) =
        .ret d { rd := sampleData (Value.nil, false) Value.nil,
                 trace := [Event.ReadCluster "o-1" (some (.other "timeout"))] } :=
  ⟨(read_vanished_or_failed _ (sampleState (Value.nil, false) Value.nil)).1 _ rfl
      ⟨_, rfl, { Code := "CLUSTER_DOESNT_EXIST", Message := "" }, by simp, rfl⟩,
   (read_vanished_or_failed (sampleEnvRead (.ok { Cluster := none }))
      (sampleState (Value.nil, false) Value.nil)).2.1 rfl,
   (read_vanished_or_failed (sampleEnvRead (.error (.other "timeout")))
      (sampleState (Value.nil, false) Value.nil)).2.2 _ rfl
      (by rintro ⟨errs, h, _⟩; cases h)⟩

/-! ## Delete (claim C6) -/

/-- C6. When the remote `DeleteCluster` call succeeds, Delete sets the identity to the empty
string and returns success; when it fails, or when the request cannot be marshalled, Delete
returns an error and the resource data, identity included, is what it was before. -/
theorem delete_clears_or_keeps (env : Env) (s : St) :
    (∀ j, env.ToJsonDeleteInput s.rd.id = .ok j → env.DeleteCluster s.trace s.rd.id = none →
      resourceSpotinstClusterAWSDelete env s =
        .ret [] { rd := { s.rd with id := "" },
                  trace := s.trace ++ [Event.DeleteCluster s.rd.id none] }) ∧
    (∀ j err, env.ToJsonDeleteInput s.rd.id = .ok j →
      env.DeleteCluster s.trace s.rd.id = some err →
      ∃ d, d ≠ [] ∧ resourceSpotinstClusterAWSDelete env s =
        .ret d { rd := s.rd, trace := s.trace ++ [Event.DeleteCluster s.rd.id (some err)] }) ∧
    (∀ err, env.ToJsonDeleteInput s.rd.id = .error err →
      resourceSpotinstClusterAWSDelete env s = .ret [err] s) := by
  refine ⟨?_, ?_, ?_⟩
  · intro j hj hd
    simp [resourceSpotinstClusterAWSDelete, deleteAWSCluster, bind, M.bind, pure, getId,
      callDeleteCluster, setId, hj, hd]
  · intro j err hj hd
    refine ⟨diag.FromErr (GoError.wrapf "[ERROR] onDelete() -> Failed to delete cluster: %s" []
      err), by simp [diag.FromErr], ?_⟩
    simp [resourceSpotinstClusterAWSDelete, deleteAWSCluster, bind, M.bind, pure, getId,
      callDeleteCluster, hj, hd]
  · intro err hj
    simp [resourceSpotinstClusterAWSDelete, deleteAWSCluster, bind, M.bind, pure, getId, hj,
      diag.FromErr]

theorem delete_clears_or_keeps_witness :
    resourceSpotinstClusterAWSDelete (sampleEnvDelete none)
        (sampleState (Value.nil, false) Value.nil) =
      .ret [] { rd := { sampleData (Value.nil, false) Value.nil with id := "" },
                trace := [Event.DeleteCluster "o-1" none] } ∧
    (∃ d, d ≠ [] ∧
      resourceSpotinstClusterAWSDelete (sampleEnvDelete (some (.other "in use")))
          (sampleState (Value.nil, false) Value.nil) =
        .ret d { rd := sampleData (Value.nil, false) Value.nil,
                 trace := [Event.DeleteCluster "o-1" (some (.other "in use"))] }) ∧
    resourceSpotinstClusterAWSDelete sampleEnvMarshalFails
        (sampleState (Value.nil, false) Value.nil) =
      .ret [GoError.other "unsupported value"] (sampleState (Value.nil, false) Value.nil) :=
  ⟨(delete_clears_or_keeps (sampleEnvDelete none)
      (sampleState (Value.nil, false) Value.nil)).1 "json" rfl rfl,
   (delete_clears_or_keeps (sampleEnvDelete (some (.other "in use")))
      (sampleState (Value.nil, false) Value.nil)).2.1 "json" _ rfl rfl,
   (delete_clears_or_keeps sampleEnvMarshalFails
      (sampleState (Value.nil, false) Value.nil)).2.2 _ rfl⟩

/-! ## Create: lemmas -/

theorem rangeInvalidProfile_nonretryable (errs : List ClientError) (re : RetryError)
    (h : rangeInvalidProfile errs = some re) : re.Retryable = false := by
  induction errs with
  | nil => simp [rangeInvalidProfile] at h
  | cons e rest ih =>
    unfold rangeInvalidProfile at h
    split at h
    · cases h
      rfl
    · exact ih h

theorem classifyCreateError_nonretryable (err : GoError) :
    (classifyCreateError err).Retryable = false := by
  unfold classifyCreateError
  split
  · split
    · split
      · rename_i re hre
        exact rangeInvalidProfile_nonretryable _ re hre
      · rfl
    · rfl
  · rfl

theorem createClusterAttempt_eq (env : Env) (c : Cluster) (s : St) :
    createClusterAttempt env c s =
      match env.CreateCluster s.trace c with
      | .ok out => .ret (.ok out) { s with trace := s.trace ++ [Event.CreateCluster c none] }
      | .error e =>
        .ret (.error (classifyCreateError e))
          { s with trace := s.trace ++ [Event.CreateCluster c (some e)] } := by
  cases h : env.CreateCluster s.trace c <;>
    simp [createClusterAttempt, bind, M.bind, pure, callCreateCluster, h]

theorem retry_create_eq (env : Env) (c : Cluster) (n : Nat) (s : St) :
    RetryContext (createClusterAttempt env c) n s =
      match env.CreateCluster s.trace c with
      | .ok out => .ret (.ok out) { s with trace := s.trace ++ [Event.CreateCluster c none] }
      | .error e =>
        .ret (.error (classifyCreateError e).Err)
          { s with trace := s.trace ++ [Event.CreateCluster c (some e)] } := by
  have ha := createClusterAttempt_eq env c s
  cases n with
  | zero =>
    cases h : env.CreateCluster s.trace c <;>
      (rw [h] at ha; simp [RetryContext, bind, M.bind, pure, ha])
  | succ k =>
    cases h : env.CreateCluster s.trace c with
    | ok out =>
      rw [h] at ha
      simp [RetryContext, bind, M.bind, pure, ha]
    | error e =>
      rw [h] at ha
      simp [RetryContext, bind, M.bind, pure, ha, classifyCreateError_nonretryable]

theorem createAWSCluster_eq (env : Env) (c : Cluster) (s : St) :
    createAWSCluster env c s =
      match env.ToJsonCluster c with
      | .error err => .ret (.error err) s
      | .ok _ =>
        match env.CreateCluster (s.trace ++ settleEvents env.names s.rd) c with
        | .error e =>
          .ret (.error (GoError.wrapf "[ERROR] failed to create cluster: %s" []
              (classifyCreateError e).Err))
            { s with trace := s.trace ++ settleEvents env.names s.rd ++
                [Event.CreateCluster c (some e)] }
        | .ok { Cluster := none } =>
          .fault "invalid memory address or nil pointer dereference"
            { s with trace := s.trace ++ settleEvents env.names s.rd ++
                [Event.CreateCluster c none] }
        | .ok { Cluster := some cl } =>
          .ret (.ok cl.ID)
            { s with trace := s.trace ++ settleEvents env.names s.rd ++
                [Event.CreateCluster c none] } := by
  cases hj : env.ToJsonCluster c with
  | error e => simp [createAWSCluster, bind, M.bind, pure, hj]
  | ok j =>
    unfold settleEvents
    cases hv : s.rd.Get env.names.IAMInstanceProfile with
    | str v =>
      by_cases hne : v = ""
      · subst hne
        cases hc : env.CreateCluster s.trace c with
        | error e =>
          simp [createAWSCluster, bind, M.bind, pure, hj, rdGet, hv, Value.asString,
            Value.isNonEmptyString, retry_create_eq, hc]
        | ok out =>
          obtain ⟨cl⟩ := out
          cases cl <;>
            simp [createAWSCluster, bind, M.bind, pure, hj, rdGet, hv, Value.asString,
              Value.isNonEmptyString, retry_create_eq, hc, fault]
      · cases hc : env.CreateCluster (s.trace ++ [Event.Sleep (10 * time.Second)]) c with
        | error e =>
          simp [createAWSCluster, bind, M.bind, pure, hj, rdGet, hv, Value.asString,
            Value.isNonEmptyString, retry_create_eq, hc, hne, emit]
        | ok out =>
          obtain ⟨cl⟩ := out
          cases cl <;>
            simp [createAWSCluster, bind, M.bind, pure, hj, rdGet, hv, Value.asString,
              Value.isNonEmptyString, retry_create_eq, hc, hne, emit, fault]
    | _ =>
      cases hc : env.CreateCluster s.trace c with
      | error e =>
        simp [createAWSCluster, bind, M.bind, pure, hj, rdGet, hv, Value.asString,
          Value.isNonEmptyString, retry_create_eq, hc]
      | ok out =>
        obtain ⟨cl⟩ := out
        cases cl <;>
          simp [createAWSCluster, bind, M.bind, pure, hj, rdGet, hv, Value.asString,
            Value.isNonEmptyString, retry_create_eq, hc, fault]

theorem resourceSpotinstClusterAWSCreate_eq (env : Env) (s : St) :
    resourceSpotinstClusterAWSCreate env s =
      match env.OnCreate s.rd with
      | .error err => .ret [err] { s with trace := s.trace ++ [Event.OnCreate] }
      | .ok c =>
        match createAWSCluster env c { s with trace := s.trace ++ [Event.OnCreate] } with
        | .ret (.error err) s2 => .ret [err] s2
        | .ret (.ok clusterID) s2 =>
          resourceSpotinstClusterAWSRead env
            { s2 with rd := { s2.rd with id := StringValue clusterID } }
        | .fault msg s2 => .fault msg s2 := by
  cases hO : env.OnCreate s.rd with
  | error e =>
    simp [resourceSpotinstClusterAWSCreate, bind, M.bind, pure, callOnCreate, hO, diag.FromErr]
  | ok c =>
    cases hc : createAWSCluster env c { rd := s.rd, trace := s.trace ++ [Event.OnCreate] } with
    | ret a s2 =>
      cases a <;>
        simp [resourceSpotinstClusterAWSCreate, bind, M.bind, pure, callOnCreate, hO, hc,
          diag.FromErr, setId]
    | fault msg s2 =>
      simp [resourceSpotinstClusterAWSCreate, bind, M.bind, pure, callOnCreate, hO, hc]

/-! ## Create (claims C7, C8, C9) -/

/-- C8. `createAWSCluster` logs the ten-second settling delay, immediately before the
`CreateCluster` call, exactly when the configured IAM instance profile is a non-empty
string; for any other value (absent, empty, not a string) the create call is issued with no
delay before it. -/
theorem create_settling_delay (env : Env) (c : Cluster) (s : St) (j : String)
    (hj : env.ToJsonCluster c = .ok j) :
    ((s.rd.Get env.names.IAMInstanceProfile).isNonEmptyString = true →
      ∃ r, newEvents s (createAWSCluster env c s) =
        [Event.Sleep (10 * time.Second), Event.CreateCluster c r]) ∧
    ((s.rd.Get env.names.IAMInstanceProfile).isNonEmptyString = false →
      ∃ r, newEvents s (createAWSCluster env c s) = [Event.CreateCluster c r]) := by
  have h := createAWSCluster_eq env c s
  rw [hj] at h
  simp only at h
  constructor
  · intro hv
    simp only [settleEvents, hv, if_true] at h
    cases hc : env.CreateCluster (s.trace ++ [Event.Sleep (10 * time.Second)]) c with
    | error e =>
      rw [hc] at h
      exact ⟨some e, by rw [h]; exact newEvents_eq (by simp [Outcome.st])⟩
    | ok out =>
      obtain ⟨cl⟩ := out
      rw [hc] at h
      cases cl <;> exact ⟨none, by rw [h]; exact newEvents_eq (by simp [Outcome.st])⟩
  · intro hv
    simp only [settleEvents, hv, Bool.false_eq_true, if_false, List.append_nil] at h
    cases hc : env.CreateCluster s.trace c with
    | error e =>
      rw [hc] at h
      exact ⟨some e, by rw [h]; exact newEvents_eq (by simp [Outcome.st])⟩
    | ok out =>
      obtain ⟨cl⟩ := out
      rw [hc] at h
      cases cl <;> exact ⟨none, by rw [h]; exact newEvents_eq (by simp [Outcome.st])⟩

theorem create_settling_delay_witness :
    (∃ r, newEvents (freshState (.str "ocean-profile"))
        (createAWSCluster sampleEnv sampleCluster (freshState (.str "ocean-profile"))) =
      [Event.Sleep 10000000000, Event.CreateCluster sampleCluster r]) ∧
    (∃ r, newEvents (freshState (.str ""))
        (createAWSCluster sampleEnv sampleCluster (freshState (.str ""))) =
      [Event.CreateCluster sampleCluster r]) :=
  ⟨(create_settling_delay sampleEnv sampleCluster (freshState (.str "ocean-profile")) "json"
      rfl).1 rfl,
   (create_settling_delay sampleEnv sampleCluster (freshState (.str "")) "json" rfl).2 rfl⟩

/-- C9. When `CreateCluster` succeeds and returns a cluster, Create sets the identity to the
cluster ID of that answer and then runs Read, returning what Read returns. -/
theorem create_sets_identity (env : Env) (s : St) (c cl : Cluster) (j : String)
    (hO : env.OnCreate s.rd = .ok c) (hj : env.ToJsonCluster c = .ok j)
    (hC : env.CreateCluster (s.trace ++ Event.OnCreate :: settleEvents env.names s.rd) c =
      .ok { Cluster := some cl }) :
    resourceSpotinstClusterAWSCreate env s =
      resourceSpotinstClusterAWSRead env
        { rd := { s.rd with id := StringValue cl.ID },
          trace := s.trace ++ Event.OnCreate :: settleEvents env.names s.rd ++
            [Event.CreateCluster c none] } ∧
    ∀ cid, cl.ID = some cid → StringValue cl.ID = cid := by
  have h := resourceSpotinstClusterAWSCreate_eq env s
  have hc := createAWSCluster_eq env c { s with trace := s.trace ++ [Event.OnCreate] }
  rw [hj] at hc
  simp only [List.append_assoc, List.singleton_append] at hc
  rw [hC] at hc
  simp only at hc
  rw [hO] at h
  simp only [hc] at h
  refine ⟨?_, ?_⟩
  · rw [h]
    simp
  · intro cid hcid
    rw [hcid]
    rfl

theorem create_sets_identity_witness :
    resourceSpotinstClusterAWSCreate sampleEnv (freshState Value.nil) =
      resourceSpotinstClusterAWSRead sampleEnv
        { rd := { (freshState Value.nil).rd with id := "o-1" },
          trace := [Event.OnCreate, Event.CreateCluster { ID := none, rest := "spec" } none] } ∧
    StringValue sampleCluster.ID = "o-1" :=
  ⟨(create_sets_identity sampleEnv (freshState Value.nil) { ID := none, rest := "spec" }
      sampleCluster "json" rfl rfl rfl).1,
   (create_sets_identity sampleEnv (freshState Value.nil) { ID := none, rest := "spec" }
      sampleCluster "json" rfl rfl rfl).2 "o-1" rfl⟩

theorem settleEvents_mem (names : FieldNames) (rd : ResourceData) (e : Event)
    (h : e ∈ settleEvents names rd) : e = Event.Sleep (10 * time.Second) := by
  unfold settleEvents at h
  split at h
  · simpa using h
  · simp at h

theorem settleEvents_count (names : FieldNames) (rd : ResourceData) :
    (settleEvents names rd).countP Event.isCreateCall = 0 := by
  unfold settleEvents
  split <;> simp [Event.isCreateCall]

theorem readEvents_count (l : List Event) (h : ∀ e ∈ l, IsReadEvent e) :
    l.countP Event.isCreateCall = 0 := by
  rw [List.countP_eq_zero]
  intro e he
  have := h e he
  cases e <;> simp_all [IsReadEvent, Event.isCreateCall]

/-- The runs of Create, by cases: stopped before the remote call; remote call failed;
remote call answered without a cluster; remote call answered with a cluster, then Read. -/
theorem create_cases (env : Env) (s : St) :
    (∃ err, resourceSpotinstClusterAWSCreate env s =
        .ret [err] { rd := s.rd, trace := s.trace ++ [Event.OnCreate] } ∧
      ∀ c j, ¬ (env.OnCreate s.rd = .ok c ∧ env.ToJsonCluster c = .ok j)) ∨
    (∃ c j e, env.OnCreate s.rd = .ok c ∧ env.ToJsonCluster c = .ok j ∧
      resourceSpotinstClusterAWSCreate env s =
        .ret [GoError.wrapf "[ERROR] failed to create cluster: %s" []
            (classifyCreateError e).Err]
          { rd := s.rd, trace := s.trace ++ Event.OnCreate :: settleEvents env.names s.rd ++
            [Event.CreateCluster c (some e)] }) ∨
    (∃ c j msg, env.OnCreate s.rd = .ok c ∧ env.ToJsonCluster c = .ok j ∧
      resourceSpotinstClusterAWSCreate env s =
        .fault msg
          { rd := s.rd, trace := s.trace ++ Event.OnCreate :: settleEvents env.names s.rd ++
            [Event.CreateCluster c none] }) ∨
    (∃ c j, ∃ cl : Cluster, env.OnCreate s.rd = .ok c ∧ env.ToJsonCluster c = .ok j ∧
      resourceSpotinstClusterAWSCreate env s =
        resourceSpotinstClusterAWSRead env
          { rd := { s.rd with id := StringValue cl.ID },
            trace := s.trace ++ Event.OnCreate :: settleEvents env.names s.rd ++
              [Event.CreateCluster c none] }) := by
  have h := resourceSpotinstClusterAWSCreate_eq env s
  cases hO : env.OnCreate s.rd with
  | error err =>
    rw [hO] at h
    exact Or.inl ⟨err, h, by simp⟩
  | ok c =>
    rw [hO] at h
    have hc := createAWSCluster_eq env c { s with trace := s.trace ++ [Event.OnCreate] }
    simp only [List.append_assoc, List.singleton_append] at hc
    cases hj : env.ToJsonCluster c with
    | error err =>
      rw [hj] at hc
      simp only [hc] at h
      refine Or.inl ⟨err, h, ?_⟩
      intro c1 j1 hc1
      simp only [Except.ok.injEq] at hc1
      obtain ⟨hc1, hj1⟩ := hc1
      subst hc1
      rw [hj] at hj1
      cases hj1
    | ok j =>
      rw [hj] at hc
      cases hC : env.CreateCluster (s.trace ++ Event.OnCreate :: settleEvents env.names s.rd)
          c with
      | error e =>
        rw [hC] at hc
        simp only [hc] at h
        exact Or.inr (Or.inl ⟨c, j, e, rfl, hj, by rw [h]; simp⟩)
      | ok out =>
        obtain ⟨cl⟩ := out
        rw [hC] at hc
        cases cl with
        | none =>
          simp only [hc] at h
          exact Or.inr (Or.inr (Or.inl ⟨c, j,
            "invalid memory address or nil pointer dereference", rfl, hj, by rw [h]; simp⟩))
        | some cl =>
          simp only [hc] at h
          exact Or.inr (Or.inr (Or.inr ⟨c, j, cl, rfl, hj, by rw [h]; simp⟩))

/-- C7. The create callback classifies every `CreateCluster` error as non-retryable, so
whatever number of retries the deadline would allow, one Create issues at most one
`CreateCluster` call, and exactly one once the registry has built the cluster and it
marshals; when that call fails, Create returns an error, leaves the resource data (identity
included) untouched and performs no Read. -/
theorem create_single_attempt (env : Env) (s : St) :
    (∀ err, (classifyCreateError err).Retryable = false) ∧
    (newEvents s (resourceSpotinstClusterAWSCreate env s)).countP Event.isCreateCall ≤ 1 ∧
    (∀ c j, env.OnCreate s.rd = .ok c → env.ToJsonCluster c = .ok j →
      (newEvents s (resourceSpotinstClusterAWSCreate env s)).countP Event.isCreateCall = 1) ∧
    (∀ c err, Event.CreateCluster c (some err) ∈
        newEvents s (resourceSpotinstClusterAWSCreate env s) →
      (∃ d, d ≠ [] ∧ (resourceSpotinstClusterAWSCreate env s).val? = some d) ∧
      (resourceSpotinstClusterAWSCreate env s).st.rd = s.rd ∧
      ∀ e ∈ newEvents s (resourceSpotinstClusterAWSCreate env s), ¬ IsReadEvent e) := by
  refine ⟨classifyCreateError_nonretryable, ?_⟩
  rcases create_cases env s with ⟨err, h, hno⟩ | ⟨c, j, e, hO, hj, h⟩ | ⟨c, j, msg, hO, hj, h⟩ |
      ⟨c, j, cl, hO, hj, h⟩
  · have hev : newEvents s (resourceSpotinstClusterAWSCreate env s) = [Event.OnCreate] := by
      rw [h]
      exact newEvents_eq (by simp [Outcome.st])
    rw [hev]
    refine ⟨by simp [Event.isCreateCall], ?_, ?_⟩
    · intro c j hO hj
      exact absurd ⟨hO, hj⟩ (hno c j)
    · intro c err hmem
      simp at hmem
  · have hev : newEvents s (resourceSpotinstClusterAWSCreate env s) =
        Event.OnCreate :: settleEvents env.names s.rd ++ [Event.CreateCluster c (some e)] := by
      rw [h]
      exact newEvents_eq (by simp [Outcome.st])
    have hcount : (newEvents s (resourceSpotinstClusterAWSCreate env s)).countP
        Event.isCreateCall = 1 := by
      rw [hev]
      simp [List.countP_cons, List.countP_append, settleEvents_count, Event.isCreateCall]
    refine ⟨by omega, fun _ _ _ _ => hcount, ?_⟩
    intro c0 err _
    refine ⟨⟨_, ?_, by rw [h]; rfl⟩, by rw [h]; rfl, ?_⟩
    · simp
    · rw [hev]
      intro x hx
      rcases List.mem_cons.1 hx with hx | hx
      · subst hx
        simp [IsReadEvent]
      · rcases List.mem_append.1 hx with hx | hx
        · rw [settleEvents_mem _ _ _ hx]
          simp [IsReadEvent]
        · simp at hx
          subst hx
          simp [IsReadEvent]
  · have hev : newEvents s (resourceSpotinstClusterAWSCreate env s) =
        Event.OnCreate :: settleEvents env.names s.rd ++ [Event.CreateCluster c none] := by
      rw [h]
      exact newEvents_eq (by simp [Outcome.st])
    have hcount : (newEvents s (resourceSpotinstClusterAWSCreate env s)).countP
        Event.isCreateCall = 1 := by
      rw [hev]
      simp [List.countP_cons, List.countP_append, settleEvents_count, Event.isCreateCall]
    refine ⟨by omega, fun _ _ _ _ => hcount, ?_⟩
    intro c0 err hmem
    exfalso
    rw [hev] at hmem
    rcases List.mem_cons.1 hmem with hx | hx
    · cases hx
    · rcases List.mem_append.1 hx with hx | hx
      · have := settleEvents_mem _ _ _ hx
        cases this
      · simp at hx
  · obtain ⟨lr, hr, p⟩ := read_events_after env s
      { rd := { s.rd with id := StringValue cl.ID },
        trace := s.trace ++ Event.OnCreate :: settleEvents env.names s.rd ++
          [Event.CreateCluster c none] }
      (Event.OnCreate :: settleEvents env.names s.rd ++ [Event.CreateCluster c none])
      (by simp)
    have hev : newEvents s (resourceSpotinstClusterAWSCreate env s) =
        (Event.OnCreate :: settleEvents env.names s.rd ++ [Event.CreateCluster c none]) ++
          lr := by
      rw [h]
      exact hr
    have hcount : (newEvents s (resourceSpotinstClusterAWSCreate env s)).countP
        Event.isCreateCall = 1 := by
      rw [hev]
      simp [List.countP_cons, List.countP_append, settleEvents_count, Event.isCreateCall,
        readEvents_count lr p]
    refine ⟨by omega, fun _ _ _ _ => hcount, ?_⟩
    intro c0 err hmem
    exfalso
    rw [hev] at hmem
    rcases List.mem_append.1 hmem with hx | hx
    · rcases List.mem_cons.1 hx with hx | hx
      · cases hx
      · rcases List.mem_append.1 hx with hx | hx
        · have := settleEvents_mem _ _ _ hx
          cases this
        · simp at hx
    · have := p _ hx
      simp [IsReadEvent] at this

theorem create_single_attempt_witness :
    (newEvents (freshState Value.nil)
        (resourceSpotinstClusterAWSCreate sampleEnv (freshState Value.nil))).countP
      Event.isCreateCall = 1 ∧
    ((∃ d, d ≠ [] ∧ (resourceSpotinstClusterAWSCreate
        (sampleEnvCreate (.error (.clientErrors
          [{ Code := "InvalidParamterValue", Message := "Invalid IAM Instance Profile name" }])))
        (freshState Value.nil)).val? = some d) ∧
      (resourceSpotinstClusterAWSCreate
        (sampleEnvCreate (.error (.clientErrors
          [{ Code := "InvalidParamterValue", Message := "Invalid IAM Instance Profile name" }])))
        (freshState Value.nil)).st.rd = (freshState Value.nil).rd ∧
      ∀ e ∈ newEvents (freshState Value.nil) (resourceSpotinstClusterAWSCreate
        (sampleEnvCreate (.error (.clientErrors
          [{ Code := "InvalidParamterValue", Message := "Invalid IAM Instance Profile name" }])))
        (freshState Value.nil)), ¬ IsReadEvent e) :=
  ⟨(create_single_attempt sampleEnv (freshState Value.nil)).2.2.1
      { ID := none, rest := "spec" } "json" rfl rfl,
   (create_single_attempt
      (sampleEnvCreate (.error (.clientErrors
        [{ Code := "InvalidParamterValue", Message := "Invalid IAM Instance Profile name" }])))
      (freshState Value.nil)).2.2.2 { ID := none, rest := "spec" }
      (.clientErrors
        [{ Code := "InvalidParamterValue", Message := "Invalid IAM Instance Profile name" }])
      (by decide)⟩

/-! ## Missing roll configuration entry -/

theorem policyBlock_some (names : FieldNames) (rd : ResourceData) (m : List (String × Value))
    (h : policyBlock names rd = some m) :
    ∃ t, rd.GetOkExists names.UpdatePolicy = (Value.slice (Value.map m :: t), true) := by
  unfold policyBlock at h
  split at h
  · rename_i m1 t hg
    cases h
    exact ⟨t, hg⟩
  · cases h

theorem policyFlag_block (names : FieldNames) (rd : ResourceData) (key : String)
    (h : policyFlag names rd key = true) : ∃ m, policyBlock names rd = some m := by
  unfold policyFlag at h
  cases hb : policyBlock names rd with
  | none => simp [hb] at h
  | some m => exact ⟨m, rfl⟩

theorem policyBlock_wellFormed (names : FieldNames) (rd : ResourceData)
    (m : List (String × Value)) (h : policyBlock names rd = some m) :
    policyMalformed names rd = false := by
  obtain ⟨t, hg⟩ := policyBlock_some names rd m h
  simp [policyMalformed, hg]

theorem roll_missing_config (env : Env) (s : St) (m : List (String × Value))
    (hb : policyBlock env.names s.rd = some m)
    (hm : m.lookup env.names.RollConfig = none ∨
      m.lookup env.names.RollConfig = some Value.nil) :
    rollOceanAWSCluster env s =
      .ret (some (missingRollConfig s.rd.id))
        { rd := s.rd, trace := s.trace ++ [Event.RollInvoked] } := by
  obtain ⟨t, hg⟩ := policyBlock_some env.names s.rd m hb
  rcases hm with hm | hm <;>
    simp [rollOceanAWSCluster, bind, M.bind, pure, emit, getId, rdGetOkExists, hg, assertSlice,
      Slice.len, index0, Value.isNil, assertMap, mapGet, hm, missingRollConfig]

/-- Update with `should_roll` true and a policy block without a roll configuration entry,
whose remote `UpdateCluster` call succeeded, reports no error when the roll is conditioned
and nothing calls for it: the roll step is skipped. -/
theorem update_missing_roll_config_counterexample :
    policyFlag sampleEnv.names
        (sampleState (policyOf [("should_roll", .bool true), ("conditioned_roll", .bool true)])
          Value.nil).rd sampleEnv.names.ShouldRoll = true ∧
    List.lookup sampleEnv.names.RollConfig
        [("should_roll", Value.bool true), ("conditioned_roll", Value.bool true)] = none ∧
    Event.UpdateCluster { ID := some "o-1", rest := "spec" } none ∈
      newEvents
        (sampleState (policyOf [("should_roll", .bool true), ("conditioned_roll", .bool true)])
          Value.nil)
        (resourceSpotinstClusterAWSUpdate sampleEnv
          (sampleState (policyOf [("should_roll", .bool true), ("conditioned_roll", .bool true)])
            Value.nil)) ∧
    (resourceSpotinstClusterAWSUpdate sampleEnv
      (sampleState (policyOf [("should_roll", .bool true), ("conditioned_roll", .bool true)])
        Value.nil)).val? = some [] :=
  ⟨rfl, rfl, by decide, by decide⟩

/-- When the first block of the update policy has no roll configuration entry (the key is
missing or the entry is nil), `rollOceanAWSCluster` returns the missing-roll-configuration error
and issues no `CreateRoll` call; hence an Update whose remote `UpdateCluster` call succeeded
and whose roll gate is open (`should_roll` true, and `conditioned_roll` false or a
roll-requiring change or a tag change without `auto_apply_tags`) reports that error, with
the `UpdateCluster` call already issued and no Read performed. -/
theorem update_missing_roll_config (env : Env) (s : St) (m : List (String × Value))
    (hb : policyBlock env.names s.rd = some m)
    (hm : m.lookup env.names.RollConfig = none ∨
      m.lookup env.names.RollConfig = some Value.nil) :
    rollOceanAWSCluster env s =
      .ret (some (missingRollConfig s.rd.id))
        { rd := s.rd, trace := s.trace ++ [Event.RollInvoked] } ∧
    (∀ crr tc c j, env.OnUpdate s.rd = .ok (true, crr, tc, c) →
      env.ToJsonCluster (c.SetId (some s.rd.id)) = .ok j →
      env.UpdateCluster (s.trace ++ [Event.OnUpdate]) (c.SetId (some s.rd.id)) = none →
      policyFlag env.names s.rd env.names.ShouldRoll = true →
      (policyFlag env.names s.rd env.names.ConditionedRoll = false ∨ crr = true ∨
        (policyFlag env.names s.rd env.names.AutoApplyTags = false ∧ tc = true)) →
      resourceSpotinstClusterAWSUpdate env s =
        .ret [missingRollConfig s.rd.id]
          { rd := s.rd,
            trace := s.trace ++ [Event.OnUpdate,
              Event.UpdateCluster (c.SetId (some s.rd.id)) none, Event.RollInvoked] }) := by
  refine ⟨roll_missing_config env s m hb hm, ?_⟩
  intro crr tc c j hO hj hu h1 h2
  have hgate : rollGate env.names s.rd crr tc := ⟨h1, h2⟩
  have hU := resourceSpotinstClusterAWSUpdate_eq env s
  rw [hO] at hU
  simp only [if_true] at hU
  have heq := updateAWSCluster_eq env (c.SetId (some s.rd.id)) crr tc
    { rd := s.rd, trace := s.trace ++ [Event.OnUpdate] }
    (policyBlock_wellFormed env.names s.rd m hb)
  rw [hj] at heq
  simp only [hu] at heq
  rw [if_pos hgate] at heq
  rw [roll_missing_config env
    { rd := s.rd, trace := s.trace ++ [Event.OnUpdate] ++
      [Event.UpdateCluster (c.SetId (some s.rd.id)) none] } m hb hm] at heq
  rw [heq] at hU
  simp only at hU
  rw [hU]
  simp

theorem update_missing_roll_config_witness :
    resourceSpotinstClusterAWSUpdate sampleEnv
        (sampleState (policyOf [("should_roll", .bool true)]) Value.nil) =
      .ret [missingRollConfig "o-1"]
        { rd := sampleData (policyOf [("should_roll", .bool true)]) Value.nil,
          trace := [Event.OnUpdate,
            Event.UpdateCluster { ID := some "o-1", rest := "spec" } none,
            Event.RollInvoked] } :=
  (update_missing_roll_config sampleEnv
    (sampleState (policyOf [("should_roll", .bool true)]) Value.nil)
    [("should_roll", .bool true)] rfl (Or.inl rfl)).2
    false false { ID := none, rest := "spec" } "json" rfl rfl rfl rfl (Or.inl rfl)

/-! ## Unconfigured roll configuration (claim C10) -/

theorem roll_empty_config (env : Env) (s : St) (m : List (String × Value))
    (hb : policyBlock env.names s.rd = some m)
    (hm : m.lookup env.names.RollConfig = some (Value.slice [])) :
    rollOceanAWSCluster env s =
      .fault "index out of range [0]"
        { rd := s.rd, trace := s.trace ++ [Event.RollInvoked] } := by
  obtain ⟨t, hg⟩ := policyBlock_some env.names s.rd m hb
  simp [rollOceanAWSCluster, bind, M.bind, pure, emit, getId, rdGetOkExists, hg, assertSlice,
    Slice.len, index0, Value.isNil, assertMap, mapGet, hm, expandOceanAWSClusterRollConfig,
    fault]

/-- C10, on the code. When the first block of the update policy holds the empty list as
its roll configuration, which is how an unconfigured `roll_config` is supplied,
`rollOceanAWSCluster` does not return the missing-roll-configuration error: it panics with
an index out of range, having issued no `CreateRoll` call. Hence an Update whose remote
`UpdateCluster` call succeeded and whose roll gate is open panics after the `UpdateCluster`
call, reporting no error and performing no Read. -/
theorem update_empty_roll_config (env : Env) (s : St) (m : List (String × Value))
    (hb : policyBlock env.names s.rd = some m)
    (hm : m.lookup env.names.RollConfig = some (Value.slice [])) :
    rollOceanAWSCluster env s =
      .fault "index out of range [0]"
        { rd := s.rd, trace := s.trace ++ [Event.RollInvoked] } ∧
    (∀ crr tc c j, env.OnUpdate s.rd = .ok (true, crr, tc, c) →
      env.ToJsonCluster (c.SetId (some s.rd.id)) = .ok j →
      env.UpdateCluster (s.trace ++ [Event.OnUpdate]) (c.SetId (some s.rd.id)) = none →
      policyFlag env.names s.rd env.names.ShouldRoll = true →
      (policyFlag env.names s.rd env.names.ConditionedRoll = false ∨ crr = true ∨
        (policyFlag env.names s.rd env.names.AutoApplyTags = false ∧ tc = true)) →
      resourceSpotinstClusterAWSUpdate env s =
        .fault "index out of range [0]"
          { rd := s.rd,
            trace := s.trace ++ [Event.OnUpdate,
              Event.UpdateCluster (c.SetId (some s.rd.id)) none, Event.RollInvoked] }) := by
  refine ⟨roll_empty_config env s m hb hm, ?_⟩
  intro crr tc c j hO hj hu h1 h2
  have hgate : rollGate env.names s.rd crr tc := ⟨h1, h2⟩
  have hU := resourceSpotinstClusterAWSUpdate_eq env s
  rw [hO] at hU
  simp only [if_true] at hU
  have heq := updateAWSCluster_eq env (c.SetId (some s.rd.id)) crr tc
    { rd := s.rd, trace := s.trace ++ [Event.OnUpdate] }
    (policyBlock_wellFormed env.names s.rd m hb)
  rw [hj] at heq
  simp only [hu] at heq
  rw [if_pos hgate] at heq
  rw [roll_empty_config env
    { rd := s.rd, trace := s.trace ++ [Event.OnUpdate] ++
      [Event.UpdateCluster (c.SetId (some s.rd.id)) none] } m hb hm] at heq
  rw [heq] at hU
  simp only at hU
  rw [hU]
  simp

theorem update_empty_roll_config_witness :
    resourceSpotinstClusterAWSUpdate sampleEnv (sampleState rollingPolicyUnconfigured Value.nil) =
      .fault "index out of range [0]"
        { rd := sampleData rollingPolicyUnconfigured Value.nil,
          trace := [Event.OnUpdate,
            Event.UpdateCluster { ID := some "o-1", rest := "spec" } none,
            Event.RollInvoked] } :=
  (update_empty_roll_config sampleEnv (sampleState rollingPolicyUnconfigured Value.nil)
    [("should_roll", .bool true), ("roll_config", .slice [])] rfl rfl).2
    false false { ID := none, rest := "spec" } "json" rfl rfl rfl rfl (Or.inl rfl)

/-! ## The roll specification and the roll step: lemmas -/

theorem asInt_configured (m : List (String × Value)) (key : String) :
    (mapGet m key).1.asInt =
      (match configuredInt m key with
        | some i => (i, true)
        | none => (0, false)) := by
  unfold mapGet configuredInt
  cases h : m.lookup key with
  | none => simp [Value.asInt]
  | some v => cases v <;> simp [Value.asInt]

theorem asBool_configured (m : List (String × Value)) (key : String) :
    (mapGet m key).1.asBool =
      (match configuredBool m key with
        | some b => (b, true)
        | none => (false, false)) := by
  unfold mapGet configuredBool
  cases h : m.lookup key with
  | none => simp [Value.asBool]
  | some v => cases v <;> simp [Value.asBool]

theorem expandRollConfig_map (env : Env) (m : List (String × Value)) (rest : List Value)
    (clusterID : String) (s : St)
    (hl : (mapGet m env.names.LaunchSpecIDs).1.asStrings.2 = false) :
    expandOceanAWSClusterRollConfig env (Value.slice (Value.map m :: rest)) clusterID s =
      .ret ({ ClusterID := some clusterID
              BatchSizePercentage := configuredInt m env.names.BatchSizePercentage
              LaunchSpecIDs := none
              BatchMinHealthyPercentage :=
                (configuredInt m env.names.BatchMinHealthyPercentage).filter (fun h => h > 0)
              RespectPDB := configuredBool m env.names.RespectPDB }, none) s := by
  rcases hb : configuredInt m env.names.BatchSizePercentage with _ | b <;>
    rcases hh : configuredInt m env.names.BatchMinHealthyPercentage with _ | h <;>
    rcases hp : configuredBool m env.names.RespectPDB with _ | p <;>
    simp [expandOceanAWSClusterRollConfig, bind, M.bind, pure, assertSlice, index0, Value.isNil,
      assertMap, hl, asInt_configured, asBool_configured, hb, hh, hp, Option.filter]
  all_goals (split <;> rename_i h0 <;> simp [h0, bind_ret_eq])

theorem expandRollConfig_strings (env : Env) (m : List (String × Value)) (rest : List Value)
    (clusterID : String) (s : St)
    (hl : (mapGet m env.names.LaunchSpecIDs).1.asStrings.2 = true) :
    expandOceanAWSClusterRollConfig env (Value.slice (Value.map m :: rest)) clusterID s =
      .fault "interface conversion: value is not a []interface" s := by
  rcases hb : configuredInt m env.names.BatchSizePercentage with _ | b <;>
    simp [expandOceanAWSClusterRollConfig, bind, M.bind, pure, assertSlice, index0, Value.isNil,
      assertMap, hl, asInt_configured, hb, expandOceanAWSLaunchSpecIDs, fault, bind_ret_eq]

/-- What `expandOceanAWSClusterRollConfig` returns never carries launch spec IDs. -/
theorem expandRollConfig_no_ids (env : Env) (data : Value) (clusterID : String) (s s1 : St)
    (spec : RollSpec) (err : Option GoError)
    (h : expandOceanAWSClusterRollConfig env data clusterID s = .ret (spec, err) s1) :
    spec.LaunchSpecIDs = none ∧ err = none ∧ s1 = s := by
  cases data with
  | nilSlice =>
    simp [expandOceanAWSClusterRollConfig, bind, M.bind, pure, assertSlice] at h
    obtain ⟨⟨h1, h2⟩, h3⟩ := h
    subst h1 h2 h3
    simp
  | slice xs =>
    cases xs with
    | nil =>
      simp [expandOceanAWSClusterRollConfig, bind, M.bind, pure, assertSlice, index0, fault] at h
    | cons first rest =>
      cases first with
      | nil =>
        simp [expandOceanAWSClusterRollConfig, bind, M.bind, pure, assertSlice, index0,
          Value.isNil] at h
        obtain ⟨⟨h1, h2⟩, h3⟩ := h
        subst h1 h2 h3
        simp
      | map m =>
        cases hl : (mapGet m env.names.LaunchSpecIDs).1.asStrings.2 with
        | true =>
          rw [expandRollConfig_strings env m rest clusterID s hl] at h
          cases h
        | false =>
          rw [expandRollConfig_map env m rest clusterID s hl] at h
          cases h
          simp
      | nilMap =>
        have e : expandOceanAWSClusterRollConfig env (Value.slice (Value.nilMap :: rest))
            clusterID s
            = expandOceanAWSClusterRollConfig env (Value.slice (Value.map [] :: rest))
              clusterID s := rfl
        rw [e, expandRollConfig_map env [] rest clusterID s rfl] at h
        cases h
        simp
      | _ =>
        simp [expandOceanAWSClusterRollConfig, bind, M.bind, pure, assertSlice, index0,
          Value.isNil, assertMap, fault] at h
  | _ => simp [expandOceanAWSClusterRollConfig, bind, M.bind, pure, assertSlice, fault] at h

theorem expandRollConfig_state (env : Env) (data : Value) (clusterID : String) (s : St) :
    (expandOceanAWSClusterRollConfig env data clusterID s).st = s := by
  obtain ⟨l, hl, p⟩ := (emits_expandRoll (fun _ => False) env data clusterID).out s
  have hk := (keeps_expandRoll env data clusterID).out s
  have hnil : l = [] := by
    cases l with
    | nil => rfl
    | cons e t => exact absurd (p e (List.mem_cons_self _ _)) id
  subst hnil
  cases hs : (expandOceanAWSClusterRollConfig env data clusterID s).st with
  | mk rd tr =>
    rw [hs] at hl hk
    simp at hl hk
    subst hl hk
    rfl

/-- The runs of `rollOceanAWSCluster`, by cases: stopped before the remote call by a panic
or with some result; `CreateRoll` issued and succeeded; `CreateRoll` issued and failed. -/
theorem roll_outcomes (env : Env) (s : St) :
    (∃ msg, rollOceanAWSCluster env s =
      .fault msg { rd := s.rd, trace := s.trace ++ [Event.RollInvoked] }) ∨
    (∃ r, rollOceanAWSCluster env s =
      .ret r { rd := s.rd, trace := s.trace ++ [Event.RollInvoked] }) ∨
    (∃ spec, rollOceanAWSCluster env s =
      .ret none { rd := s.rd,
                  trace := s.trace ++ [Event.RollInvoked, Event.CreateRoll spec none] }) ∨
    (∃ spec err, rollOceanAWSCluster env s =
      .ret (some (GoError.wrapf "onRoll() -> Roll failed for cluster [%v], error: %v"
          [s.rd.id] err))
        { rd := s.rd,
          trace := s.trace ++ [Event.RollInvoked, Event.CreateRoll spec (some err)] }) := by
  rcases hg : s.rd.GetOkExists env.names.UpdatePolicy with ⟨v, ex⟩
  cases ex with
  | false =>
    refine Or.inr (Or.inl
      ⟨some (GoError.errorf "ocean/aws: missing update policy for cluster %q" [s.rd.id]), ?_⟩)
    simp [rollOceanAWSCluster, bind, M.bind, pure, emit, getId, rdGetOkExists, hg]
  | true =>
    cases v with
    | nilSlice =>
      refine Or.inr (Or.inl ⟨none, ?_⟩)
      simp [rollOceanAWSCluster, bind, M.bind, pure, emit, getId, rdGetOkExists, hg,
        assertSlice, Slice.len]
    | slice xs =>
      cases xs with
      | nil =>
        refine Or.inr (Or.inl ⟨none, ?_⟩)
        simp [rollOceanAWSCluster, bind, M.bind, pure, emit, getId, rdGetOkExists, hg,
          assertSlice, Slice.len]
      | cons first rest =>
        cases first with
        | nil =>
          refine Or.inr (Or.inl ⟨none, ?_⟩)
          simp [rollOceanAWSCluster, bind, M.bind, pure, emit, getId, rdGetOkExists, hg,
            assertSlice, Slice.len, index0, Value.isNil]
        | map m =>
          have hm : (Value.map m).isNil = false := rfl
          have hst := expandRollConfig_state env (mapGet m env.names.RollConfig).1 s.rd.id
            { rd := s.rd, trace := s.trace ++ [Event.RollInvoked] }
          cases hok : (mapGet m env.names.RollConfig).2 with
          | false =>
            refine Or.inr (Or.inl ⟨some (GoError.errorf
              "ocean/aws: missing roll configuration, skipping roll for cluster %q"
              [s.rd.id]), ?_⟩)
            simp [rollOceanAWSCluster, bind, M.bind, pure, emit, getId, rdGetOkExists, hg,
              assertSlice, Slice.len, index0, hm, assertMap, hok]
          | true =>
            cases hnil : (mapGet m env.names.RollConfig).1.isNil with
            | true =>
              refine Or.inr (Or.inl ⟨some (GoError.errorf
                "ocean/aws: missing roll configuration, skipping roll for cluster %q"
                [s.rd.id]), ?_⟩)
              simp [rollOceanAWSCluster, bind, M.bind, pure, emit, getId, rdGetOkExists, hg,
                assertSlice, Slice.len, index0, hm, assertMap, hok, hnil]
            | false =>
              cases hx : expandOceanAWSClusterRollConfig env (mapGet m env.names.RollConfig).1
                  s.rd.id { rd := s.rd, trace := s.trace ++ [Event.RollInvoked] } with
              | fault msg s2 =>
                rw [hx] at hst
                simp only [Outcome.st] at hst
                subst hst
                refine Or.inl ⟨msg, ?_⟩
                simp [rollOceanAWSCluster, bind, M.bind, pure, emit, getId, rdGetOkExists, hg,
                  assertSlice, Slice.len, index0, hm, assertMap, hok, hnil, hx]
              | ret a s2 =>
                obtain ⟨spec, err⟩ := a
                obtain ⟨_, herr, hs2⟩ := expandRollConfig_no_ids env _ _ _ _ _ _ hx
                subst herr hs2
                cases hj : env.ToJsonValue (mapGet m env.names.RollConfig).1 with
                | error e =>
                  refine Or.inr (Or.inl ⟨some (GoError.wrapf
                    "ocean/aws: failed marshaling roll configuration for cluster %q, error: %v"
                    [s.rd.id] e), ?_⟩)
                  simp [rollOceanAWSCluster, bind, M.bind, pure, emit, getId, rdGetOkExists, hg,
                    assertSlice, Slice.len, index0, hm, assertMap, hok, hnil, hx, hj]
                | ok j =>
                  cases hc : env.CreateRoll (s.trace ++ [Event.RollInvoked]) spec with
                  | none =>
                    refine Or.inr (Or.inr (Or.inl ⟨spec, ?_⟩))
                    simp [rollOceanAWSCluster, bind, M.bind, pure, emit, getId, rdGetOkExists,
                      hg, assertSlice, Slice.len, index0, hm, assertMap, hok, hnil, hx,
                      hj, callCreateRoll, hc]
                  | some e =>
                    refine Or.inr (Or.inr (Or.inr ⟨spec, e, ?_⟩))
                    simp [rollOceanAWSCluster, bind, M.bind, pure, emit, getId, rdGetOkExists,
                      hg, assertSlice, Slice.len, index0, hm, assertMap, hok, hnil, hx,
                      hj, callCreateRoll, hc]
        | nilMap =>
          refine Or.inr (Or.inl ⟨some (GoError.errorf
            "ocean/aws: missing roll configuration, skipping roll for cluster %q"
            [s.rd.id]), ?_⟩)
          simp [rollOceanAWSCluster, bind, M.bind, pure, emit, getId, rdGetOkExists, hg,
            assertSlice, Slice.len, index0, Value.isNil, assertMap, mapGet]
        | _ =>
          refine Or.inl ⟨"interface conversion: value is not a map[string]interface", ?_⟩
          simp [rollOceanAWSCluster, bind, M.bind, pure, emit, getId, rdGetOkExists, hg,
            assertSlice, Slice.len, index0, Value.isNil, assertMap, fault]
    | _ =>
      refine Or.inl ⟨"interface conversion: value is not a []interface", ?_⟩
      simp [rollOceanAWSCluster, bind, M.bind, pure, emit, getId, rdGetOkExists, hg,
        assertSlice, fault]

/-! ## Roll failure and the roll specification (claims C11, C12, C13) -/

/-- C11. When the `CreateRoll` call fails, `updateAWSCluster` returns an error wrapping the
error of that call, and its log is exactly the `UpdateCluster` call (issued once, without
error), the entry into the roll step and the failed `CreateRoll` call: nothing is issued
after the roll failure. -/
theorem roll_failure_surfaced (env : Env) (c : Cluster) (crr tc : Bool) (s : St)
    (spec : RollSpec) (err : GoError)
    (h : Event.CreateRoll spec (some err) ∈ newEvents s (updateAWSCluster env c crr tc s)) :
    updateAWSCluster env c crr tc s =
      .ret (some (GoError.wrapf "onRoll() -> Roll failed for cluster [%v], error: %v"
          [s.rd.id] err))
        { rd := s.rd,
          trace := s.trace ++ [Event.UpdateCluster c none, Event.RollInvoked,
            Event.CreateRoll spec (some err)] } := by
  cases hwf : policyMalformed env.names s.rd with
  | true =>
    obtain ⟨msg, hf⟩ := updateAWSCluster_fault env c crr tc s hwf
    rw [hf, newEvents_eq (l := []) (by simp [Outcome.st])] at h
    simp at h
  | false =>
    have heq := updateAWSCluster_eq env c crr tc s hwf
    cases hj : env.ToJsonCluster c with
    | error e =>
      rw [hj] at heq
      rw [heq, newEvents_eq (l := []) (by simp [Outcome.st])] at h
      simp at h
    | ok j =>
      rw [hj] at heq
      cases hu : env.UpdateCluster s.trace c with
      | some e =>
        rw [hu] at heq
        rw [heq, newEvents_eq (l := [Event.UpdateCluster c (some e)])
          (by simp [Outcome.st])] at h
        simp at h
      | none =>
        rw [hu] at heq
        by_cases hgate : rollGate env.names s.rd crr tc
        · simp only [if_pos hgate] at heq
          rcases roll_outcomes env { rd := s.rd, trace := s.trace ++ [Event.UpdateCluster c none] }
            with ⟨msg, hr⟩ | ⟨r, hr⟩ | ⟨sp, hr⟩ | ⟨sp, e, hr⟩
          · rw [heq, hr, newEvents_eq (l := [Event.UpdateCluster c none, Event.RollInvoked])
              (by simp [Outcome.st])] at h
            simp at h
          · rw [heq, hr, newEvents_eq (l := [Event.UpdateCluster c none, Event.RollInvoked])
              (by simp [Outcome.st])] at h
            simp at h
          · rw [heq, hr, newEvents_eq (l := [Event.UpdateCluster c none, Event.RollInvoked,
              Event.CreateRoll sp none]) (by simp [Outcome.st])] at h
            simp at h
          · rw [heq, hr, newEvents_eq (l := [Event.UpdateCluster c none, Event.RollInvoked,
              Event.CreateRoll sp (some e)]) (by simp [Outcome.st])] at h
            simp at h
            obtain ⟨h1, h2⟩ := h
            subst h1 h2
            rw [heq, hr]
            simp
        · simp only [if_neg hgate] at heq
          rw [heq, newEvents_eq (l := [Event.UpdateCluster c none]) (by simp [Outcome.st])] at h
          simp at h

theorem roll_failure_surfaced_witness :
    updateAWSCluster sampleEnvRollFails sampleCluster false false
        (sampleState (rollingPolicy [("batch_size_percentage", .int 20)]) Value.nil) =
      .ret (some (GoError.wrapf "onRoll() -> Roll failed for cluster [%v], error: %v"
          ["o-1"] (GoError.other "roll rejected")))
        { rd := sampleData (rollingPolicy [("batch_size_percentage", .int 20)]) Value.nil,
          trace := [Event.UpdateCluster sampleCluster none, Event.RollInvoked,
            Event.CreateRoll { ClusterID := some "o-1", BatchSizePercentage := some 20 }
              (some (GoError.other "roll rejected"))] } :=
  roll_failure_surfaced sampleEnvRollFails sampleCluster false false
    (sampleState (rollingPolicy [("batch_size_percentage", .int 20)]) Value.nil)
    { ClusterID := some "o-1", BatchSizePercentage := some 20 } (GoError.other "roll rejected")
    (by decide)

/-- C12. For a roll configuration whose first entry is the map `m` (its `launch_spec_ids`
entry, if any, being a list of untyped values as the configuration representation supplies
it, not a Go `[]string`) and every cluster ID, `expandOceanAWSClusterRollConfig` returns,
with no error and no change of state, the roll spec whose `ClusterID` is the given ID, whose
`BatchSizePercentage` is the configured integer (zero included), whose
`BatchMinHealthyPercentage` is the configured integer when it is greater than zero and unset
otherwise, and whose `RespectPDB` is the configured boolean. -/
theorem expandRollConfig_fields (env : Env) (m : List (String × Value)) (rest : List Value)
    (clusterID : String) (s : St)
    (hl : (mapGet m env.names.LaunchSpecIDs).1.asStrings.2 = false) :
    expandOceanAWSClusterRollConfig env (Value.slice (Value.map m :: rest)) clusterID s =
      .ret ({ ClusterID := some clusterID
              BatchSizePercentage := configuredInt m env.names.BatchSizePercentage
              LaunchSpecIDs := none
              BatchMinHealthyPercentage :=
                (configuredInt m env.names.BatchMinHealthyPercentage).filter (fun h => h > 0)
              RespectPDB := configuredBool m env.names.RespectPDB }, none) s :=
  expandRollConfig_map env m rest clusterID s hl

theorem expandRollConfig_fields_witness :
    expandOceanAWSClusterRollConfig sampleEnv
        (Value.slice [Value.map [("batch_size_percentage", .int 0),
          ("batch_min_healthy_percentage", .int 0), ("respect_pdb", .bool false)]]) "o-1"
        (sampleState (Value.nil, false) Value.nil) =
      .ret ({ ClusterID := some "o-1"
              BatchSizePercentage := some 0
              LaunchSpecIDs := none
              BatchMinHealthyPercentage := none
              RespectPDB := some false }, none) (sampleState (Value.nil, false) Value.nil) ∧
    expandOceanAWSClusterRollConfig sampleEnv
        (Value.slice [Value.map [("batch_size_percentage", .int 25),
          ("batch_min_healthy_percentage", .int 50), ("respect_pdb", .bool true)]]) "o-1"
        (sampleState (Value.nil, false) Value.nil) =
      .ret ({ ClusterID := some "o-1"
              BatchSizePercentage := some 25
              LaunchSpecIDs := none
              BatchMinHealthyPercentage := some 50
              RespectPDB := some true }, none) (sampleState (Value.nil, false) Value.nil) :=
  ⟨expandRollConfig_fields sampleEnv _ [] "o-1" _ rfl,
   expandRollConfig_fields sampleEnv _ [] "o-1" _ rfl⟩

/-- C13, on the code. A roll configuration whose `launch_spec_ids` entry is the list of
untyped values `["ols-1", "", "ols-2"]` is expanded to a roll spec with no launch spec IDs;
and whatever the input, a roll spec returned by `expandOceanAWSClusterRollConfig` has
`LaunchSpecIDs` unset. -/
theorem expandRollConfig_drops_launch_spec_ids :
    expandOceanAWSClusterRollConfig sampleEnv
        (Value.slice [Value.map [("batch_size_percentage", .int 20),
          ("launch_spec_ids", .slice [.str "ols-1", .str "", .str "ols-2"])]]) "o-1"
        (sampleState (Value.nil, false) Value.nil) =
      .ret ({ ClusterID := some "o-1"
              BatchSizePercentage := some 20
              LaunchSpecIDs := none }, none) (sampleState (Value.nil, false) Value.nil) ∧
    ∀ (env : Env) (data : Value) (clusterID : String) (s : St),
      (expandOceanAWSClusterRollConfig env data clusterID s).val?.all
        (fun r => r.1.LaunchSpecIDs.isNone) = true := by
  refine ⟨expandRollConfig_map sampleEnv _ [] "o-1" _ rfl, ?_⟩
  intro env data clusterID s
  cases hx : expandOceanAWSClusterRollConfig env data clusterID s with
  | fault msg s1 => simp [Outcome.val?]
  | ret a s1 =>
    obtain ⟨spec, err⟩ := a
    obtain ⟨h1, _, _⟩ := expandRollConfig_no_ids env data clusterID s s1 spec err hx
    simp [Outcome.val?, h1]

/-! ## `expandFilters`: normal form -/

theorem bind_ok_eq {α β : Type} {x : GoResult α} {a : α} {f : α → GoResult β}
    {b : GoResult β}
    (hx : x = .ok a) (hf : f a = b) : x >>= f = b := by
  subst hx
  exact hf

theorem mapGet_set (m : List (String × Value)) (key : String)
    (h : ∀ v, m.lookup key = some v → ∃ xs, v = Value.set xs) :
    (mapGet m key).2 = false ∨ ∃ xs, mapGet m key = (Value.set xs, true) := by
  unfold mapGet
  cases hl : m.lookup key with
  | none => exact Or.inl rfl
  | some v =>
    obtain ⟨xs, hxs⟩ := h v hl
    subst hxs
    exact Or.inr ⟨xs, rfl⟩

theorem listBlock_eq (g : Value × Bool) (nullify : Bool)
    (set : Filters → Option (List String) → Filters) (f : Filters) :
    (g.2 = false ∨ ∃ xs, g = (Value.set xs, true)) →
    (match g with
      | (v, true) => do
        let xs ← expandInstanceTypeFiltersList v
        if xs.length > 0 then
          pure (set f (some xs))
        else if nullify then
          pure (set f none)
        else
          pure f
      | (_, false) => pure f) = GoResult.ok (listStep g nullify set f) := by
  intro h
  rcases h with h | ⟨xs, rfl⟩
  · obtain ⟨v, ok⟩ := g
    simp only at h
    subst h
    simp [listStep, pure]
  · by_cases hlen : (instanceTypeLoop xs).length > 0
    · simp [listStep, setStrings, expandInstanceTypeFiltersList, toSetList, bind, GoResult.bind,
        pure, hlen]
    · cases nullify <;>
        simp [listStep, setStrings, expandInstanceTypeFiltersList, toSetList, bind,
          GoResult.bind, pure, hlen]

theorem expandFilters_eq (names : FilterNames) (m : List (String × Value)) (rest : List Value)
    (nullify : Bool) (hwt : SetsWellTyped names m) :
    expandFilters names (Value.slice (Value.map m :: rest)) nullify =
      .ok (filtersOf names m nullify) := by
  have hm : ¬ (Value.map m).isNil = true := by simp [Value.isNil]
  unfold expandFilters
  lift_lets
  intro f0
  refine bind_ok_eq (a := some (Value.map m :: rest)) rfl ?_
  beta_reduce
  rw [if_neg (by simp)]
  refine bind_ok_eq (a := Value.map m) rfl ?_
  beta_reduce
  rw [if_neg hm]
  refine bind_ok_eq (a := m) rfl ?_
  beta_reduce
  refine bind_ok_eq (listBlock_eq (mapGet m names.Architectures) nullify Filters.SetArchitectures _
    (mapGet_set m _ (hwt _ (by simp)))) ?_
  beta_reduce
  refine bind_ok_eq (listBlock_eq (mapGet m names.Categories) nullify Filters.SetCategories _
    (mapGet_set m _ (hwt _ (by simp)))) ?_
  beta_reduce
  refine bind_ok_eq (listBlock_eq (mapGet m names.DiskTypes) nullify Filters.SetDiskTypes _
    (mapGet_set m _ (hwt _ (by simp)))) ?_
  beta_reduce
  refine bind_ok_eq (listBlock_eq (mapGet m names.ExcludeFamilies) nullify
    Filters.SetExcludeFamilies _
    (mapGet_set m _ (hwt _ (by simp)))) ?_
  beta_reduce
  refine bind_ok_eq (listBlock_eq (mapGet m names.Hypervisor) nullify Filters.SetHypervisor _
    (mapGet_set m _ (hwt _ (by simp)))) ?_
  beta_reduce
  lift_lets
  intro f6
  refine bind_ok_eq (listBlock_eq (mapGet m names.IncludeFamilies) nullify
    Filters.SetIncludeFamilies _
    (mapGet_set m _ (hwt _ (by simp)))) ?_
  beta_reduce
  lift_lets
  intro f8
  intro f9
  intro f10
  intro f11
  intro f12
  intro f13
  intro f14
  intro f15
  intro f16
  intro f17
  refine bind_ok_eq (listBlock_eq (mapGet m names.RootDeviceTypes) nullify
    Filters.SetRootDeviceTypes _
    (mapGet_set m _ (hwt _ (by simp)))) ?_
  beta_reduce
  refine bind_ok_eq (listBlock_eq (mapGet m names.VirtualizationTypes) nullify
    Filters.SetVirtualizationTypes _
    (mapGet_set m _ (hwt _ (by simp)))) ?_
  beta_reduce
  rfl

/-! ## `expandFilters`: the fields of the normal form -/

theorem isSetter_Architectures : IsSetter "Architectures" Filters.SetArchitectures := by
  intro f v
  cases v <;> simp [Filters.SetArchitectures]

theorem isSetter_Categories : IsSetter "Categories" Filters.SetCategories := by
  intro f v
  cases v <;> simp [Filters.SetCategories]

theorem isSetter_DiskTypes : IsSetter "DiskTypes" Filters.SetDiskTypes := by
  intro f v
  cases v <;> simp [Filters.SetDiskTypes]

theorem isSetter_ExcludeFamilies : IsSetter "ExcludeFamilies" Filters.SetExcludeFamilies := by
  intro f v
  cases v <;> simp [Filters.SetExcludeFamilies]

theorem isSetter_Hypervisor : IsSetter "Hypervisor" Filters.SetHypervisor := by
  intro f v
  cases v <;> simp [Filters.SetHypervisor]

theorem isSetter_ExcludeMetal : IsSetter "ExcludeMetal" Filters.SetExcludeMetal := by
  intro f v
  cases v <;> simp [Filters.SetExcludeMetal]

theorem isSetter_IncludeFamilies : IsSetter "IncludeFamilies" Filters.SetIncludeFamilies := by
  intro f v
  cases v <;> simp [Filters.SetIncludeFamilies]

theorem isSetter_IsEnaSupported : IsSetter "IsEnaSupported" Filters.SetIsEnaSupported := by
  intro f v
  cases v <;> simp [Filters.SetIsEnaSupported]

theorem isSetter_MaxGpu : IsSetter "MaxGpu" Filters.SetMaxGpu := by
  intro f v
  cases v <;> simp [Filters.SetMaxGpu]

theorem isSetter_MaxMemoryGiB : IsSetter "MaxMemoryGiB" Filters.SetMaxMemoryGiB := by
  intro f v
  cases v <;> simp [Filters.SetMaxMemoryGiB]

theorem isSetter_MaxNetworkPerformance :
    IsSetter "MaxNetworkPerformance" Filters.SetMaxNetworkPerformance := by
  intro f v
  cases v <;> simp [Filters.SetMaxNetworkPerformance]

theorem isSetter_MaxVcpu : IsSetter "MaxVcpu" Filters.SetMaxVcpu := by
  intro f v
  cases v <;> simp [Filters.SetMaxVcpu]

theorem isSetter_MinEnis : IsSetter "MinEnis" Filters.SetMinEnis := by
  intro f v
  cases v <;> simp [Filters.SetMinEnis]

theorem isSetter_MinGpu : IsSetter "MinGpu" Filters.SetMinGpu := by
  intro f v
  cases v <;> simp [Filters.SetMinGpu]

theorem isSetter_MinMemoryGiB : IsSetter "MinMemoryGiB" Filters.SetMinMemoryGiB := by
  intro f v
  cases v <;> simp [Filters.SetMinMemoryGiB]

theorem isSetter_MinNetworkPerformance :
    IsSetter "MinNetworkPerformance" Filters.SetMinNetworkPerformance := by
  intro f v
  cases v <;> simp [Filters.SetMinNetworkPerformance]

theorem isSetter_MinVcpu : IsSetter "MinVcpu" Filters.SetMinVcpu := by
  intro f v
  cases v <;> simp [Filters.SetMinVcpu]

theorem isSetter_RootDeviceTypes : IsSetter "RootDeviceTypes" Filters.SetRootDeviceTypes := by
  intro f v
  cases v <;> simp [Filters.SetRootDeviceTypes]

theorem isSetter_VirtualizationTypes :
    IsSetter "VirtualizationTypes" Filters.SetVirtualizationTypes := by
  intro f v
  cases v <;> simp [Filters.SetVirtualizationTypes]

theorem listStep_nullFields (g : Value × Bool) (nullify : Bool) (name : String)
    (set : Filters → Option (List String) → Filters) (hs : IsSetter name set) (f : Filters) :
    (listStep g nullify set f).nullFields = f.nullFields ++ cleared g nullify name := by
  unfold listStep cleared
  by_cases h1 : g.2 = true
  · by_cases h2 : (setStrings g.1).length > 0
    · have h3 : ¬ (setStrings g.1).length = 0 := by omega
      simp [h1, h2, h3, hs f]
    · have h3 : (setStrings g.1).length = 0 := by omega
      cases nullify <;> simp [h1, h3, hs f]
  · simp [h1]

theorem boolStep_nullFields (g : Value × Bool) (name : String)
    (set : Filters → Option Bool → Filters) (hs : IsSetter name set) (f : Filters) :
    (boolStep g set f).nullFields = f.nullFields := by
  unfold boolStep
  split <;> simp [hs f]

theorem intStep_nullFields (g : Value × Bool) (name : String)
    (set : Filters → Option Int → Filters) (hs : IsSetter name set) (f : Filters) :
    (intStep g set f).nullFields = f.nullFields := by
  unfold intStep
  split <;> simp [hs f]

theorem floatStep_nullFields (g : Value × Bool) (name : String)
    (set : Filters → Option Rat → Filters) (hs : IsSetter name set) (f : Filters) :
    (floatStep g set f).nullFields = f.nullFields := by
  unfold floatStep
  split <;> simp [hs f]

theorem filtersOf_nullFields (names : FilterNames) (m : List (String × Value))
    (nullify : Bool) :
    (filtersOf names m nullify).nullFields =
      cleared (mapGet m names.Architectures) nullify "Architectures" ++
      cleared (mapGet m names.Categories) nullify "Categories" ++
      cleared (mapGet m names.DiskTypes) nullify "DiskTypes" ++
      cleared (mapGet m names.ExcludeFamilies) nullify "ExcludeFamilies" ++
      cleared (mapGet m names.Hypervisor) nullify "Hypervisor" ++
      cleared (mapGet m names.IncludeFamilies) nullify "IncludeFamilies" ++
      cleared (mapGet m names.RootDeviceTypes) nullify "RootDeviceTypes" ++
      cleared (mapGet m names.VirtualizationTypes) nullify "VirtualizationTypes" := by
  unfold filtersOf
  simp only [
    listStep_nullFields _ _ _ _ isSetter_Architectures,
    listStep_nullFields _ _ _ _ isSetter_Categories,
    listStep_nullFields _ _ _ _ isSetter_DiskTypes,
    listStep_nullFields _ _ _ _ isSetter_ExcludeFamilies,
    listStep_nullFields _ _ _ _ isSetter_Hypervisor,
    boolStep_nullFields _ _ _ isSetter_ExcludeMetal,
    listStep_nullFields _ _ _ _ isSetter_IncludeFamilies,
    boolStep_nullFields _ _ _ isSetter_IsEnaSupported,
    intStep_nullFields _ _ _ isSetter_MaxGpu, floatStep_nullFields _ _ _ isSetter_MaxMemoryGiB,
    intStep_nullFields _ _ _ isSetter_MaxNetworkPerformance,
    intStep_nullFields _ _ _ isSetter_MaxVcpu, intStep_nullFields _ _ _ isSetter_MinEnis,
    intStep_nullFields _ _ _ isSetter_MinGpu, floatStep_nullFields _ _ _ isSetter_MinMemoryGiB,
    intStep_nullFields _ _ _ isSetter_MinNetworkPerformance,
    intStep_nullFields _ _ _ isSetter_MinVcpu,
    listStep_nullFields _ _ _ _ isSetter_RootDeviceTypes,
    listStep_nullFields _ _ _ _ isSetter_VirtualizationTypes,
    List.nil_append]

theorem listStep_proj {β : Type} (proj : Filters → β) (g : Value × Bool) (nullify : Bool)
    (set : Filters → Option (List String) → Filters)
    (hp : ∀ f v, proj (set f v) = proj f) (f : Filters) :
    proj (listStep g nullify set f) = proj f := by
  unfold listStep
  split_ifs <;> simp [hp]

theorem boolStep_proj {β : Type} (proj : Filters → β) (g : Value × Bool)
    (set : Filters → Option Bool → Filters)
    (hp : ∀ f v, proj (set f v) = proj f) (f : Filters) :
    proj (boolStep g set f) = proj f := by
  unfold boolStep
  split_ifs <;> simp [hp]

theorem intStep_proj {β : Type} (proj : Filters → β) (g : Value × Bool)
    (set : Filters → Option Int → Filters)
    (hp : ∀ f v, proj (set f v) = proj f) (f : Filters) :
    proj (intStep g set f) = proj f := by
  unfold intStep
  split_ifs <;> simp [hp]

theorem floatStep_proj {β : Type} (proj : Filters → β) (g : Value × Bool)
    (set : Filters → Option Rat → Filters)
    (hp : ∀ f v, proj (set f v) = proj f) (f : Filters) :
    proj (floatStep g set f) = proj f := by
  unfold floatStep
  split_ifs <;> simp [hp]

theorem listStep_Architectures (g : Value × Bool) (nullify : Bool) (f : Filters) :
    (listStep g nullify Filters.SetArchitectures f).Architectures =
      if g.2 = true then
        if (setStrings g.1).length > 0 then some (setStrings g.1)
        else if nullify = true then none
        else f.Architectures
      else f.Architectures := by
  unfold listStep
  split_ifs <;> rfl

theorem filtersOf_Architectures (names : FilterNames) (m : List (String × Value))
    (nullify : Bool) :
    (filtersOf names m nullify).Architectures =
      if (mapGet m names.Architectures).2 = true ∧
          (setStrings (mapGet m names.Architectures).1).length > 0 then
        some (setStrings (mapGet m names.Architectures).1)
      else none := by
  simp only [filtersOf, listStep_Architectures,
    listStep_proj Filters.Architectures _ _ Filters.SetCategories (fun _ _ => rfl),
    listStep_proj Filters.Architectures _ _ Filters.SetDiskTypes (fun _ _ => rfl),
    listStep_proj Filters.Architectures _ _ Filters.SetExcludeFamilies (fun _ _ => rfl),
    listStep_proj Filters.Architectures _ _ Filters.SetHypervisor (fun _ _ => rfl),
    boolStep_proj Filters.Architectures _ Filters.SetExcludeMetal (fun _ _ => rfl),
    listStep_proj Filters.Architectures _ _ Filters.SetIncludeFamilies (fun _ _ => rfl),
    boolStep_proj Filters.Architectures _ Filters.SetIsEnaSupported (fun _ _ => rfl),
    intStep_proj Filters.Architectures _ Filters.SetMaxGpu (fun _ _ => rfl),
    floatStep_proj Filters.Architectures _ Filters.SetMaxMemoryGiB (fun _ _ => rfl),
    intStep_proj Filters.Architectures _ Filters.SetMaxNetworkPerformance (fun _ _ => rfl),
    intStep_proj Filters.Architectures _ Filters.SetMaxVcpu (fun _ _ => rfl),
    intStep_proj Filters.Architectures _ Filters.SetMinEnis (fun _ _ => rfl),
    intStep_proj Filters.Architectures _ Filters.SetMinGpu (fun _ _ => rfl),
    floatStep_proj Filters.Architectures _ Filters.SetMinMemoryGiB (fun _ _ => rfl),
    intStep_proj Filters.Architectures _ Filters.SetMinNetworkPerformance (fun _ _ => rfl),
    intStep_proj Filters.Architectures _ Filters.SetMinVcpu (fun _ _ => rfl),
    listStep_proj Filters.Architectures _ _ Filters.SetRootDeviceTypes (fun _ _ => rfl),
    listStep_proj Filters.Architectures _ _ Filters.SetVirtualizationTypes (fun _ _ => rfl)]
  by_cases h1 : (mapGet m names.Architectures).2 = true <;>
    by_cases h2 : (setStrings (mapGet m names.Architectures).1).length > 0 <;> simp [h1, h2]

theorem listStep_Categories (g : Value × Bool) (nullify : Bool) (f : Filters) :
    (listStep g nullify Filters.SetCategories f).Categories =
      if g.2 = true then
        if (setStrings g.1).length > 0 then some (setStrings g.1)
        else if nullify = true then none
        else f.Categories
      else f.Categories := by
  unfold listStep
  split_ifs <;> rfl

theorem filtersOf_Categories (names : FilterNames) (m : List (String × Value))
    (nullify : Bool) :
    (filtersOf names m nullify).Categories =
      if (mapGet m names.Categories).2 = true ∧
          (setStrings (mapGet m names.Categories).1).length > 0 then
        some (setStrings (mapGet m names.Categories).1)
      else none := by
  simp only [filtersOf, listStep_Categories,
    listStep_proj Filters.Categories _ _ Filters.SetArchitectures (fun _ _ => rfl),
    listStep_proj Filters.Categories _ _ Filters.SetDiskTypes (fun _ _ => rfl),
    listStep_proj Filters.Categories _ _ Filters.SetExcludeFamilies (fun _ _ => rfl),
    listStep_proj Filters.Categories _ _ Filters.SetHypervisor (fun _ _ => rfl),
    boolStep_proj Filters.Categories _ Filters.SetExcludeMetal (fun _ _ => rfl),
    listStep_proj Filters.Categories _ _ Filters.SetIncludeFamilies (fun _ _ => rfl),
    boolStep_proj Filters.Categories _ Filters.SetIsEnaSupported (fun _ _ => rfl),
    intStep_proj Filters.Categories _ Filters.SetMaxGpu (fun _ _ => rfl),
    floatStep_proj Filters.Categories _ Filters.SetMaxMemoryGiB (fun _ _ => rfl),
    intStep_proj Filters.Categories _ Filters.SetMaxNetworkPerformance (fun _ _ => rfl),
    intStep_proj Filters.Categories _ Filters.SetMaxVcpu (fun _ _ => rfl),
    intStep_proj Filters.Categories _ Filters.SetMinEnis (fun _ _ => rfl),
    intStep_proj Filters.Categories _ Filters.SetMinGpu (fun _ _ => rfl),
    floatStep_proj Filters.Categories _ Filters.SetMinMemoryGiB (fun _ _ => rfl),
    intStep_proj Filters.Categories _ Filters.SetMinNetworkPerformance (fun _ _ => rfl),
    intStep_proj Filters.Categories _ Filters.SetMinVcpu (fun _ _ => rfl),
    listStep_proj Filters.Categories _ _ Filters.SetRootDeviceTypes (fun _ _ => rfl),
    listStep_proj Filters.Categories _ _ Filters.SetVirtualizationTypes (fun _ _ => rfl)]
  by_cases h1 : (mapGet m names.Categories).2 = true <;>
    by_cases h2 : (setStrings (mapGet m names.Categories).1).length > 0 <;> simp [h1, h2]

theorem listStep_DiskTypes (g : Value × Bool) (nullify : Bool) (f : Filters) :
    (listStep g nullify Filters.SetDiskTypes f).DiskTypes =
      if g.2 = true then
        if (setStrings g.1).length > 0 then some (setStrings g.1)
        else if nullify = true then none
        else f.DiskTypes
      else f.DiskTypes := by
  unfold listStep
  split_ifs <;> rfl

theorem filtersOf_DiskTypes (names : FilterNames) (m : List (String × Value))
    (nullify : Bool) :
    (filtersOf names m nullify).DiskTypes =
      if (mapGet m names.DiskTypes).2 = true ∧
          (setStrings (mapGet m names.DiskTypes).1).length > 0 then
        some (setStrings (mapGet m names.DiskTypes).1)
      else none := by
  simp only [filtersOf, listStep_DiskTypes,
    listStep_proj Filters.DiskTypes _ _ Filters.SetArchitectures (fun _ _ => rfl),
    listStep_proj Filters.DiskTypes _ _ Filters.SetCategories (fun _ _ => rfl),
    listStep_proj Filters.DiskTypes _ _ Filters.SetExcludeFamilies (fun _ _ => rfl),
    listStep_proj Filters.DiskTypes _ _ Filters.SetHypervisor (fun _ _ => rfl),
    boolStep_proj Filters.DiskTypes _ Filters.SetExcludeMetal (fun _ _ => rfl),
    listStep_proj Filters.DiskTypes _ _ Filters.SetIncludeFamilies (fun _ _ => rfl),
    boolStep_proj Filters.DiskTypes _ Filters.SetIsEnaSupported (fun _ _ => rfl),
    intStep_proj Filters.DiskTypes _ Filters.SetMaxGpu (fun _ _ => rfl),
    floatStep_proj Filters.DiskTypes _ Filters.SetMaxMemoryGiB (fun _ _ => rfl),
    intStep_proj Filters.DiskTypes _ Filters.SetMaxNetworkPerformance (fun _ _ => rfl),
    intStep_proj Filters.DiskTypes _ Filters.SetMaxVcpu (fun _ _ => rfl),
    intStep_proj Filters.DiskTypes _ Filters.SetMinEnis (fun _ _ => rfl),
    intStep_proj Filters.DiskTypes _ Filters.SetMinGpu (fun _ _ => rfl),
    floatStep_proj Filters.DiskTypes _ Filters.SetMinMemoryGiB (fun _ _ => rfl),
    intStep_proj Filters.DiskTypes _ Filters.SetMinNetworkPerformance (fun _ _ => rfl),
    intStep_proj Filters.DiskTypes _ Filters.SetMinVcpu (fun _ _ => rfl),
    listStep_proj Filters.DiskTypes _ _ Filters.SetRootDeviceTypes (fun _ _ => rfl),
    listStep_proj Filters.DiskTypes _ _ Filters.SetVirtualizationTypes (fun _ _ => rfl)]
  by_cases h1 : (mapGet m names.DiskTypes).2 = true <;>
    by_cases h2 : (setStrings (mapGet m names.DiskTypes).1).length > 0 <;> simp [h1, h2]

theorem listStep_ExcludeFamilies (g : Value × Bool) (nullify : Bool) (f : Filters) :
    (listStep g nullify Filters.SetExcludeFamilies f).ExcludeFamilies =
      if g.2 = true then
        if (setStrings g.1).length > 0 then some (setStrings g.1)
        else if nullify = true then none
        else f.ExcludeFamilies
      else f.ExcludeFamilies := by
  unfold listStep
  split_ifs <;> rfl

theorem filtersOf_ExcludeFamilies (names : FilterNames) (m : List (String × Value))
    (nullify : Bool) :
    (filtersOf names m nullify).ExcludeFamilies =
      if (mapGet m names.ExcludeFamilies).2 = true ∧
          (setStrings (mapGet m names.ExcludeFamilies).1).length > 0 then
        some (setStrings (mapGet m names.ExcludeFamilies).1)
      else none := by
  simp only [filtersOf, listStep_ExcludeFamilies,
    listStep_proj Filters.ExcludeFamilies _ _ Filters.SetArchitectures (fun _ _ => rfl),
    listStep_proj Filters.ExcludeFamilies _ _ Filters.SetCategories (fun _ _ => rfl),
    listStep_proj Filters.ExcludeFamilies _ _ Filters.SetDiskTypes (fun _ _ => rfl),
    listStep_proj Filters.ExcludeFamilies _ _ Filters.SetHypervisor (fun _ _ => rfl),
    boolStep_proj Filters.ExcludeFamilies _ Filters.SetExcludeMetal (fun _ _ => rfl),
    listStep_proj Filters.ExcludeFamilies _ _ Filters.SetIncludeFamilies (fun _ _ => rfl),
    boolStep_proj Filters.ExcludeFamilies _ Filters.SetIsEnaSupported (fun _ _ => rfl),
    intStep_proj Filters.ExcludeFamilies _ Filters.SetMaxGpu (fun _ _ => rfl),
    floatStep_proj Filters.ExcludeFamilies _ Filters.SetMaxMemoryGiB (fun _ _ => rfl),
    intStep_proj Filters.ExcludeFamilies _ Filters.SetMaxNetworkPerformance (fun _ _ => rfl),
    intStep_proj Filters.ExcludeFamilies _ Filters.SetMaxVcpu (fun _ _ => rfl),
    intStep_proj Filters.ExcludeFamilies _ Filters.SetMinEnis (fun _ _ => rfl),
    intStep_proj Filters.ExcludeFamilies _ Filters.SetMinGpu (fun _ _ => rfl),
    floatStep_proj Filters.ExcludeFamilies _ Filters.SetMinMemoryGiB (fun _ _ => rfl),
    intStep_proj Filters.ExcludeFamilies _ Filters.SetMinNetworkPerformance (fun _ _ => rfl),
    intStep_proj Filters.ExcludeFamilies _ Filters.SetMinVcpu (fun _ _ => rfl),
    listStep_proj Filters.ExcludeFamilies _ _ Filters.SetRootDeviceTypes (fun _ _ => rfl),
    listStep_proj Filters.ExcludeFamilies _ _ Filters.SetVirtualizationTypes (fun _ _ => rfl)]
  by_cases h1 : (mapGet m names.ExcludeFamilies).2 = true <;>
    by_cases h2 : (setStrings (mapGet m names.ExcludeFamilies).1).length > 0 <;> simp [h1, h2]

theorem listStep_Hypervisor (g : Value × Bool) (nullify : Bool) (f : Filters) :
    (listStep g nullify Filters.SetHypervisor f).Hypervisor =
      if g.2 = true then
        if (setStrings g.1).length > 0 then some (setStrings g.1)
        else if nullify = true then none
        else f.Hypervisor
      else f.Hypervisor := by
  unfold listStep
  split_ifs <;> rfl

theorem filtersOf_Hypervisor (names : FilterNames) (m : List (String × Value))
    (nullify : Bool) :
    (filtersOf names m nullify).Hypervisor =
      if (mapGet m names.Hypervisor).2 = true ∧
          (setStrings (mapGet m names.Hypervisor).1).length > 0 then
        some (setStrings (mapGet m names.Hypervisor).1)
      else none := by
  simp only [filtersOf, listStep_Hypervisor,
    listStep_proj Filters.Hypervisor _ _ Filters.SetArchitectures (fun _ _ => rfl),
    listStep_proj Filters.Hypervisor _ _ Filters.SetCategories (fun _ _ => rfl),
    listStep_proj Filters.Hypervisor _ _ Filters.SetDiskTypes (fun _ _ => rfl),
    listStep_proj Filters.Hypervisor _ _ Filters.SetExcludeFamilies (fun _ _ => rfl),
    boolStep_proj Filters.Hypervisor _ Filters.SetExcludeMetal (fun _ _ => rfl),
    listStep_proj Filters.Hypervisor _ _ Filters.SetIncludeFamilies (fun _ _ => rfl),
    boolStep_proj Filters.Hypervisor _ Filters.SetIsEnaSupported (fun _ _ => rfl),
    intStep_proj Filters.Hypervisor _ Filters.SetMaxGpu (fun _ _ => rfl),
    floatStep_proj Filters.Hypervisor _ Filters.SetMaxMemoryGiB (fun _ _ => rfl),
    intStep_proj Filters.Hypervisor _ Filters.SetMaxNetworkPerformance (fun _ _ => rfl),
    intStep_proj Filters.Hypervisor _ Filters.SetMaxVcpu (fun _ _ => rfl),
    intStep_proj Filters.Hypervisor _ Filters.SetMinEnis (fun _ _ => rfl),
    intStep_proj Filters.Hypervisor _ Filters.SetMinGpu (fun _ _ => rfl),
    floatStep_proj Filters.Hypervisor _ Filters.SetMinMemoryGiB (fun _ _ => rfl),
    intStep_proj Filters.Hypervisor _ Filters.SetMinNetworkPerformance (fun _ _ => rfl),
    intStep_proj Filters.Hypervisor _ Filters.SetMinVcpu (fun _ _ => rfl),
    listStep_proj Filters.Hypervisor _ _ Filters.SetRootDeviceTypes (fun _ _ => rfl),
    listStep_proj Filters.Hypervisor _ _ Filters.SetVirtualizationTypes (fun _ _ => rfl)]
  by_cases h1 : (mapGet m names.Hypervisor).2 = true <;>
    by_cases h2 : (setStrings (mapGet m names.Hypervisor).1).length > 0 <;> simp [h1, h2]

theorem boolStep_ExcludeMetal (g : Value × Bool) (f : Filters) :
    (boolStep g Filters.SetExcludeMetal f).ExcludeMetal =
      if g.1.asBool.2 = true then some g.1.asBool.1 else f.ExcludeMetal := by
  unfold boolStep
  split <;> rfl

theorem filtersOf_ExcludeMetal (names : FilterNames) (m : List (String × Value))
    (nullify : Bool) :
    (filtersOf names m nullify).ExcludeMetal = configuredBool m names.ExcludeMetal := by
  simp only [filtersOf, boolStep_ExcludeMetal,
    listStep_proj Filters.ExcludeMetal _ _ Filters.SetArchitectures (fun _ _ => rfl),
    listStep_proj Filters.ExcludeMetal _ _ Filters.SetCategories (fun _ _ => rfl),
    listStep_proj Filters.ExcludeMetal _ _ Filters.SetDiskTypes (fun _ _ => rfl),
    listStep_proj Filters.ExcludeMetal _ _ Filters.SetExcludeFamilies (fun _ _ => rfl),
    listStep_proj Filters.ExcludeMetal _ _ Filters.SetHypervisor (fun _ _ => rfl),
    listStep_proj Filters.ExcludeMetal _ _ Filters.SetIncludeFamilies (fun _ _ => rfl),
    boolStep_proj Filters.ExcludeMetal _ Filters.SetIsEnaSupported (fun _ _ => rfl),
    intStep_proj Filters.ExcludeMetal _ Filters.SetMaxGpu (fun _ _ => rfl),
    floatStep_proj Filters.ExcludeMetal _ Filters.SetMaxMemoryGiB (fun _ _ => rfl),
    intStep_proj Filters.ExcludeMetal _ Filters.SetMaxNetworkPerformance (fun _ _ => rfl),
    intStep_proj Filters.ExcludeMetal _ Filters.SetMaxVcpu (fun _ _ => rfl),
    intStep_proj Filters.ExcludeMetal _ Filters.SetMinEnis (fun _ _ => rfl),
    intStep_proj Filters.ExcludeMetal _ Filters.SetMinGpu (fun _ _ => rfl),
    floatStep_proj Filters.ExcludeMetal _ Filters.SetMinMemoryGiB (fun _ _ => rfl),
    intStep_proj Filters.ExcludeMetal _ Filters.SetMinNetworkPerformance (fun _ _ => rfl),
    intStep_proj Filters.ExcludeMetal _ Filters.SetMinVcpu (fun _ _ => rfl),
    listStep_proj Filters.ExcludeMetal _ _ Filters.SetRootDeviceTypes (fun _ _ => rfl),
    listStep_proj Filters.ExcludeMetal _ _ Filters.SetVirtualizationTypes (fun _ _ => rfl)]
  rw [asBool_configured]
  cases configuredBool m names.ExcludeMetal <;> simp

theorem listStep_IncludeFamilies (g : Value × Bool) (nullify : Bool) (f : Filters) :
    (listStep g nullify Filters.SetIncludeFamilies f).IncludeFamilies =
      if g.2 = true then
        if (setStrings g.1).length > 0 then some (setStrings g.1)
        else if nullify = true then none
        else f.IncludeFamilies
      else f.IncludeFamilies := by
  unfold listStep
  split_ifs <;> rfl

theorem filtersOf_IncludeFamilies (names : FilterNames) (m : List (String × Value))
    (nullify : Bool) :
    (filtersOf names m nullify).IncludeFamilies =
      if (mapGet m names.IncludeFamilies).2 = true ∧
          (setStrings (mapGet m names.IncludeFamilies).1).length > 0 then
        some (setStrings (mapGet m names.IncludeFamilies).1)
      else none := by
  simp only [filtersOf, listStep_IncludeFamilies,
    listStep_proj Filters.IncludeFamilies _ _ Filters.SetArchitectures (fun _ _ => rfl),
    listStep_proj Filters.IncludeFamilies _ _ Filters.SetCategories (fun _ _ => rfl),
    listStep_proj Filters.IncludeFamilies _ _ Filters.SetDiskTypes (fun _ _ => rfl),
    listStep_proj Filters.IncludeFamilies _ _ Filters.SetExcludeFamilies (fun _ _ => rfl),
    listStep_proj Filters.IncludeFamilies _ _ Filters.SetHypervisor (fun _ _ => rfl),
    boolStep_proj Filters.IncludeFamilies _ Filters.SetExcludeMetal (fun _ _ => rfl),
    boolStep_proj Filters.IncludeFamilies _ Filters.SetIsEnaSupported (fun _ _ => rfl),
    intStep_proj Filters.IncludeFamilies _ Filters.SetMaxGpu (fun _ _ => rfl),
    floatStep_proj Filters.IncludeFamilies _ Filters.SetMaxMemoryGiB (fun _ _ => rfl),
    intStep_proj Filters.IncludeFamilies _ Filters.SetMaxNetworkPerformance (fun _ _ => rfl),
    intStep_proj Filters.IncludeFamilies _ Filters.SetMaxVcpu (fun _ _ => rfl),
    intStep_proj Filters.IncludeFamilies _ Filters.SetMinEnis (fun _ _ => rfl),
    intStep_proj Filters.IncludeFamilies _ Filters.SetMinGpu (fun _ _ => rfl),
    floatStep_proj Filters.IncludeFamilies _ Filters.SetMinMemoryGiB (fun _ _ => rfl),
    intStep_proj Filters.IncludeFamilies _ Filters.SetMinNetworkPerformance (fun _ _ => rfl),
    intStep_proj Filters.IncludeFamilies _ Filters.SetMinVcpu (fun _ _ => rfl),
    listStep_proj Filters.IncludeFamilies _ _ Filters.SetRootDeviceTypes (fun _ _ => rfl),
    listStep_proj Filters.IncludeFamilies _ _ Filters.SetVirtualizationTypes (fun _ _ => rfl)]
  by_cases h1 : (mapGet m names.IncludeFamilies).2 = true <;>
    by_cases h2 : (setStrings (mapGet m names.IncludeFamilies).1).length > 0 <;> simp [h1, h2]

theorem boolStep_IsEnaSupported (g : Value × Bool) (f : Filters) :
    (boolStep g Filters.SetIsEnaSupported f).IsEnaSupported =
      if g.1.asBool.2 = true then some g.1.asBool.1 else f.IsEnaSupported := by
  unfold boolStep
  split <;> rfl

theorem filtersOf_IsEnaSupported (names : FilterNames) (m : List (String × Value))
    (nullify : Bool) :
    (filtersOf names m nullify).IsEnaSupported = configuredBool m names.IsEnaSupported := by
  simp only [filtersOf, boolStep_IsEnaSupported,
    listStep_proj Filters.IsEnaSupported _ _ Filters.SetArchitectures (fun _ _ => rfl),
    listStep_proj Filters.IsEnaSupported _ _ Filters.SetCategories (fun _ _ => rfl),
    listStep_proj Filters.IsEnaSupported _ _ Filters.SetDiskTypes (fun _ _ => rfl),
    listStep_proj Filters.IsEnaSupported _ _ Filters.SetExcludeFamilies (fun _ _ => rfl),
    listStep_proj Filters.IsEnaSupported _ _ Filters.SetHypervisor (fun _ _ => rfl),
    boolStep_proj Filters.IsEnaSupported _ Filters.SetExcludeMetal (fun _ _ => rfl),
    listStep_proj Filters.IsEnaSupported _ _ Filters.SetIncludeFamilies (fun _ _ => rfl),
    intStep_proj Filters.IsEnaSupported _ Filters.SetMaxGpu (fun _ _ => rfl),
    floatStep_proj Filters.IsEnaSupported _ Filters.SetMaxMemoryGiB (fun _ _ => rfl),
    intStep_proj Filters.IsEnaSupported _ Filters.SetMaxNetworkPerformance (fun _ _ => rfl),
    intStep_proj Filters.IsEnaSupported _ Filters.SetMaxVcpu (fun _ _ => rfl),
    intStep_proj Filters.IsEnaSupported _ Filters.SetMinEnis (fun _ _ => rfl),
    intStep_proj Filters.IsEnaSupported _ Filters.SetMinGpu (fun _ _ => rfl),
    floatStep_proj Filters.IsEnaSupported _ Filters.SetMinMemoryGiB (fun _ _ => rfl),
    intStep_proj Filters.IsEnaSupported _ Filters.SetMinNetworkPerformance (fun _ _ => rfl),
    intStep_proj Filters.IsEnaSupported _ Filters.SetMinVcpu (fun _ _ => rfl),
    listStep_proj Filters.IsEnaSupported _ _ Filters.SetRootDeviceTypes (fun _ _ => rfl),
    listStep_proj Filters.IsEnaSupported _ _ Filters.SetVirtualizationTypes (fun _ _ => rfl)]
  rw [asBool_configured]
  cases configuredBool m names.IsEnaSupported <;> simp

theorem intStep_MaxGpu (g : Value × Bool) (f : Filters) :
    (intStep g Filters.SetMaxGpu f).MaxGpu =
      if (g.1.asInt.2 && decide (g.1.asInt.1 > 0)) = true then some g.1.asInt.1
      else f.MaxGpu := by
  unfold intStep
  split <;> rfl

theorem filtersOf_MaxGpu (names : FilterNames) (m : List (String × Value))
    (nullify : Bool) :
    (filtersOf names m nullify).MaxGpu =
      (configuredInt m names.MaxGpu).filter (fun v => v > 0) := by
  simp only [filtersOf, intStep_MaxGpu,
    listStep_proj Filters.MaxGpu _ _ Filters.SetArchitectures (fun _ _ => rfl),
    listStep_proj Filters.MaxGpu _ _ Filters.SetCategories (fun _ _ => rfl),
    listStep_proj Filters.MaxGpu _ _ Filters.SetDiskTypes (fun _ _ => rfl),
    listStep_proj Filters.MaxGpu _ _ Filters.SetExcludeFamilies (fun _ _ => rfl),
    listStep_proj Filters.MaxGpu _ _ Filters.SetHypervisor (fun _ _ => rfl),
    boolStep_proj Filters.MaxGpu _ Filters.SetExcludeMetal (fun _ _ => rfl),
    listStep_proj Filters.MaxGpu _ _ Filters.SetIncludeFamilies (fun _ _ => rfl),
    boolStep_proj Filters.MaxGpu _ Filters.SetIsEnaSupported (fun _ _ => rfl),
    floatStep_proj Filters.MaxGpu _ Filters.SetMaxMemoryGiB (fun _ _ => rfl),
    intStep_proj Filters.MaxGpu _ Filters.SetMaxNetworkPerformance (fun _ _ => rfl),
    intStep_proj Filters.MaxGpu _ Filters.SetMaxVcpu (fun _ _ => rfl),
    intStep_proj Filters.MaxGpu _ Filters.SetMinEnis (fun _ _ => rfl),
    intStep_proj Filters.MaxGpu _ Filters.SetMinGpu (fun _ _ => rfl),
    floatStep_proj Filters.MaxGpu _ Filters.SetMinMemoryGiB (fun _ _ => rfl),
    intStep_proj Filters.MaxGpu _ Filters.SetMinNetworkPerformance (fun _ _ => rfl),
    intStep_proj Filters.MaxGpu _ Filters.SetMinVcpu (fun _ _ => rfl),
    listStep_proj Filters.MaxGpu _ _ Filters.SetRootDeviceTypes (fun _ _ => rfl),
    listStep_proj Filters.MaxGpu _ _ Filters.SetVirtualizationTypes (fun _ _ => rfl)]
  rw [asInt_configured]
  cases configuredInt m names.MaxGpu <;> simp [Option.filter]

theorem intStep_MaxNetworkPerformance (g : Value × Bool) (f : Filters) :
    (intStep g Filters.SetMaxNetworkPerformance f).MaxNetworkPerformance =
      if (g.1.asInt.2 && decide (g.1.asInt.1 > 0)) = true then some g.1.asInt.1
      else f.MaxNetworkPerformance := by
  unfold intStep
  split <;> rfl

theorem filtersOf_MaxNetworkPerformance (names : FilterNames) (m : List (String × Value))
    (nullify : Bool) :
    (filtersOf names m nullify).MaxNetworkPerformance =
      (configuredInt m names.MaxNetworkPerformance).filter (fun v => v > 0) := by
  simp only [filtersOf, intStep_MaxNetworkPerformance,
    listStep_proj Filters.MaxNetworkPerformance _ _ Filters.SetArchitectures (fun _ _ => rfl),
    listStep_proj Filters.MaxNetworkPerformance _ _ Filters.SetCategories (fun _ _ => rfl),
    listStep_proj Filters.MaxNetworkPerformance _ _ Filters.SetDiskTypes (fun _ _ => rfl),
    listStep_proj Filters.MaxNetworkPerformance _ _ Filters.SetExcludeFamilies (fun _ _ => rfl),
    listStep_proj Filters.MaxNetworkPerformance _ _ Filters.SetHypervisor (fun _ _ => rfl),
    boolStep_proj Filters.MaxNetworkPerformance _ Filters.SetExcludeMetal (fun _ _ => rfl),
    listStep_proj Filters.MaxNetworkPerformance _ _ Filters.SetIncludeFamilies (fun _ _ => rfl),
    boolStep_proj Filters.MaxNetworkPerformance _ Filters.SetIsEnaSupported (fun _ _ => rfl),
    intStep_proj Filters.MaxNetworkPerformance _ Filters.SetMaxGpu (fun _ _ => rfl),
    floatStep_proj Filters.MaxNetworkPerformance _ Filters.SetMaxMemoryGiB (fun _ _ => rfl),
    intStep_proj Filters.MaxNetworkPerformance _ Filters.SetMaxVcpu (fun _ _ => rfl),
    intStep_proj Filters.MaxNetworkPerformance _ Filters.SetMinEnis (fun _ _ => rfl),
    intStep_proj Filters.MaxNetworkPerformance _ Filters.SetMinGpu (fun _ _ => rfl),
    floatStep_proj Filters.MaxNetworkPerformance _ Filters.SetMinMemoryGiB (fun _ _ => rfl),
    intStep_proj Filters.MaxNetworkPerformance _ Filters.SetMinNetworkPerformance (fun _ _ => rfl),
    intStep_proj Filters.MaxNetworkPerformance _ Filters.SetMinVcpu (fun _ _ => rfl),
    listStep_proj Filters.MaxNetworkPerformance _ _ Filters.SetRootDeviceTypes (fun _ _ => rfl),
    listStep_proj Filters.MaxNetworkPerformance _ _ Filters.SetVirtualizationTypes (fun _ _ => rfl)]
  rw [asInt_configured]
  cases configuredInt m names.MaxNetworkPerformance <;> simp [Option.filter]

theorem intStep_MaxVcpu (g : Value × Bool) (f : Filters) :
    (intStep g Filters.SetMaxVcpu f).MaxVcpu =
      if (g.1.asInt.2 && decide (g.1.asInt.1 > 0)) = true then some g.1.asInt.1
      else f.MaxVcpu := by
  unfold intStep
  split <;> rfl

theorem filtersOf_MaxVcpu (names : FilterNames) (m : List (String × Value))
    (nullify : Bool) :
    (filtersOf names m nullify).MaxVcpu =
      (configuredInt m names.MaxVcpu).filter (fun v => v > 0) := by
  simp only [filtersOf, intStep_MaxVcpu,
    listStep_proj Filters.MaxVcpu _ _ Filters.SetArchitectures (fun _ _ => rfl),
    listStep_proj Filters.MaxVcpu _ _ Filters.SetCategories (fun _ _ => rfl),
    listStep_proj Filters.MaxVcpu _ _ Filters.SetDiskTypes (fun _ _ => rfl),
    listStep_proj Filters.MaxVcpu _ _ Filters.SetExcludeFamilies (fun _ _ => rfl),
    listStep_proj Filters.MaxVcpu _ _ Filters.SetHypervisor (fun _ _ => rfl),
    boolStep_proj Filters.MaxVcpu _ Filters.SetExcludeMetal (fun _ _ => rfl),
    listStep_proj Filters.MaxVcpu _ _ Filters.SetIncludeFamilies (fun _ _ => rfl),
    boolStep_proj Filters.MaxVcpu _ Filters.SetIsEnaSupported (fun _ _ => rfl),
    intStep_proj Filters.MaxVcpu _ Filters.SetMaxGpu (fun _ _ => rfl),
    floatStep_proj Filters.MaxVcpu _ Filters.SetMaxMemoryGiB (fun _ _ => rfl),
    intStep_proj Filters.MaxVcpu _ Filters.SetMaxNetworkPerformance (fun _ _ => rfl),
    intStep_proj Filters.MaxVcpu _ Filters.SetMinEnis (fun _ _ => rfl),
    intStep_proj Filters.MaxVcpu _ Filters.SetMinGpu (fun _ _ => rfl),
    floatStep_proj Filters.MaxVcpu _ Filters.SetMinMemoryGiB (fun _ _ => rfl),
    intStep_proj Filters.MaxVcpu _ Filters.SetMinNetworkPerformance (fun _ _ => rfl),
    intStep_proj Filters.MaxVcpu _ Filters.SetMinVcpu (fun _ _ => rfl),
    listStep_proj Filters.MaxVcpu _ _ Filters.SetRootDeviceTypes (fun _ _ => rfl),
    listStep_proj Filters.MaxVcpu _ _ Filters.SetVirtualizationTypes (fun _ _ => rfl)]
  rw [asInt_configured]
  cases configuredInt m names.MaxVcpu <;> simp [Option.filter]

theorem intStep_MinEnis (g : Value × Bool) (f : Filters) :
    (intStep g Filters.SetMinEnis f).MinEnis =
      if (g.1.asInt.2 && decide (g.1.asInt.1 > 0)) = true then some g.1.asInt.1
      else f.MinEnis := by
  unfold intStep
  split <;> rfl

theorem filtersOf_MinEnis (names : FilterNames) (m : List (String × Value))
    (nullify : Bool) :
    (filtersOf names m nullify).MinEnis =
      (configuredInt m names.MinEnis).filter (fun v => v > 0) := by
  simp only [filtersOf, intStep_MinEnis,
    listStep_proj Filters.MinEnis _ _ Filters.SetArchitectures (fun _ _ => rfl),
    listStep_proj Filters.MinEnis _ _ Filters.SetCategories (fun _ _ => rfl),
    listStep_proj Filters.MinEnis _ _ Filters.SetDiskTypes (fun _ _ => rfl),
    listStep_proj Filters.MinEnis _ _ Filters.SetExcludeFamilies (fun _ _ => rfl),
    listStep_proj Filters.MinEnis _ _ Filters.SetHypervisor (fun _ _ => rfl),
    boolStep_proj Filters.MinEnis _ Filters.SetExcludeMetal (fun _ _ => rfl),
    listStep_proj Filters.MinEnis _ _ Filters.SetIncludeFamilies (fun _ _ => rfl),
    boolStep_proj Filters.MinEnis _ Filters.SetIsEnaSupported (fun _ _ => rfl),
    intStep_proj Filters.MinEnis _ Filters.SetMaxGpu (fun _ _ => rfl),
    floatStep_proj Filters.MinEnis _ Filters.SetMaxMemoryGiB (fun _ _ => rfl),
    intStep_proj Filters.MinEnis _ Filters.SetMaxNetworkPerformance (fun _ _ => rfl),
    intStep_proj Filters.MinEnis _ Filters.SetMaxVcpu (fun _ _ => rfl),
    intStep_proj Filters.MinEnis _ Filters.SetMinGpu (fun _ _ => rfl),
    floatStep_proj Filters.MinEnis _ Filters.SetMinMemoryGiB (fun _ _ => rfl),
    intStep_proj Filters.MinEnis _ Filters.SetMinNetworkPerformance (fun _ _ => rfl),
    intStep_proj Filters.MinEnis _ Filters.SetMinVcpu (fun _ _ => rfl),
    listStep_proj Filters.MinEnis _ _ Filters.SetRootDeviceTypes (fun _ _ => rfl),
    listStep_proj Filters.MinEnis _ _ Filters.SetVirtualizationTypes (fun _ _ => rfl)]
  rw [asInt_configured]
  cases configuredInt m names.MinEnis <;> simp [Option.filter]

theorem intStep_MinGpu (g : Value × Bool) (f : Filters) :
    (intStep g Filters.SetMinGpu f).MinGpu =
      if (g.1.asInt.2 && decide (g.1.asInt.1 > 0)) = true then some g.1.asInt.1
      else f.MinGpu := by
  unfold intStep
  split <;> rfl

theorem filtersOf_MinGpu (names : FilterNames) (m : List (String × Value))
    (nullify : Bool) :
    (filtersOf names m nullify).MinGpu =
      (configuredInt m names.MinGpu).filter (fun v => v > 0) := by
  simp only [filtersOf, intStep_MinGpu,
    listStep_proj Filters.MinGpu _ _ Filters.SetArchitectures (fun _ _ => rfl),
    listStep_proj Filters.MinGpu _ _ Filters.SetCategories (fun _ _ => rfl),
    listStep_proj Filters.MinGpu _ _ Filters.SetDiskTypes (fun _ _ => rfl),
    listStep_proj Filters.MinGpu _ _ Filters.SetExcludeFamilies (fun _ _ => rfl),
    listStep_proj Filters.MinGpu _ _ Filters.SetHypervisor (fun _ _ => rfl),
    boolStep_proj Filters.MinGpu _ Filters.SetExcludeMetal (fun _ _ => rfl),
    listStep_proj Filters.MinGpu _ _ Filters.SetIncludeFamilies (fun _ _ => rfl),
    boolStep_proj Filters.MinGpu _ Filters.SetIsEnaSupported (fun _ _ => rfl),
    intStep_proj Filters.MinGpu _ Filters.SetMaxGpu (fun _ _ => rfl),
    floatStep_proj Filters.MinGpu _ Filters.SetMaxMemoryGiB (fun _ _ => rfl),
    intStep_proj Filters.MinGpu _ Filters.SetMaxNetworkPerformance (fun _ _ => rfl),
    intStep_proj Filters.MinGpu _ Filters.SetMaxVcpu (fun _ _ => rfl),
    intStep_proj Filters.MinGpu _ Filters.SetMinEnis (fun _ _ => rfl),
    floatStep_proj Filters.MinGpu _ Filters.SetMinMemoryGiB (fun _ _ => rfl),
    intStep_proj Filters.MinGpu _ Filters.SetMinNetworkPerformance (fun _ _ => rfl),
    intStep_proj Filters.MinGpu _ Filters.SetMinVcpu (fun _ _ => rfl),
    listStep_proj Filters.MinGpu _ _ Filters.SetRootDeviceTypes (fun _ _ => rfl),
    listStep_proj Filters.MinGpu _ _ Filters.SetVirtualizationTypes (fun _ _ => rfl)]
  rw [asInt_configured]
  cases configuredInt m names.MinGpu <;> simp [Option.filter]

theorem intStep_MinNetworkPerformance (g : Value × Bool) (f : Filters) :
    (intStep g Filters.SetMinNetworkPerformance f).MinNetworkPerformance =
      if (g.1.asInt.2 && decide (g.1.asInt.1 > 0)) = true then some g.1.asInt.1
      else f.MinNetworkPerformance := by
  unfold intStep
  split <;> rfl

theorem filtersOf_MinNetworkPerformance (names : FilterNames) (m : List (String × Value))
    (nullify : Bool) :
    (filtersOf names m nullify).MinNetworkPerformance =
      (configuredInt m names.MinNetworkPerformance).filter (fun v => v > 0) := by
  simp only [filtersOf, intStep_MinNetworkPerformance,
    listStep_proj Filters.MinNetworkPerformance _ _ Filters.SetArchitectures (fun _ _ => rfl),
    listStep_proj Filters.MinNetworkPerformance _ _ Filters.SetCategories (fun _ _ => rfl),
    listStep_proj Filters.MinNetworkPerformance _ _ Filters.SetDiskTypes (fun _ _ => rfl),
    listStep_proj Filters.MinNetworkPerformance _ _ Filters.SetExcludeFamilies (fun _ _ => rfl),
    listStep_proj Filters.MinNetworkPerformance _ _ Filters.SetHypervisor (fun _ _ => rfl),
    boolStep_proj Filters.MinNetworkPerformance _ Filters.SetExcludeMetal (fun _ _ => rfl),
    listStep_proj Filters.MinNetworkPerformance _ _ Filters.SetIncludeFamilies (fun _ _ => rfl),
    boolStep_proj Filters.MinNetworkPerformance _ Filters.SetIsEnaSupported (fun _ _ => rfl),
    intStep_proj Filters.MinNetworkPerformance _ Filters.SetMaxGpu (fun _ _ => rfl),
    floatStep_proj Filters.MinNetworkPerformance _ Filters.SetMaxMemoryGiB (fun _ _ => rfl),
    intStep_proj Filters.MinNetworkPerformance _ Filters.SetMaxNetworkPerformance (fun _ _ => rfl),
    intStep_proj Filters.MinNetworkPerformance _ Filters.SetMaxVcpu (fun _ _ => rfl),
    intStep_proj Filters.MinNetworkPerformance _ Filters.SetMinEnis (fun _ _ => rfl),
    intStep_proj Filters.MinNetworkPerformance _ Filters.SetMinGpu (fun _ _ => rfl),
    floatStep_proj Filters.MinNetworkPerformance _ Filters.SetMinMemoryGiB (fun _ _ => rfl),
    intStep_proj Filters.MinNetworkPerformance _ Filters.SetMinVcpu (fun _ _ => rfl),
    listStep_proj Filters.MinNetworkPerformance _ _ Filters.SetRootDeviceTypes (fun _ _ => rfl),
    listStep_proj Filters.MinNetworkPerformance _ _ Filters.SetVirtualizationTypes (fun _ _ => rfl)]
  rw [asInt_configured]
  cases configuredInt m names.MinNetworkPerformance <;> simp [Option.filter]

theorem intStep_MinVcpu (g : Value × Bool) (f : Filters) :
    (intStep g Filters.SetMinVcpu f).MinVcpu =
      if (g.1.asInt.2 && decide (g.1.asInt.1 > 0)) = true then some g.1.asInt.1
      else f.MinVcpu := by
  unfold intStep
  split <;> rfl

theorem filtersOf_MinVcpu (names : FilterNames) (m : List (String × Value))
    (nullify : Bool) :
    (filtersOf names m nullify).MinVcpu =
      (configuredInt m names.MinVcpu).filter (fun v => v > 0) := by
  simp only [filtersOf, intStep_MinVcpu,
    listStep_proj Filters.MinVcpu _ _ Filters.SetArchitectures (fun _ _ => rfl),
    listStep_proj Filters.MinVcpu _ _ Filters.SetCategories (fun _ _ => rfl),
    listStep_proj Filters.MinVcpu _ _ Filters.SetDiskTypes (fun _ _ => rfl),
    listStep_proj Filters.MinVcpu _ _ Filters.SetExcludeFamilies (fun _ _ => rfl),
    listStep_proj Filters.MinVcpu _ _ Filters.SetHypervisor (fun _ _ => rfl),
    boolStep_proj Filters.MinVcpu _ Filters.SetExcludeMetal (fun _ _ => rfl),
    listStep_proj Filters.MinVcpu _ _ Filters.SetIncludeFamilies (fun _ _ => rfl),
    boolStep_proj Filters.MinVcpu _ Filters.SetIsEnaSupported (fun _ _ => rfl),
    intStep_proj Filters.MinVcpu _ Filters.SetMaxGpu (fun _ _ => rfl),
    floatStep_proj Filters.MinVcpu _ Filters.SetMaxMemoryGiB (fun _ _ => rfl),
    intStep_proj Filters.MinVcpu _ Filters.SetMaxNetworkPerformance (fun _ _ => rfl),
    intStep_proj Filters.MinVcpu _ Filters.SetMaxVcpu (fun _ _ => rfl),
    intStep_proj Filters.MinVcpu _ Filters.SetMinEnis (fun _ _ => rfl),
    intStep_proj Filters.MinVcpu _ Filters.SetMinGpu (fun _ _ => rfl),
    floatStep_proj Filters.MinVcpu _ Filters.SetMinMemoryGiB (fun _ _ => rfl),
    intStep_proj Filters.MinVcpu _ Filters.SetMinNetworkPerformance (fun _ _ => rfl),
    listStep_proj Filters.MinVcpu _ _ Filters.SetRootDeviceTypes (fun _ _ => rfl),
    listStep_proj Filters.MinVcpu _ _ Filters.SetVirtualizationTypes (fun _ _ => rfl)]
  rw [asInt_configured]
  cases configuredInt m names.MinVcpu <;> simp [Option.filter]

theorem listStep_RootDeviceTypes (g : Value × Bool) (nullify : Bool) (f : Filters) :
    (listStep g nullify Filters.SetRootDeviceTypes f).RootDeviceTypes =
      if g.2 = true then
        if (setStrings g.1).length > 0 then some (setStrings g.1)
        else if nullify = true then none
        else f.RootDeviceTypes
      else f.RootDeviceTypes := by
  unfold listStep
  split_ifs <;> rfl

theorem filtersOf_RootDeviceTypes (names : FilterNames) (m : List (String × Value))
    (nullify : Bool) :
    (filtersOf names m nullify).RootDeviceTypes =
      if (mapGet m names.RootDeviceTypes).2 = true ∧
          (setStrings (mapGet m names.RootDeviceTypes).1).length > 0 then
        some (setStrings (mapGet m names.RootDeviceTypes).1)
      else none := by
  simp only [filtersOf, listStep_RootDeviceTypes,
    listStep_proj Filters.RootDeviceTypes _ _ Filters.SetArchitectures (fun _ _ => rfl),
    listStep_proj Filters.RootDeviceTypes _ _ Filters.SetCategories (fun _ _ => rfl),
    listStep_proj Filters.RootDeviceTypes _ _ Filters.SetDiskTypes (fun _ _ => rfl),
    listStep_proj Filters.RootDeviceTypes _ _ Filters.SetExcludeFamilies (fun _ _ => rfl),
    listStep_proj Filters.RootDeviceTypes _ _ Filters.SetHypervisor (fun _ _ => rfl),
    boolStep_proj Filters.RootDeviceTypes _ Filters.SetExcludeMetal (fun _ _ => rfl),
    listStep_proj Filters.RootDeviceTypes _ _ Filters.SetIncludeFamilies (fun _ _ => rfl),
    boolStep_proj Filters.RootDeviceTypes _ Filters.SetIsEnaSupported (fun _ _ => rfl),
    intStep_proj Filters.RootDeviceTypes _ Filters.SetMaxGpu (fun _ _ => rfl),
    floatStep_proj Filters.RootDeviceTypes _ Filters.SetMaxMemoryGiB (fun _ _ => rfl),
    intStep_proj Filters.RootDeviceTypes _ Filters.SetMaxNetworkPerformance (fun _ _ => rfl),
    intStep_proj Filters.RootDeviceTypes _ Filters.SetMaxVcpu (fun _ _ => rfl),
    intStep_proj Filters.RootDeviceTypes _ Filters.SetMinEnis (fun _ _ => rfl),
    intStep_proj Filters.RootDeviceTypes _ Filters.SetMinGpu (fun _ _ => rfl),
    floatStep_proj Filters.RootDeviceTypes _ Filters.SetMinMemoryGiB (fun _ _ => rfl),
    intStep_proj Filters.RootDeviceTypes _ Filters.SetMinNetworkPerformance (fun _ _ => rfl),
    intStep_proj Filters.RootDeviceTypes _ Filters.SetMinVcpu (fun _ _ => rfl),
    listStep_proj Filters.RootDeviceTypes _ _ Filters.SetVirtualizationTypes (fun _ _ => rfl)]
  by_cases h1 : (mapGet m names.RootDeviceTypes).2 = true <;>
    by_cases h2 : (setStrings (mapGet m names.RootDeviceTypes).1).length > 0 <;> simp [h1, h2]

theorem listStep_VirtualizationTypes (g : Value × Bool) (nullify : Bool) (f : Filters) :
    (listStep g nullify Filters.SetVirtualizationTypes f).VirtualizationTypes =
      if g.2 = true then
        if (setStrings g.1).length > 0 then some (setStrings g.1)
        else if nullify = true then none
        else f.VirtualizationTypes
      else f.VirtualizationTypes := by
  unfold listStep
  split_ifs <;> rfl

theorem filtersOf_VirtualizationTypes (names : FilterNames) (m : List (String × Value))
    (nullify : Bool) :
    (filtersOf names m nullify).VirtualizationTypes =
      if (mapGet m names.VirtualizationTypes).2 = true ∧
          (setStrings (mapGet m names.VirtualizationTypes).1).length > 0 then
        some (setStrings (mapGet m names.VirtualizationTypes).1)
      else none := by
  simp only [filtersOf, listStep_VirtualizationTypes,
    listStep_proj Filters.VirtualizationTypes _ _ Filters.SetArchitectures (fun _ _ => rfl),
    listStep_proj Filters.VirtualizationTypes _ _ Filters.SetCategories (fun _ _ => rfl),
    listStep_proj Filters.VirtualizationTypes _ _ Filters.SetDiskTypes (fun _ _ => rfl),
    listStep_proj Filters.VirtualizationTypes _ _ Filters.SetExcludeFamilies (fun _ _ => rfl),
    listStep_proj Filters.VirtualizationTypes _ _ Filters.SetHypervisor (fun _ _ => rfl),
    boolStep_proj Filters.VirtualizationTypes _ Filters.SetExcludeMetal (fun _ _ => rfl),
    listStep_proj Filters.VirtualizationTypes _ _ Filters.SetIncludeFamilies (fun _ _ => rfl),
    boolStep_proj Filters.VirtualizationTypes _ Filters.SetIsEnaSupported (fun _ _ => rfl),
    intStep_proj Filters.VirtualizationTypes _ Filters.SetMaxGpu (fun _ _ => rfl),
    floatStep_proj Filters.VirtualizationTypes _ Filters.SetMaxMemoryGiB (fun _ _ => rfl),
    intStep_proj Filters.VirtualizationTypes _ Filters.SetMaxNetworkPerformance (fun _ _ => rfl),
    intStep_proj Filters.VirtualizationTypes _ Filters.SetMaxVcpu (fun _ _ => rfl),
    intStep_proj Filters.VirtualizationTypes _ Filters.SetMinEnis (fun _ _ => rfl),
    intStep_proj Filters.VirtualizationTypes _ Filters.SetMinGpu (fun _ _ => rfl),
    floatStep_proj Filters.VirtualizationTypes _ Filters.SetMinMemoryGiB (fun _ _ => rfl),
    intStep_proj Filters.VirtualizationTypes _ Filters.SetMinNetworkPerformance (fun _ _ => rfl),
    intStep_proj Filters.VirtualizationTypes _ Filters.SetMinVcpu (fun _ _ => rfl),
    listStep_proj Filters.VirtualizationTypes _ _ Filters.SetRootDeviceTypes (fun _ _ => rfl)]
  by_cases h1 : (mapGet m names.VirtualizationTypes).2 = true <;>
    by_cases h2 : (setStrings (mapGet m names.VirtualizationTypes).1).length > 0 <;> simp [h1, h2]

/-! ## The ingress expanders: outcomes -/

theorem asString_configured (m : List (String × Value)) (key : String) :
    (mapGet m key).1.asString =
      (match configuredString m key with
        | some s => (s, true)
        | none => ("", false)) := by
  unfold mapGet configuredString
  cases h : m.lookup key with
  | none => simp [Value.asString]
  | some v => cases v <;> simp [Value.asString]

theorem bind_eq_ok {α β : Type} {x : GoResult α} {f : α → GoResult β} {b : β}
    (h : x >>= f = GoResult.ok b) : ∃ a, x = GoResult.ok a ∧ f a = GoResult.ok b := by
  cases x with
  | ok a => exact ⟨a, rfl, h⟩
  | err e => cases h
  | panic msg => cases h

theorem expandController_map (names : IngressNames) (m : List (String × Value))
    (rest : List Value) (nullify : Bool) :
    expandController names (Value.slice (Value.map m :: rest)) nullify = GoResult.ok
      { Managed := configuredBool m names.Managed
        nullFields := clearedScalar (configuredBool m names.Managed) nullify "Managed" } := by
  unfold expandController
  simp only [toSlice, elem0, toMap, bind, GoResult.bind, pure, Value.isNil, asBool_configured]
  rcases configuredBool m names.Managed with _ | b <;> cases nullify <;> rfl

theorem expandCustomEndpoint_map (names : IngressNames) (m : List (String × Value))
    (rest : List Value) (nullify : Bool) :
    expandCustomEndpoint names (Value.slice (Value.map m :: rest)) nullify = GoResult.ok
      { Enabled := configuredBool m names.Enabled
        Address := configuredString m names.Address
        nullFields := clearedScalar (configuredBool m names.Enabled) nullify "Enabled" ++
          clearedScalar (configuredString m names.Address) nullify "Address" } := by
  unfold expandCustomEndpoint
  simp only [toSlice, elem0, toMap, bind, GoResult.bind, pure, Value.isNil, asBool_configured,
    asString_configured]
  rcases configuredBool m names.Enabled with _ | b <;>
    rcases configuredString m names.Address with _ | a <;> cases nullify <;> rfl

theorem expandPrivateLink_map (names : IngressNames) (m : List (String × Value))
    (rest : List Value) (nullify : Bool) :
    expandPrivateLink names (Value.slice (Value.map m :: rest)) nullify = GoResult.ok
      { Enabled := configuredBool m names.Enabled
        VPCEndpointService := configuredString m names.VPCEndpointService
        nullFields := clearedScalar (configuredBool m names.Enabled) nullify "Enabled" ++
          clearedScalar (configuredString m names.VPCEndpointService) nullify
            "VPCEndpointService" } := by
  unfold expandPrivateLink
  simp only [toSlice, elem0, toMap, bind, GoResult.bind, pure, Value.isNil, asBool_configured,
    asString_configured]
  rcases configuredBool m names.Enabled with _ | b <;>
    rcases configuredString m names.VPCEndpointService with _ | a <;> cases nullify <;> rfl

theorem annotationsBlock_ok {α : Type} (g : Value × Bool) (nullify : Bool)
    (set : α → Option Annotations → α) (o o' : α) :
    (match g with
      | (v, true) => do
        let annotations ← expandAnnotations v
        if annotations.length > 0 then
          pure (set o (some annotations))
        else if nullify then
          pure (set o none)
        else
          pure o
      | (_, false) => pure o) = GoResult.ok o' →
    (g.2 = false ∧ o' = o) ∨
      (g.2 = true ∧ ∃ a, expandAnnotations g.1 = GoResult.ok a ∧
        o' = if a.length > 0 then set o (some a)
          else if nullify = true then set o none else o) := by
  obtain ⟨v, b⟩ := g
  cases b with
  | false =>
    intro h
    left
    simpa [pure, eq_comm] using h
  | true =>
    intro h
    right
    refine ⟨rfl, ?_⟩
    obtain ⟨a, ha, h⟩ := bind_eq_ok h
    refine ⟨a, ha, ?_⟩
    by_cases hlen : a.length > 0
    · simpa [hlen, pure, eq_comm] using h
    · cases nullify <;> simpa [hlen, pure, eq_comm] using h

theorem nestedBlock_ok {α : Type} (g : Value × Bool) (nullify : Bool)
    (expand : Value → GoResult α) (set : IngressConfig → Option α → IngressConfig)
    (i i' : IngressConfig) :
    (match g with
      | (v, true) => do
        let c ← expand v
        pure (set i (some c))
      | (_, false) => pure (if nullify then set i none else i)) = GoResult.ok i' →
    (g.2 = false ∧ i' = if nullify = true then set i none else i) ∨
      (g.2 = true ∧ ∃ c, expand g.1 = GoResult.ok c ∧ i' = set i (some c)) := by
  obtain ⟨v, b⟩ := g
  cases b with
  | false =>
    intro h
    left
    simpa [pure, eq_comm] using h
  | true =>
    intro h
    right
    refine ⟨rfl, ?_⟩
    obtain ⟨c, hc, h⟩ := bind_eq_ok h
    exact ⟨c, hc, by simpa [pure, eq_comm] using h⟩

theorem expandIngress_chain (names : IngressNames) (m : List (String × Value))
    (rest : List Value) (nullify : Bool) (r : IngressConfig)
    (h : expandIngress names (Value.slice (Value.map m :: rest)) nullify = GoResult.ok r) :
    ∃ i1 i2 i3 i4 : IngressConfig,
      ((mapGet m names.ServiceAnnotations).2 = false ∧ i1 = {} ∨
        (mapGet m names.ServiceAnnotations).2 = true ∧
          ∃ a, expandAnnotations (mapGet m names.ServiceAnnotations).1 = GoResult.ok a ∧
            i1 = if a.length > 0 then IngressConfig.SetServiceAnnotations {} (some a)
              else if nullify = true then IngressConfig.SetServiceAnnotations {} none
              else {}) ∧
      ((mapGet m names.Controller).2 = false ∧
          i2 = (if nullify = true then i1.SetController none else i1) ∨
        (mapGet m names.Controller).2 = true ∧
          ∃ c, expandController names (mapGet m names.Controller).1 nullify = GoResult.ok c ∧
            i2 = i1.SetController (some c)) ∧
      ((mapGet m names.LoadBalancer).2 = false ∧
          i3 = (if nullify = true then i2.SetLoadBalancer none else i2) ∨
        (mapGet m names.LoadBalancer).2 = true ∧
          ∃ c, expandLoadBalancer names (mapGet m names.LoadBalancer).1 nullify
              = GoResult.ok c ∧
            i3 = i2.SetLoadBalancer (some c)) ∧
      ((mapGet m names.CustomEndpoint).2 = false ∧
          i4 = (if nullify = true then i3.SetCustomEndpoint none else i3) ∨
        (mapGet m names.CustomEndpoint).2 = true ∧
          ∃ c, expandCustomEndpoint names (mapGet m names.CustomEndpoint).1 nullify
              = GoResult.ok c ∧
            i4 = i3.SetCustomEndpoint (some c)) ∧
      ((mapGet m names.PrivateLink).2 = false ∧
          r = (if nullify = true then i4.SetPrivateLink none else i4) ∨
        (mapGet m names.PrivateLink).2 = true ∧
          ∃ c, expandPrivateLink names (mapGet m names.PrivateLink).1 nullify
              = GoResult.ok c ∧
            r = i4.SetPrivateLink (some c)) := by
  unfold expandIngress at h
  dsimp only at h
  obtain ⟨list, hl, h⟩ := bind_eq_ok h
  cases hl
  rw [if_neg (by simp)] at h
  obtain ⟨first, hf, h⟩ := bind_eq_ok h
  cases hf
  rw [if_neg (by simp [Value.isNil])] at h
  obtain ⟨m0, hm, h⟩ := bind_eq_ok h
  cases hm
  obtain ⟨i1, h1, h⟩ := bind_eq_ok h
  obtain ⟨i2, h2, h⟩ := bind_eq_ok h
  obtain ⟨i3, h3, h⟩ := bind_eq_ok h
  obtain ⟨i4, h4, h⟩ := bind_eq_ok h
  obtain ⟨i5, h5, h⟩ := bind_eq_ok h
  cases h
  exact ⟨i1, i2, i3, i4, annotationsBlock_ok _ _ _ _ _ h1, nestedBlock_ok _ _ _ _ _ _ h2,
    nestedBlock_ok _ _ _ _ _ _ h3, nestedBlock_ok _ _ _ _ _ _ h4,
    nestedBlock_ok _ _ _ _ _ _ h5⟩

theorem expandAnnotations_nil_length (a : Annotations) :
    (GoResult.ok a = GoResult.ok ([] : Annotations)) ↔ ¬ a.length > 0 := by
  cases a <;> simp

theorem expandIngress_summary (names : IngressNames) (m : List (String × Value))
    (rest : List Value) (nullify : Bool) (r : IngressConfig)
    (h : expandIngress names (Value.slice (Value.map m :: rest)) nullify = GoResult.ok r) :
    r.nullFields =
        clearedAnnotations (mapGet m names.ServiceAnnotations) nullify "ServiceAnnotations" ++
        clearedBlock (mapGet m names.Controller) nullify "Controller" ++
        clearedBlock (mapGet m names.LoadBalancer) nullify "LoadBalancer" ++
        clearedBlock (mapGet m names.CustomEndpoint) nullify "CustomEndpoint" ++
        clearedBlock (mapGet m names.PrivateLink) nullify "PrivateLink" ∧
      ((mapGet m names.ServiceAnnotations).2 = false ∨
          expandAnnotations (mapGet m names.ServiceAnnotations).1 = GoResult.ok [] →
        r.ServiceAnnotations = none) ∧
      ((mapGet m names.Controller).2 = false → r.Controller = none) ∧
      ((mapGet m names.LoadBalancer).2 = false → r.LoadBalancer = none) ∧
      ((mapGet m names.CustomEndpoint).2 = false → r.CustomEndpoint = none) ∧
      ((mapGet m names.PrivateLink).2 = false → r.PrivateLink = none) := by
  obtain ⟨i1, i2, i3, i4, s1, s2, s3, s4, s5⟩ := expandIngress_chain names m rest nullify r h
  have e1 : i1.nullFields = clearedAnnotations (mapGet m names.ServiceAnnotations) nullify
        "ServiceAnnotations" ∧
      ((mapGet m names.ServiceAnnotations).2 = false ∨
          expandAnnotations (mapGet m names.ServiceAnnotations).1 = GoResult.ok [] →
        i1.ServiceAnnotations = none) ∧
      i1.Controller = none ∧ i1.LoadBalancer = none ∧ i1.CustomEndpoint = none ∧
      i1.PrivateLink = none := by
    rcases s1 with ⟨g, rfl⟩ | ⟨g, a, ha, rfl⟩
    · simp [clearedAnnotations, g]
    · by_cases hlen : a.length > 0
      · have hne : ¬ (GoResult.ok a = GoResult.ok ([] : Annotations)) := by
          rw [expandAnnotations_nil_length]; exact not_not.mpr hlen
        simp [clearedAnnotations, g, ha, hlen, hne, IngressConfig.SetServiceAnnotations]
      · have he : GoResult.ok a = GoResult.ok ([] : Annotations) := by
          rw [expandAnnotations_nil_length]; exact hlen
        cases nullify <;>
          simp [clearedAnnotations, g, ha, hlen, he, IngressConfig.SetServiceAnnotations]
  have e2 : i2.nullFields = i1.nullFields ++
        clearedBlock (mapGet m names.Controller) nullify "Controller" ∧
      i2.ServiceAnnotations = i1.ServiceAnnotations ∧
      ((mapGet m names.Controller).2 = false → i2.Controller = i1.Controller ∨
        i2.Controller = none) ∧
      i2.LoadBalancer = i1.LoadBalancer ∧ i2.CustomEndpoint = i1.CustomEndpoint ∧
      i2.PrivateLink = i1.PrivateLink := by
    rcases s2 with ⟨g, rfl⟩ | ⟨g, c, -, rfl⟩
    · cases nullify <;> simp [clearedBlock, g, IngressConfig.SetController]
    · simp [clearedBlock, g, IngressConfig.SetController]
  have e3 : i3.nullFields = i2.nullFields ++
        clearedBlock (mapGet m names.LoadBalancer) nullify "LoadBalancer" ∧
      i3.ServiceAnnotations = i2.ServiceAnnotations ∧
      i3.Controller = i2.Controller ∧
      ((mapGet m names.LoadBalancer).2 = false → i3.LoadBalancer = i2.LoadBalancer ∨
        i3.LoadBalancer = none) ∧
      i3.CustomEndpoint = i2.CustomEndpoint ∧ i3.PrivateLink = i2.PrivateLink := by
    rcases s3 with ⟨g, rfl⟩ | ⟨g, c, -, rfl⟩
    · cases nullify <;> simp [clearedBlock, g, IngressConfig.SetLoadBalancer]
    · simp [clearedBlock, g, IngressConfig.SetLoadBalancer]
  have e4 : i4.nullFields = i3.nullFields ++
        clearedBlock (mapGet m names.CustomEndpoint) nullify "CustomEndpoint" ∧
      i4.ServiceAnnotations = i3.ServiceAnnotations ∧
      i4.Controller = i3.Controller ∧ i4.LoadBalancer = i3.LoadBalancer ∧
      ((mapGet m names.CustomEndpoint).2 = false → i4.CustomEndpoint = i3.CustomEndpoint ∨
        i4.CustomEndpoint = none) ∧
      i4.PrivateLink = i3.PrivateLink := by
    rcases s4 with ⟨g, rfl⟩ | ⟨g, c, -, rfl⟩
    · cases nullify <;> simp [clearedBlock, g, IngressConfig.SetCustomEndpoint]
    · simp [clearedBlock, g, IngressConfig.SetCustomEndpoint]
  have e5 : r.nullFields = i4.nullFields ++
        clearedBlock (mapGet m names.PrivateLink) nullify "PrivateLink" ∧
      r.ServiceAnnotations = i4.ServiceAnnotations ∧
      r.Controller = i4.Controller ∧ r.LoadBalancer = i4.LoadBalancer ∧
      r.CustomEndpoint = i4.CustomEndpoint ∧
      ((mapGet m names.PrivateLink).2 = false → r.PrivateLink = i4.PrivateLink ∨
        r.PrivateLink = none) := by
    rcases s5 with ⟨g, rfl⟩ | ⟨g, c, -, rfl⟩
    · cases nullify <;> simp [clearedBlock, g, IngressConfig.SetPrivateLink]
    · simp [clearedBlock, g, IngressConfig.SetPrivateLink]
  obtain ⟨n1, a1, c1, l1, ce1, p1⟩ := e1
  obtain ⟨n2, a2, c2, l2, ce2, p2⟩ := e2
  obtain ⟨n3, a3, c3, l3, ce3, p3⟩ := e3
  obtain ⟨n4, a4, c4, l4, ce4, p4⟩ := e4
  obtain ⟨n5, a5, c5, l5, ce5, p5⟩ := e5
  refine ⟨?_, ?_, ?_, ?_, ?_, ?_⟩
  · rw [n5, n4, n3, n2, n1]
  · intro hh
    rw [a5, a4, a3, a2]
    exact a1 hh
  · intro hh
    rw [c5, c4, c3]
    rcases c2 hh with e | e
    · rw [e, c1]
    · exact e
  · intro hh
    rw [l5, l4]
    rcases l3 hh with e | e
    · rw [e, l2, l1]
    · exact e
  · intro hh
    rw [ce5]
    rcases ce4 hh with e | e
    · rw [e, ce3, ce2, ce1]
    · exact e
  · intro hh
    rcases p5 hh with e | e
    · rw [e, p4, p3, p2, p1]
    · exact e

theorem expandIngress_missing (names : IngressNames) (m : List (String × Value))
    (rest : List Value) (nullify : Bool)
    (ha : (mapGet m names.ServiceAnnotations).2 = false)
    (hc : (mapGet m names.Controller).2 = false)
    (hl : (mapGet m names.LoadBalancer).2 = false)
    (he : (mapGet m names.CustomEndpoint).2 = false)
    (hp : (mapGet m names.PrivateLink).2 = false) :
    expandIngress names (Value.slice (Value.map m :: rest)) nullify = GoResult.ok
      (if nullify = true then
        { nullFields := ["Controller", "LoadBalancer", "CustomEndpoint", "PrivateLink"] }
      else {}) := by
  have key : ∀ g : Value × Bool, g.2 = false → g = (g.1, false) := by
    rintro ⟨v, b⟩ h
    simp only at h
    rw [h]
  unfold expandIngress
  dsimp only
  refine bind_ok_eq (a := some (Value.map m :: rest)) rfl ?_
  rw [if_neg (by simp)]
  refine bind_ok_eq (a := Value.map m) rfl ?_
  rw [if_neg (by simp [Value.isNil])]
  refine bind_ok_eq (a := m) rfl ?_
  rw [key _ ha, key _ hc, key _ hl, key _ he, key _ hp]
  cases nullify <;> rfl

theorem expandLoadBalancer_summary (names : IngressNames) (m : List (String × Value))
    (rest : List Value) (nullify : Bool) (r : IngressConfigLoadBalancer)
    (h : expandLoadBalancer names (Value.slice (Value.map m :: rest)) nullify = GoResult.ok r) :
    r.Managed = configuredBool m names.Managed ∧
      r.TargetGroupARN = configuredString m names.TargetGroupARN ∧
      r.nullFields =
        clearedScalar (configuredBool m names.Managed) nullify "Managed" ++
        clearedScalar (configuredString m names.TargetGroupARN) nullify "TargetGroupARN" ++
        clearedAnnotations (mapGet m names.ServiceAnnotations) nullify "ServiceAnnotations" ∧
      ((mapGet m names.ServiceAnnotations).2 = false ∨
          expandAnnotations (mapGet m names.ServiceAnnotations).1 = GoResult.ok [] →
        r.ServiceAnnotations = none) := by
  unfold expandLoadBalancer at h
  dsimp only at h
  obtain ⟨list, hl, h⟩ := bind_eq_ok h
  cases hl
  rw [if_neg (by simp)] at h
  obtain ⟨first, hf, h⟩ := bind_eq_ok h
  cases hf
  rw [if_neg (by simp [Value.isNil])] at h
  obtain ⟨m0, hm, h⟩ := bind_eq_ok h
  cases hm
  obtain ⟨lb, h1, h⟩ := bind_eq_ok h
  cases h
  have s1 := annotationsBlock_ok _ _ _ _ _ h1
  rw [asBool_configured, asString_configured] at s1
  rcases s1 with ⟨g, rfl⟩ | ⟨g, a, ha, rfl⟩
  · rcases configuredBool m names.Managed with _ | b <;>
      rcases configuredString m names.TargetGroupARN with _ | t <;> cases nullify <;>
      simp [clearedScalar, clearedAnnotations, g, IngressConfigLoadBalancer.SetManaged,
        IngressConfigLoadBalancer.SetTargetGroupARN]
  · by_cases hlen : a.length > 0
    · have hne : ¬ (GoResult.ok a = GoResult.ok ([] : Annotations)) := by
        rw [expandAnnotations_nil_length]; exact not_not.mpr hlen
      rcases configuredBool m names.Managed with _ | b <;>
        rcases configuredString m names.TargetGroupARN with _ | t <;> cases nullify <;>
        simp [clearedScalar, clearedAnnotations, g, ha, hlen, hne,
          IngressConfigLoadBalancer.SetManaged, IngressConfigLoadBalancer.SetTargetGroupARN,
          IngressConfigLoadBalancer.SetServiceAnnotations]
    · have he : GoResult.ok a = GoResult.ok ([] : Annotations) := by
        rw [expandAnnotations_nil_length]; exact hlen
      rcases configuredBool m names.Managed with _ | b <;>
        rcases configuredString m names.TargetGroupARN with _ | t <;> cases nullify <;>
        simp [clearedScalar, clearedAnnotations, g, ha, hlen, he,
          IngressConfigLoadBalancer.SetManaged, IngressConfigLoadBalancer.SetTargetGroupARN,
          IngressConfigLoadBalancer.SetServiceAnnotations]

theorem expandLoadBalancer_missing (names : IngressNames) (m : List (String × Value))
    (rest : List Value) (nullify : Bool)
    (ha : (mapGet m names.ServiceAnnotations).2 = false) :
    expandLoadBalancer names (Value.slice (Value.map m :: rest)) nullify = GoResult.ok
      { Managed := configuredBool m names.Managed
        TargetGroupARN := configuredString m names.TargetGroupARN
        nullFields := clearedScalar (configuredBool m names.Managed) nullify "Managed" ++
          clearedScalar (configuredString m names.TargetGroupARN) nullify
            "TargetGroupARN" } := by
  have key : ∀ g : Value × Bool, g.2 = false → g = (g.1, false) := by
    rintro ⟨v, b⟩ h
    simp only at h
    rw [h]
  unfold expandLoadBalancer
  dsimp only
  refine bind_ok_eq (a := some (Value.map m :: rest)) rfl ?_
  rw [if_neg (by simp)]
  refine bind_ok_eq (a := Value.map m) rfl ?_
  rw [if_neg (by simp [Value.isNil])]
  refine bind_ok_eq (a := m) rfl ?_
  rw [key _ ha, asBool_configured, asString_configured]
  rcases configuredBool m names.Managed with _ | b <;>
    rcases configuredString m names.TargetGroupARN with _ | t <;> cases nullify <;> rfl

/-! ## Scalar filter fields (claims C17, C18) -/

theorem mapGet_agree (m m' : List (String × Value)) (key : String)
    (h0 : m.lookup key = some (Value.int 0)) (h0' : m'.lookup key = none)
    (hag : ∀ k, k ≠ key → m'.lookup k = m.lookup k) (k : String) :
    mapGet m k = mapGet m' k ∨
      (mapGet m k = (Value.int 0, true) ∧ mapGet m' k = (Value.nil, false)) := by
  by_cases hk : k = key
  · subst hk
    right
    simp [mapGet, h0, h0']
  · left
    simp [mapGet, hag k hk]

theorem filtersOf_zero_missing (names : FilterNames) (m m' : List (String × Value))
    (nullify : Bool) (key : String) (hwt : SetsWellTyped names m)
    (h0 : m.lookup key = some (Value.int 0)) (h0' : m'.lookup key = none)
    (hag : ∀ k, k ≠ key → m'.lookup k = m.lookup k) :
    SetsWellTyped names m' ∧ filtersOf names m' nullify = filtersOf names m nullify := by
  have hne : ∀ k ∈ [names.Architectures, names.Categories, names.DiskTypes,
      names.ExcludeFamilies, names.Hypervisor, names.IncludeFamilies, names.RootDeviceTypes,
      names.VirtualizationTypes], k ≠ key := by
    intro k hk hkk
    subst hkk
    obtain ⟨xs, hxs⟩ := hwt k hk _ h0
    cases hxs
  have hlist : ∀ k ∈ [names.Architectures, names.Categories, names.DiskTypes,
      names.ExcludeFamilies, names.Hypervisor, names.IncludeFamilies, names.RootDeviceTypes,
      names.VirtualizationTypes], mapGet m' k = mapGet m k := by
    intro k hk
    simp [mapGet, hag k (hne k hk)]
  have hbool : ∀ k set f, boolStep (mapGet m' k) set f = boolStep (mapGet m k) set f := by
    intro k set f
    rcases mapGet_agree m m' key h0 h0' hag k with h | ⟨h1, h2⟩
    · rw [h]
    · rw [h1, h2]; rfl
  have hint : ∀ k set f, intStep (mapGet m' k) set f = intStep (mapGet m k) set f := by
    intro k set f
    rcases mapGet_agree m m' key h0 h0' hag k with h | ⟨h1, h2⟩
    · rw [h]
    · rw [h1, h2]; rfl
  have hfloat : ∀ k set f, floatStep (mapGet m' k) set f = floatStep (mapGet m k) set f := by
    intro k set f
    rcases mapGet_agree m m' key h0 h0' hag k with h | ⟨h1, h2⟩
    · rw [h]
    · rw [h1, h2]; rfl
  refine ⟨?_, ?_⟩
  · intro k hk v hv
    rw [hag k (hne k hk)] at hv
    exact hwt k hk v hv
  · simp only [filtersOf, hbool, hint, hfloat, hlist names.Architectures (by simp),
      hlist names.Categories (by simp), hlist names.DiskTypes (by simp),
      hlist names.ExcludeFamilies (by simp), hlist names.Hypervisor (by simp),
      hlist names.IncludeFamilies (by simp), hlist names.RootDeviceTypes (by simp),
      hlist names.VirtualizationTypes (by simp)]

theorem cleared_subset (g : Value × Bool) (nullify : Bool) (name x : String)
    (h : x ∈ cleared g nullify name) : x = name := by
  unfold cleared at h
  split at h <;> simp at h
  exact h

theorem filtersOf_scalar_not_cleared (names : FilterNames) (m : List (String × Value))
    (nullify : Bool) (x : String)
    (hx : x ∈ ["ExcludeMetal", "IsEnaSupported", "MaxGpu", "MinGpu", "MaxMemoryGiB",
      "MinMemoryGiB", "MaxVcpu", "MinVcpu", "MaxNetworkPerformance", "MinNetworkPerformance",
      "MinEnis"]) :
    x ∉ (filtersOf names m nullify).nullFields := by
  rw [filtersOf_nullFields]
  intro hmem
  simp only [List.mem_append] at hmem
  have hx' : x ∈ ["Architectures", "Categories", "DiskTypes", "ExcludeFamilies", "Hypervisor",
      "IncludeFamilies", "RootDeviceTypes", "VirtualizationTypes"] := by
    rcases hmem with ((((((h | h) | h) | h) | h) | h) | h) | h <;>
      (rw [cleared_subset _ _ _ _ h]; simp)
  revert hx hx'
  simp only [List.mem_cons, List.mem_singleton, List.mem_nil_iff, or_false]
  rintro (h | h | h | h | h | h | h | h | h | h | h) <;> subst h <;> decide

/-- C17. For a map whose set-valued entries are sets, `expandFilters` returns filters in
which each of the seven integer fields holds the configured integer when it is greater than
zero and is unset otherwise, none of them recorded as cleared; and a map in which some key
holds the integer zero gives the very result of the map in which that key is missing and
every other key holds the same entry. -/
theorem expandFilters_int_fields (names : FilterNames) (m : List (String × Value))
    (rest : List Value) (nullify : Bool) (hwt : SetsWellTyped names m) :
    ∃ r, expandFilters names (Value.slice (Value.map m :: rest)) nullify = GoResult.ok r ∧
      (r.MaxGpu = (configuredInt m names.MaxGpu).filter (fun v => v > 0) ∧
        r.MinGpu = (configuredInt m names.MinGpu).filter (fun v => v > 0) ∧
        r.MaxVcpu = (configuredInt m names.MaxVcpu).filter (fun v => v > 0) ∧
        r.MinVcpu = (configuredInt m names.MinVcpu).filter (fun v => v > 0) ∧
        r.MinEnis = (configuredInt m names.MinEnis).filter (fun v => v > 0) ∧
        r.MaxNetworkPerformance
          = (configuredInt m names.MaxNetworkPerformance).filter (fun v => v > 0) ∧
        r.MinNetworkPerformance
          = (configuredInt m names.MinNetworkPerformance).filter (fun v => v > 0)) ∧
      (∀ x ∈ ["MaxGpu", "MinGpu", "MaxVcpu", "MinVcpu", "MinEnis", "MaxNetworkPerformance",
        "MinNetworkPerformance"], x ∉ r.nullFields) ∧
      (∀ key m' rest', m.lookup key = some (Value.int 0) → m'.lookup key = none →
        (∀ k, k ≠ key → m'.lookup k = m.lookup k) →
        expandFilters names (Value.slice (Value.map m' :: rest')) nullify = GoResult.ok r) := by
  refine ⟨filtersOf names m nullify, expandFilters_eq names m rest nullify hwt,
    ⟨filtersOf_MaxGpu .., filtersOf_MinGpu .., filtersOf_MaxVcpu .., filtersOf_MinVcpu ..,
      filtersOf_MinEnis .., filtersOf_MaxNetworkPerformance ..,
      filtersOf_MinNetworkPerformance ..⟩, ?_, ?_⟩
  · intro x hx
    refine filtersOf_scalar_not_cleared names m nullify x ?_
    revert hx
    simp only [List.mem_cons, List.mem_singleton, List.mem_nil_iff, or_false]
    rintro (h | h | h | h | h | h | h) <;> simp [h]
  · intro key m' rest' h0 h0' hag
    obtain ⟨hwt', heq⟩ := filtersOf_zero_missing names m m' nullify key hwt h0 h0' hag
    rw [expandFilters_eq names m' rest' nullify hwt', heq]

theorem expandFilters_int_fields_witness :
    ∃ r, expandFilters sampleFilterNames
          (Value.slice [Value.map [("max_gpu", Value.int 0), ("min_gpu", Value.int 2)]]) true
        = GoResult.ok r ∧
      r.MaxGpu = none ∧ r.MinGpu = some 2 ∧
      expandFilters sampleFilterNames (Value.slice [Value.map [("min_gpu", Value.int 2)]]) true
        = GoResult.ok r := by
  have hwt : SetsWellTyped sampleFilterNames
      [("max_gpu", Value.int 0), ("min_gpu", Value.int 2)] := by
    intro key hk v hv
    simp only [sampleFilterNames, List.mem_cons, List.mem_singleton, List.mem_nil_iff,
      or_false] at hk
    rcases hk with h | h | h | h | h | h | h | h <;> subst h <;> simp [List.lookup] at hv
  obtain ⟨r, h1, hf, -, hz⟩ := expandFilters_int_fields sampleFilterNames
    [("max_gpu", Value.int 0), ("min_gpu", Value.int 2)] [] true hwt
  refine ⟨r, h1, ?_, ?_, hz "max_gpu" [("min_gpu", Value.int 2)] [] rfl rfl ?_⟩
  · rw [hf.1]; rfl
  · rw [hf.2.1]; rfl
  · intro k hk
    have hb : (k == "max_gpu") = false := by simpa using hk
    simp [List.lookup, hb]

/-! ## Clearing of absent fields and boolean fields (claims C14, C18) -/

theorem mem_clearedScalar {α : Type} (c : Option α) (nullify : Bool) (name x : String) :
    x ∈ clearedScalar c nullify name ↔ (x = name ∧ c = none ∧ nullify = true) := by
  unfold clearedScalar
  cases c <;> cases nullify <;> simp

theorem mem_clearedAnnotations (g : Value × Bool) (nullify : Bool) (name x : String)
    (h : x ∈ clearedAnnotations g nullify name) : x = name := by
  unfold clearedAnnotations at h
  split at h <;> simp at h
  exact h

/-- C14, as claimed, fails: with `nullify = true`, a filters map from which every key is
missing, and a nil filters list, expand to filters on which no setter was invoked; and an
ingress map from which every key is missing expands to an ingress configuration whose
service annotations are not cleared. -/
theorem missing_key_not_cleared :
    expandFilters sampleFilterNames (Value.slice [Value.map []]) true = GoResult.ok {} ∧
      expandFilters sampleFilterNames Value.nilSlice true = GoResult.ok {} ∧
      expandIngress sampleIngressNames (Value.slice [Value.map []]) true = GoResult.ok
        { nullFields := ["Controller", "LoadBalancer", "CustomEndpoint", "PrivateLink"] } :=
  ⟨rfl, rfl, rfl⟩

/-- C14, amended. On a list whose first element is the map `m`: `expandFilters` clears a
set-valued field exactly when its key is present, the set expands to no string and
`nullify` is true, sets it when the set expands to some string, and otherwise leaves it
unset and unrecorded, also when the key is missing; `expandIngress` and
`expandLoadBalancer` treat the service annotations in the same way; `expandIngress` clears
a nested block exactly when its key is missing and `nullify` is true; the nested expanders
clear a scalar exactly when no value of its type is configured and `nullify` is true. -/
theorem expand_nullify_semantics (names : FilterNames) (inames : IngressNames)
    (m : List (String × Value)) (rest : List Value) (nullify : Bool) :
    (SetsWellTyped names m →
      ∃ r, expandFilters names (Value.slice (Value.map m :: rest)) nullify = GoResult.ok r ∧
        r.nullFields =
          cleared (mapGet m names.Architectures) nullify "Architectures" ++
          cleared (mapGet m names.Categories) nullify "Categories" ++
          cleared (mapGet m names.DiskTypes) nullify "DiskTypes" ++
          cleared (mapGet m names.ExcludeFamilies) nullify "ExcludeFamilies" ++
          cleared (mapGet m names.Hypervisor) nullify "Hypervisor" ++
          cleared (mapGet m names.IncludeFamilies) nullify "IncludeFamilies" ++
          cleared (mapGet m names.RootDeviceTypes) nullify "RootDeviceTypes" ++
          cleared (mapGet m names.VirtualizationTypes) nullify "VirtualizationTypes" ∧
        r.Architectures = configuredSet m names.Architectures ∧
        r.Categories = configuredSet m names.Categories ∧
        r.DiskTypes = configuredSet m names.DiskTypes ∧
        r.ExcludeFamilies = configuredSet m names.ExcludeFamilies ∧
        r.Hypervisor = configuredSet m names.Hypervisor ∧
        r.IncludeFamilies = configuredSet m names.IncludeFamilies ∧
        r.RootDeviceTypes = configuredSet m names.RootDeviceTypes ∧
        r.VirtualizationTypes = configuredSet m names.VirtualizationTypes) ∧
    (∀ r, expandIngress inames (Value.slice (Value.map m :: rest)) nullify = GoResult.ok r →
      r.nullFields =
          clearedAnnotations (mapGet m inames.ServiceAnnotations) nullify
            "ServiceAnnotations" ++
          clearedBlock (mapGet m inames.Controller) nullify "Controller" ++
          clearedBlock (mapGet m inames.LoadBalancer) nullify "LoadBalancer" ++
          clearedBlock (mapGet m inames.CustomEndpoint) nullify "CustomEndpoint" ++
          clearedBlock (mapGet m inames.PrivateLink) nullify "PrivateLink" ∧
        ((mapGet m inames.ServiceAnnotations).2 = false ∨
            expandAnnotations (mapGet m inames.ServiceAnnotations).1 = GoResult.ok [] →
          r.ServiceAnnotations = none) ∧
        ((mapGet m inames.Controller).2 = false → r.Controller = none) ∧
        ((mapGet m inames.LoadBalancer).2 = false → r.LoadBalancer = none) ∧
        ((mapGet m inames.CustomEndpoint).2 = false → r.CustomEndpoint = none) ∧
        ((mapGet m inames.PrivateLink).2 = false → r.PrivateLink = none)) ∧
    ((mapGet m inames.ServiceAnnotations).2 = false → (mapGet m inames.Controller).2 = false →
      (mapGet m inames.LoadBalancer).2 = false → (mapGet m inames.CustomEndpoint).2 = false →
      (mapGet m inames.PrivateLink).2 = false →
      expandIngress inames (Value.slice (Value.map m :: rest)) nullify = GoResult.ok
        (if nullify = true then
          { nullFields := ["Controller", "LoadBalancer", "CustomEndpoint", "PrivateLink"] }
        else {})) ∧
    expandController inames (Value.slice (Value.map m :: rest)) nullify = GoResult.ok
      { Managed := configuredBool m inames.Managed
        nullFields := clearedScalar (configuredBool m inames.Managed) nullify "Managed" } ∧
    (∀ r, expandLoadBalancer inames (Value.slice (Value.map m :: rest)) nullify
        = GoResult.ok r →
      r.Managed = configuredBool m inames.Managed ∧
        r.TargetGroupARN = configuredString m inames.TargetGroupARN ∧
        r.nullFields =
          clearedScalar (configuredBool m inames.Managed) nullify "Managed" ++
          clearedScalar (configuredString m inames.TargetGroupARN) nullify
            "TargetGroupARN" ++
          clearedAnnotations (mapGet m inames.ServiceAnnotations) nullify
            "ServiceAnnotations" ∧
        ((mapGet m inames.ServiceAnnotations).2 = false ∨
            expandAnnotations (mapGet m inames.ServiceAnnotations).1 = GoResult.ok [] →
          r.ServiceAnnotations = none)) ∧
    ((mapGet m inames.ServiceAnnotations).2 = false →
      expandLoadBalancer inames (Value.slice (Value.map m :: rest)) nullify = GoResult.ok
        { Managed := configuredBool m inames.Managed
          TargetGroupARN := configuredString m inames.TargetGroupARN
          nullFields := clearedScalar (configuredBool m inames.Managed) nullify "Managed" ++
            clearedScalar (configuredString m inames.TargetGroupARN) nullify
              "TargetGroupARN" }) ∧
    expandCustomEndpoint inames (Value.slice (Value.map m :: rest)) nullify = GoResult.ok
      { Enabled := configuredBool m inames.Enabled
        Address := configuredString m inames.Address
        nullFields := clearedScalar (configuredBool m inames.Enabled) nullify "Enabled" ++
          clearedScalar (configuredString m inames.Address) nullify "Address" } ∧
    expandPrivateLink inames (Value.slice (Value.map m :: rest)) nullify = GoResult.ok
      { Enabled := configuredBool m inames.Enabled
        VPCEndpointService := configuredString m inames.VPCEndpointService
        nullFields := clearedScalar (configuredBool m inames.Enabled) nullify "Enabled" ++
          clearedScalar (configuredString m inames.VPCEndpointService) nullify
            "VPCEndpointService" } := by
  refine ⟨?_, ?_, ?_, expandController_map .., ?_, ?_, expandCustomEndpoint_map ..,
    expandPrivateLink_map ..⟩
  · intro hwt
    exact ⟨filtersOf names m nullify, expandFilters_eq names m rest nullify hwt,
      filtersOf_nullFields .., filtersOf_Architectures .., filtersOf_Categories ..,
      filtersOf_DiskTypes .., filtersOf_ExcludeFamilies .., filtersOf_Hypervisor ..,
      filtersOf_IncludeFamilies .., filtersOf_RootDeviceTypes ..,
      filtersOf_VirtualizationTypes ..⟩
  · exact fun r h => expandIngress_summary inames m rest nullify r h
  · exact fun ha hc hl he hp => expandIngress_missing inames m rest nullify ha hc hl he hp
  · exact fun r h => expandLoadBalancer_summary inames m rest nullify r h
  · exact fun ha => expandLoadBalancer_missing inames m rest nullify ha

theorem expand_nullify_semantics_witness :
    (∃ r, expandFilters sampleFilterNames
          (Value.slice [Value.map [("architectures", Value.set [])]]) true = GoResult.ok r ∧
        r.nullFields = ["Architectures"] ∧ r.Architectures = none ∧ r.Categories = none) ∧
      (∃ r, expandFilters sampleFilterNames
          (Value.slice [Value.map [("architectures", Value.set [])]]) false = GoResult.ok r ∧
        r.nullFields = [] ∧ r.Architectures = none) ∧
      expandIngress sampleIngressNames
          (Value.slice [Value.map [("architectures", Value.set [])]]) false
        = GoResult.ok {} := by
  have hwt : SetsWellTyped sampleFilterNames [("architectures", Value.set [])] := by
    intro key hk v hv
    simp only [sampleFilterNames, List.mem_cons, List.mem_singleton, List.mem_nil_iff,
      or_false] at hk
    rcases hk with h | h | h | h | h | h | h | h <;> subst h <;> simp [List.lookup] at hv
    exact ⟨[], hv.symm⟩
  obtain ⟨r, h1, hn, ha, hc, -⟩ := (expand_nullify_semantics sampleFilterNames
    sampleIngressNames [("architectures", Value.set [])] [] true).1 hwt
  obtain ⟨r', h1', hn', ha', -⟩ := (expand_nullify_semantics sampleFilterNames
    sampleIngressNames [("architectures", Value.set [])] [] false).1 hwt
  exact ⟨⟨r, h1, hn.trans rfl, ha.trans rfl, hc.trans rfl⟩,
    ⟨r', h1', hn'.trans rfl, ha'.trans rfl⟩,
    (expand_nullify_semantics sampleFilterNames sampleIngressNames
      [("architectures", Value.set [])] [] false).2.2.1 rfl rfl rfl rfl rfl⟩

/-- C18, as claimed, fails: a configured `false` is set on the domain object, which differs
from the object expanded when the key is missing. -/
theorem false_differs_from_unset :
    expandFilters sampleFilterNames
        (Value.slice [Value.map [("is_ena_supported", Value.bool false)]]) false
      = GoResult.ok { IsEnaSupported := some false } ∧
    expandFilters sampleFilterNames (Value.slice [Value.map []]) false = GoResult.ok {} ∧
    expandController sampleIngressNames
        (Value.slice [Value.map [("managed", Value.bool false)]]) true
      = GoResult.ok { Managed := some false } ∧
    expandController sampleIngressNames (Value.slice [Value.map []]) true
      = GoResult.ok { Managed := none, nullFields := ["Managed"] } ∧
    expandFilters sampleFilterNames
        (Value.slice [Value.map [("is_ena_supported", Value.bool false)]]) false
      ≠ expandFilters sampleFilterNames (Value.slice [Value.map []]) false := by
  refine ⟨rfl, rfl, rfl, rfl, ?_⟩
  intro h
  have e1 : expandFilters sampleFilterNames
      (Value.slice [Value.map [("is_ena_supported", Value.bool false)]]) false
      = GoResult.ok { IsEnaSupported := some false } := rfl
  have e2 : expandFilters sampleFilterNames (Value.slice [Value.map []]) false
      = GoResult.ok {} := rfl
  rw [e1, e2] at h
  have h3 := congrArg (fun x => match x with
    | GoResult.ok f => f.IsEnaSupported
    | _ => none) h
  simp at h3

/-- C18, amended. The boolean fields hold exactly the configured boolean: a configured
`false` gives a field holding `false`, as a configured `true` gives a field holding `true`.
The field is unset only when no boolean is configured under the key; `expandFilters` then
records nothing, and the nested ingress expanders record the field as cleared exactly when
`nullify` is true. -/
theorem expand_bool_fields (names : FilterNames) (inames : IngressNames)
    (m : List (String × Value)) (rest : List Value) (nullify : Bool) :
    (SetsWellTyped names m →
      ∃ r, expandFilters names (Value.slice (Value.map m :: rest)) nullify = GoResult.ok r ∧
        r.IsEnaSupported = configuredBool m names.IsEnaSupported ∧
        r.ExcludeMetal = configuredBool m names.ExcludeMetal ∧
        "IsEnaSupported" ∉ r.nullFields ∧ "ExcludeMetal" ∉ r.nullFields) ∧
    (∃ r, expandController inames (Value.slice (Value.map m :: rest)) nullify
        = GoResult.ok r ∧
      r.Managed = configuredBool m inames.Managed ∧
      ("Managed" ∈ r.nullFields ↔
        configuredBool m inames.Managed = none ∧ nullify = true)) ∧
    (∀ r, expandLoadBalancer inames (Value.slice (Value.map m :: rest)) nullify
        = GoResult.ok r →
      r.Managed = configuredBool m inames.Managed ∧
      ("Managed" ∈ r.nullFields ↔
        configuredBool m inames.Managed = none ∧ nullify = true)) ∧
    (∃ r, expandCustomEndpoint inames (Value.slice (Value.map m :: rest)) nullify
        = GoResult.ok r ∧
      r.Enabled = configuredBool m inames.Enabled ∧
      ("Enabled" ∈ r.nullFields ↔
        configuredBool m inames.Enabled = none ∧ nullify = true)) ∧
    (∃ r, expandPrivateLink inames (Value.slice (Value.map m :: rest)) nullify
        = GoResult.ok r ∧
      r.Enabled = configuredBool m inames.Enabled ∧
      ("Enabled" ∈ r.nullFields ↔
        configuredBool m inames.Enabled = none ∧ nullify = true)) := by
  refine ⟨?_, ⟨_, expandController_map .., rfl, ?_⟩, ?_,
    ⟨_, expandCustomEndpoint_map .., rfl, ?_⟩, ⟨_, expandPrivateLink_map .., rfl, ?_⟩⟩
  · intro hwt
    exact ⟨filtersOf names m nullify, expandFilters_eq names m rest nullify hwt,
      filtersOf_IsEnaSupported .., filtersOf_ExcludeMetal ..,
      filtersOf_scalar_not_cleared names m nullify _ (by simp),
      filtersOf_scalar_not_cleared names m nullify _ (by simp)⟩
  · simp [mem_clearedScalar]
  · intro r h
    obtain ⟨hm, -, hn, -⟩ := expandLoadBalancer_summary inames m rest nullify r h
    refine ⟨hm, ?_⟩
    rw [hn]
    simp only [List.mem_append, mem_clearedScalar]
    constructor
    · rintro ((⟨-, h1, h2⟩ | ⟨h0, -⟩) | h3)
      · exact ⟨h1, h2⟩
      · exact absurd h0 (by decide)
      · exact absurd (mem_clearedAnnotations _ _ _ _ h3) (by decide)
    · rintro ⟨h1, h2⟩
      exact Or.inl (Or.inl ⟨trivial, h1, h2⟩)
  · simp only [List.mem_append, mem_clearedScalar]
    constructor
    · rintro (⟨-, h1, h2⟩ | ⟨h0, -⟩)
      · exact ⟨h1, h2⟩
      · exact absurd h0 (by decide)
    · rintro ⟨h1, h2⟩
      exact Or.inl ⟨trivial, h1, h2⟩
  · simp only [List.mem_append, mem_clearedScalar]
    constructor
    · rintro (⟨-, h1, h2⟩ | ⟨h0, -⟩)
      · exact ⟨h1, h2⟩
      · exact absurd h0 (by decide)
    · rintro ⟨h1, h2⟩
      exact Or.inl ⟨trivial, h1, h2⟩

theorem expand_bool_fields_witness :
    (∃ r, expandFilters sampleFilterNames
          (Value.slice [Value.map [("is_ena_supported", Value.bool false)]]) true
        = GoResult.ok r ∧
      r.IsEnaSupported = some false ∧ "IsEnaSupported" ∉ r.nullFields) ∧
    (∃ r, expandController sampleIngressNames
          (Value.slice [Value.map [("managed", Value.bool false)]]) true = GoResult.ok r ∧
      r.Managed = some false ∧ "Managed" ∉ r.nullFields) := by
  have hwt : SetsWellTyped sampleFilterNames [("is_ena_supported", Value.bool false)] := by
    intro key hk v hv
    simp only [sampleFilterNames, List.mem_cons, List.mem_singleton, List.mem_nil_iff,
      or_false] at hk
    rcases hk with h | h | h | h | h | h | h | h <;> subst h <;> simp [List.lookup] at hv
  have h := expand_bool_fields sampleFilterNames sampleIngressNames
    [("is_ena_supported", Value.bool false)] [] true
  have h' := expand_bool_fields sampleFilterNames sampleIngressNames
    [("managed", Value.bool false)] [] true
  obtain ⟨r, h1, he, -, hn, -⟩ := h.1 hwt
  obtain ⟨r', h1', hm, hn'⟩ := h'.2.1
  refine ⟨⟨r, h1, he.trans rfl, hn⟩, ⟨r', h1', hm.trans rfl, ?_⟩⟩
  rw [hn']
  rintro ⟨h0, -⟩
  exact absurd h0 (by decide)

/-! ## The mappers of the instance-type fields and of the ingress field (claims C15, C19) -/

/-- C15. When the field is absent from the configuration, the update-mapper sets the domain
field to nil and records it as cleared, leaving the sibling fields as they were, and the
create-mapper returns the domain object unchanged. For the whitelist and blacklist
update-mappers the cluster holds `Compute` and `Compute.InstanceTypes`; the filters
update-mapper creates `InstanceTypes` and the ingress update-mapper creates `Config` when
it is nil. -/
theorem mappers_absent_field (names : FilterNames) (inames : IngressNames) (cluster : Cluster)
    (compute : Compute) (instanceTypes : InstanceTypes) (spark : SparkCluster)
    (rd : ResourceData)
    (hc : cluster.Compute = some compute)
    (hi : compute.InstanceTypes = some instanceTypes)
    (hw : (rd.GetOk names.Whitelist).2 = false)
    (hb : (rd.GetOk names.Blacklist).2 = false)
    (hf : (rd.GetOk names.Filters).2 = false)
    (hg : (rd.GetOk inames.Ingress).2 = false) :
    (whitelistOnUpdate names cluster rd
        = GoResult.ok { cluster with Compute := some { compute with
            InstanceTypes := some { instanceTypes with
              Whitelist := none, nullFields := instanceTypes.nullFields ++ ["Whitelist"] } } } ∧
      whitelistOnCreate names cluster rd = GoResult.ok cluster) ∧
    (blacklistOnUpdate names cluster rd
        = GoResult.ok { cluster with Compute := some { compute with
            InstanceTypes := some { instanceTypes with
              Blacklist := none, nullFields := instanceTypes.nullFields ++ ["Blacklist"] } } } ∧
      blacklistOnCreate names cluster rd = GoResult.ok cluster) ∧
    (filtersOnUpdate names cluster rd
        = GoResult.ok { cluster with Compute := some { compute with
            InstanceTypes := some { instanceTypes with
              Filters := none, nullFields := instanceTypes.nullFields ++ ["Filters"] } } } ∧
      filtersOnCreate names cluster rd = GoResult.ok cluster) ∧
    (ingressOnUpdate inames spark rd
        = GoResult.ok { spark with Config := some { spark.Config.getD {} with
            Ingress := none,
            nullFields := (spark.Config.getD {}).nullFields ++ ["Ingress"] } } ∧
      ingressOnCreate inames spark rd = GoResult.ok spark) := by
  refine ⟨⟨?_, ?_⟩, ⟨?_, ?_⟩, ⟨?_, ?_⟩, ⟨?_, ?_⟩⟩
  · simp [whitelistOnUpdate, hw, hc, hi, deref, bind, GoResult.bind, pure,
      InstanceTypes.SetWhitelist]
  · simp [whitelistOnCreate, hw, pure, bind, GoResult.bind]
  · simp [blacklistOnUpdate, hb, hc, hi, deref, bind, GoResult.bind, pure,
      InstanceTypes.SetBlacklist]
  · simp [blacklistOnCreate, hb, pure, bind, GoResult.bind]
  · simp [filtersOnUpdate, hf, hc, hi, deref, bind, GoResult.bind, pure,
      InstanceTypes.SetFilters]
  · simp [filtersOnCreate, hf, pure, bind, GoResult.bind]
  · cases hcfg : spark.Config <;>
      simp [ingressOnUpdate, hg, hcfg, bind, GoResult.bind, pure, SparkConfig.SetIngress]
  · simp [ingressOnCreate, hg, pure, bind, GoResult.bind]

theorem mappers_absent_field_witness :
    (whitelistOnUpdate sampleFilterNames sampleAWSCluster (configuredData [])
        = GoResult.ok { sampleAWSCluster with Compute := some { sampleCompute with
            InstanceTypes := some { sampleInstanceTypes with
              Whitelist := none, nullFields := ["Whitelist"] } } } ∧
      whitelistOnCreate sampleFilterNames sampleAWSCluster (configuredData [])
        = GoResult.ok sampleAWSCluster) ∧
    (ingressOnUpdate sampleIngressNames sampleSparkCluster (configuredData [])
        = GoResult.ok { Config := some { Ingress := none, nullFields := ["Ingress"] } } ∧
      ingressOnCreate sampleIngressNames sampleSparkCluster (configuredData [])
        = GoResult.ok sampleSparkCluster) :=
  have h := mappers_absent_field sampleFilterNames sampleIngressNames sampleAWSCluster
    sampleCompute sampleInstanceTypes sampleSparkCluster (configuredData [])
    rfl rfl rfl rfl rfl rfl
  ⟨h.1, h.2.2.2⟩

/-- On a cluster whose `Compute` or `Compute.InstanceTypes` is nil, the whitelist and
blacklist mappers dereference the nil pointer and panic: the update-mappers whenever the
field is absent or holds a list, the create-mappers whenever the field holds a list. The
filters create-mapper panics in the same way once the filters are expanded, and the filters
update-mapper panics on a nil `Compute`. -/
theorem mappers_nil_ancestry (names : FilterNames) (cluster : Cluster) (rd : ResourceData)
    (h : cluster.Compute = none ∨
      ∃ compute, cluster.Compute = some compute ∧ compute.InstanceTypes = none) :
    ((rd.GetOk names.Whitelist).2 = false →
        whitelistOnUpdate names cluster rd
          = GoResult.panic "invalid memory address or nil pointer dereference") ∧
      ((rd.GetOk names.Blacklist).2 = false →
        blacklistOnUpdate names cluster rd
          = GoResult.panic "invalid memory address or nil pointer dereference") ∧
      (∀ xs, rd.GetOk names.Whitelist = (Value.slice xs, true) →
        whitelistOnCreate names cluster rd
            = GoResult.panic "invalid memory address or nil pointer dereference" ∧
          whitelistOnUpdate names cluster rd
            = GoResult.panic "invalid memory address or nil pointer dereference") ∧
      (∀ xs, rd.GetOk names.Blacklist = (Value.slice xs, true) →
        blacklistOnCreate names cluster rd
            = GoResult.panic "invalid memory address or nil pointer dereference" ∧
          blacklistOnUpdate names cluster rd
            = GoResult.panic "invalid memory address or nil pointer dereference") ∧
      (∀ f, (rd.GetOk names.Filters).2 = true →
        expandFilters names (rd.GetOk names.Filters).1 false = GoResult.ok f →
        filtersOnCreate names cluster rd
          = GoResult.panic "invalid memory address or nil pointer dereference") ∧
      (cluster.Compute = none → (rd.GetOk names.Filters).2 = false →
        filtersOnUpdate names cluster rd
          = GoResult.panic "invalid memory address or nil pointer dereference") := by
  refine ⟨?_, ?_, ?_, ?_, ?_, ?_⟩
  · intro hw
    rcases h with hc | ⟨compute, hc, hi⟩ <;>
      simp [whitelistOnUpdate, hw, hc, deref, bind, GoResult.bind, *]
  · intro hb
    rcases h with hc | ⟨compute, hc, hi⟩ <;>
      simp [blacklistOnUpdate, hb, hc, deref, bind, GoResult.bind, *]
  · intro xs hw
    rcases h with hc | ⟨compute, hc, hi⟩ <;>
      simp [whitelistOnCreate, whitelistOnUpdate, hw, hc, deref, bind, GoResult.bind,
        expandInstanceTypeList, toSlice, pure, *]
  · intro xs hb
    rcases h with hc | ⟨compute, hc, hi⟩ <;>
      simp [blacklistOnCreate, blacklistOnUpdate, hb, hc, deref, bind, GoResult.bind,
        expandInstanceTypeList, toSlice, pure, *]
  · intro f hf he
    rcases h with hc | ⟨compute, hc, hi⟩ <;>
      simp [filtersOnCreate, hf, he, hc, deref, bind, GoResult.bind, *]
  · intro hc hf
    simp [filtersOnUpdate, hf, hc, deref, bind, GoResult.bind, pure]

/-! ## Nil ancestry of the instance-type fields (claim C19) -/

theorem noDeref_pure {α : Type} (a : α) :
    (pure a : GoResult α).isNilDereference = false := rfl

theorem noDeref_bind {α β : Type} {x : GoResult α} {f : α → GoResult β}
    (hx : x.isNilDereference = false) (hf : ∀ a, (f a).isNilDereference = false) :
    (x >>= f).isNilDereference = false := by
  cases x with
  | ok a => exact hf a
  | err e => rfl
  | panic msg => exact hx

theorem noDeref_ite {α : Type} {c : Prop} [Decidable c] {t e : GoResult α}
    (ht : t.isNilDereference = false) (he : e.isNilDereference = false) :
    (if c then t else e).isNilDereference = false := by
  split <;> assumption

theorem noDeref_toSlice (v : Value) : (toSlice v).isNilDereference = false := by
  cases v <;> rfl

theorem noDeref_toMap (v : Value) : (toMap v).isNilDereference = false := by
  cases v <;> rfl

theorem noDeref_toSetList (v : Value) : (toSetList v).isNilDereference = false := by
  cases v <;> rfl

theorem noDeref_elem0 (l : Slice) : (elem0 l).isNilDereference = false := by
  rcases l with _ | _ | ⟨x, xs⟩ <;> rfl

theorem expandInstanceTypeList_noDeref (data : Value) :
    (expandInstanceTypeList data).isNilDereference = false := by
  unfold expandInstanceTypeList
  exact noDeref_bind (noDeref_toSlice _) (fun _ => noDeref_pure _)

theorem filtersList_noDeref (data : Value) :
    (expandInstanceTypeFiltersList data).isNilDereference = false := by
  unfold expandInstanceTypeFiltersList
  exact noDeref_bind (noDeref_toSetList _) (fun _ => noDeref_pure _)

theorem expandFilters_noDeref (names : FilterNames) (data : Value) (nullify : Bool) :
    (expandFilters names data nullify).isNilDereference = false := by
  unfold expandFilters
  repeat (first
    | exact noDeref_pure _
    | exact noDeref_toSlice _
    | exact noDeref_elem0 _
    | exact noDeref_toMap _
    | exact filtersList_noDeref _
    | refine noDeref_bind ?_ ?_
    | refine noDeref_ite ?_ ?_
    | intro _
    | split)

theorem listMapper_noDeref (names : FilterNames) (cluster : Cluster) (compute : Compute)
    (instanceTypes : InstanceTypes) (rd : ResourceData)
    (hc : cluster.Compute = some compute) (hi : compute.InstanceTypes = some instanceTypes) :
    (whitelistOnCreate names cluster rd).isNilDereference = false ∧
      (whitelistOnUpdate names cluster rd).isNilDereference = false ∧
      (blacklistOnCreate names cluster rd).isNilDereference = false ∧
      (blacklistOnUpdate names cluster rd).isNilDereference = false := by
  refine ⟨?_, ?_, ?_, ?_⟩
  · by_cases hp : (rd.GetOk names.Whitelist).2 = true
    · have hn := expandInstanceTypeList_noDeref (rd.GetOk names.Whitelist).1
      cases he : expandInstanceTypeList (rd.GetOk names.Whitelist).1 <;>
        simp_all [whitelistOnCreate, deref, bind, GoResult.bind, pure, GoResult.isNilDereference]
    · simp [whitelistOnCreate, hp, bind, GoResult.bind, pure, GoResult.isNilDereference]
  · by_cases hp : (rd.GetOk names.Whitelist).2 = true
    · have hn := expandInstanceTypeList_noDeref (rd.GetOk names.Whitelist).1
      cases he : expandInstanceTypeList (rd.GetOk names.Whitelist).1 <;>
        simp_all [whitelistOnUpdate, deref, bind, GoResult.bind, pure, GoResult.isNilDereference]
    · simp [whitelistOnUpdate, hp, hc, hi, deref, bind, GoResult.bind, pure,
        GoResult.isNilDereference]
  · by_cases hp : (rd.GetOk names.Blacklist).2 = true
    · have hn := expandInstanceTypeList_noDeref (rd.GetOk names.Blacklist).1
      cases he : expandInstanceTypeList (rd.GetOk names.Blacklist).1 <;>
        simp_all [blacklistOnCreate, deref, bind, GoResult.bind, pure, GoResult.isNilDereference]
    · simp [blacklistOnCreate, hp, bind, GoResult.bind, pure, GoResult.isNilDereference]
  · by_cases hp : (rd.GetOk names.Blacklist).2 = true
    · have hn := expandInstanceTypeList_noDeref (rd.GetOk names.Blacklist).1
      cases he : expandInstanceTypeList (rd.GetOk names.Blacklist).1 <;>
        simp_all [blacklistOnUpdate, deref, bind, GoResult.bind, pure, GoResult.isNilDereference]
    · simp [blacklistOnUpdate, hp, hc, hi, deref, bind, GoResult.bind, pure,
        GoResult.isNilDereference]

theorem filtersOnCreate_noDeref (names : FilterNames) (cluster : Cluster) (compute : Compute)
    (instanceTypes : InstanceTypes) (rd : ResourceData)
    (hc : cluster.Compute = some compute) (hi : compute.InstanceTypes = some instanceTypes) :
    (filtersOnCreate names cluster rd).isNilDereference = false := by
  by_cases hp : (rd.GetOk names.Filters).2 = true
  · have hn := expandFilters_noDeref names (rd.GetOk names.Filters).1 false
    cases he : expandFilters names (rd.GetOk names.Filters).1 false <;>
      simp_all [filtersOnCreate, deref, bind, GoResult.bind, pure, GoResult.isNilDereference]
  · simp [filtersOnCreate, hp, bind, GoResult.bind, pure, GoResult.isNilDereference]

theorem filtersOnUpdate_noDeref (names : FilterNames) (cluster : Cluster) (compute : Compute)
    (rd : ResourceData) (hc : cluster.Compute = some compute) :
    (filtersOnUpdate names cluster rd).isNilDereference = false := by
  by_cases hp : (rd.GetOk names.Filters).2 = true
  · have hn := expandFilters_noDeref names (rd.GetOk names.Filters).1 true
    cases he : expandFilters names (rd.GetOk names.Filters).1 true <;>
      simp_all [filtersOnUpdate, deref, bind, GoResult.bind, pure, GoResult.isNilDereference]
  · simp [filtersOnUpdate, hp, hc, deref, bind, GoResult.bind, pure, GoResult.isNilDereference]

/-- C19, as claimed, fails: on a cluster whose `Compute` is nil the whitelist update-mapper,
with the field absent, panics with a nil-pointer dereference, and so does the whitelist
create-mapper, with the field holding a list, on a cluster whose `Compute.InstanceTypes` is
nil. -/
theorem mappers_nil_ancestry_counterexample :
    whitelistOnUpdate sampleFilterNames sampleCluster (configuredData [])
        = GoResult.panic "invalid memory address or nil pointer dereference" ∧
      whitelistOnCreate sampleFilterNames sampleClusterNoTypes
          (configuredData [("whitelist", Value.slice [Value.str "m5.large"])])
        = GoResult.panic "invalid memory address or nil pointer dereference" :=
  ⟨rfl, rfl⟩

/-- C19, amended. On a cluster that holds `Compute` and `Compute.InstanceTypes`, the
whitelist, blacklist and filters create-mappers and update-mappers never end in a
nil-pointer dereference, whatever the configuration holds; the filters update-mapper needs
`Compute` only, creating `InstanceTypes` when it is nil. -/
theorem mappers_with_parents (names : FilterNames) (cluster : Cluster) (compute : Compute)
    (instanceTypes : InstanceTypes) (rd : ResourceData)
    (hc : cluster.Compute = some compute) (hi : compute.InstanceTypes = some instanceTypes) :
    ((whitelistOnCreate names cluster rd).isNilDereference = false ∧
      (whitelistOnUpdate names cluster rd).isNilDereference = false) ∧
    ((blacklistOnCreate names cluster rd).isNilDereference = false ∧
      (blacklistOnUpdate names cluster rd).isNilDereference = false) ∧
    ((filtersOnCreate names cluster rd).isNilDereference = false ∧
      (filtersOnUpdate names cluster rd).isNilDereference = false) ∧
    (∀ (cluster2 : Cluster) (compute2 : Spotinst.Compute), cluster2.Compute = some compute2 →
      (filtersOnUpdate names cluster2 rd).isNilDereference = false) := by
  obtain ⟨h1, h2, h3, h4⟩ := listMapper_noDeref names cluster compute instanceTypes rd hc hi
  exact ⟨⟨h1, h2⟩, ⟨h3, h4⟩,
    ⟨filtersOnCreate_noDeref names cluster compute instanceTypes rd hc hi,
      filtersOnUpdate_noDeref names cluster compute rd hc⟩,
    fun cluster2 compute2 h2 => filtersOnUpdate_noDeref names cluster2 compute2 rd h2⟩

theorem mappers_with_parents_witness :
    (whitelistOnUpdate sampleFilterNames sampleAWSCluster
        (configuredData [("whitelist", Value.slice [Value.str "m5.large"])])).isNilDereference
      = false ∧
    (filtersOnUpdate sampleFilterNames sampleClusterNoTypes
        (configuredData [])).isNilDereference = false :=
  ⟨(mappers_with_parents sampleFilterNames sampleAWSCluster sampleCompute sampleInstanceTypes
      (configuredData [("whitelist", Value.slice [Value.str "m5.large"])]) rfl rfl).1.2,
    (mappers_with_parents sampleFilterNames sampleAWSCluster sampleCompute sampleInstanceTypes
      (configuredData []) rfl rfl).2.2.2 sampleClusterNoTypes {} rfl⟩

/-! ## The flatten functions (claim C16) -/

theorem mapSet_length_pos (m : List (String × Value)) (key : String) (v : Value) :
    0 < (mapSet m key v).length := by
  unfold mapSet
  split
  · rename_i h
    cases m with
    | nil => simp at h
    | cons kv rest => simp
  · simp

theorem optSet_length_pos (m : List (String × Value)) (key : String) (o : Option (List String))
    (h : 0 < m.length) :
    0 < (match o with
      | some xs => mapSet m key (Value.strings xs)
      | none => m).length := by
  cases o with
  | none => exact h
  | some xs => exact mapSet_length_pos _ _ _

theorem flattenFilters_some (names : FilterNames) (f : Filters) :
    ∃ result, flattenFilters names (some f) = some [Value.map result] ∧ 0 < result.length := by
  have key : ∀ r : List (String × Value), 0 < r.length →
      (if r.length > 0 then some [Value.map r] else none : Slice) = some [Value.map r] :=
    fun r h => if_pos h
  refine ⟨_, key _ ?_, ?_⟩ <;>
    repeat (first | exact mapSet_length_pos _ _ _ | apply optSet_length_pos)

theorem extensionsOnRead_nil (names : ExtensionNames) (set : String → Value → Option GoError)
    (st : Option StatefulNode) (h : extensionsOf st = none) :
    extensionsOnRead names set st = GoResult.ok { sets := [], err := none } := by
  rcases st with _ | ⟨_ | ⟨_ | ⟨_ | exts, nf, r3⟩, r2⟩, r1⟩
  · rfl
  · rfl
  · rfl
  · rfl
  · simp [extensionsOf] at h

theorem extensionsOnRead_empty (names : ExtensionNames) (set : String → Value → Option GoError)
    (st : Option StatefulNode) (h : extensionsOf st = some []) :
    extensionsOnRead names set st = GoResult.ok
      { sets := [(names.Extensions, Value.slice [])],
        err := (set names.Extensions (Value.slice [])).map
          (GoError.wrapf names.FailureFieldReadPattern [names.Extensions]) } := by
  rcases st with _ | ⟨_ | ⟨_ | ⟨_ | exts, nf, r3⟩, r2⟩, r1⟩
  · simp [extensionsOf] at h
  · simp [extensionsOf] at h
  · simp [extensionsOf] at h
  · simp [extensionsOf] at h
  · simp only [extensionsOf, Option.some.injEq] at h
    subst h
    cases hs : set names.Extensions (Value.slice []) <;>
      simp [extensionsOnRead, hs, bind, GoResult.bind, pure, flattenExtensions,
        flattenExtensionsLoop]

/-- C16, as claimed, fails: a filters object with no field set is flattened to a one-element
list holding a map of eleven default values, an ingress object with no field set to a
one-element list holding a map with an empty annotations map, and an empty extensions list
is written to the configuration as an explicit empty list. -/
theorem flatten_empty_not_absent :
    flattenFilters sampleFilterNames (some {}) = some [Value.map
      [("exclude_metal", Value.bool false), ("is_ena_supported", Value.bool false),
        ("max_gpu", Value.int 0), ("min_gpu", Value.int 0),
        ("max_memory_gib", Value.float 0), ("min_memory_gib", Value.float 0),
        ("max_vcpu", Value.int 0), ("min_vcpu", Value.int 0),
        ("max_network_performance", Value.int 0), ("min_network_performance", Value.int 0),
        ("min_enis", Value.int 0)]] ∧
      flattenIngress sampleIngressNames (some {}) = some [Value.map
        [("service_annotations", Value.map []), ("controller", Value.nilSlice),
          ("load_balancer", Value.nilSlice), ("custom_endpoint", Value.nilSlice),
          ("private_link", Value.nilSlice)]] ∧
      extensionsOnRead sampleExtensionNames (fun _ _ => none) (some (sampleNode (some [])))
        = GoResult.ok { sets := [("extension", Value.slice [])], err := none } :=
  ⟨rfl, rfl, rfl⟩

/-- C16, amended. A nil sub-object yields an absent value: every flatten function returns
nil for a nil pointer, and the extensions read-mapper writes nothing when the node, its
`Compute`, its `LaunchSpecification` or its extensions list is nil. A non-nil sub-object is
always flattened to a one-element list holding a non-empty map, also when no field of it is
set, and a non-nil empty extensions list is written as an explicit empty list. -/
theorem flatten_nil_absent (names : FilterNames) (inames : IngressNames)
    (enames : ExtensionNames) (set : String → Value → Option GoError) :
    (flattenFilters names none = none ∧ flattenIngress inames none = none ∧
      flattenController inames none = none ∧ flattenLoadBalancer inames none = none ∧
      flattenCustomEndpoint inames none = none ∧ flattenPrivateLink inames none = none) ∧
    (∀ st, extensionsOf st = none →
      extensionsOnRead enames set st = GoResult.ok { sets := [], err := none }) ∧
    (∀ f, ∃ result, flattenFilters names (some f) = some [Value.map result] ∧
      0 < result.length) ∧
    (∀ i, ∃ result, flattenIngress inames (some i) = some [Value.map result] ∧
      0 < result.length) ∧
    (∀ c, ∃ result, flattenController inames (some c) = some [Value.map result] ∧
      0 < result.length) ∧
    (∀ l, ∃ result, flattenLoadBalancer inames (some l) = some [Value.map result] ∧
      0 < result.length) ∧
    (∀ c, ∃ result, flattenCustomEndpoint inames (some c) = some [Value.map result] ∧
      0 < result.length) ∧
    (∀ p, ∃ result, flattenPrivateLink inames (some p) = some [Value.map result] ∧
      0 < result.length) ∧
    (∀ st, extensionsOf st = some [] →
      extensionsOnRead enames set st = GoResult.ok
        { sets := [(enames.Extensions, Value.slice [])],
          err := (set enames.Extensions (Value.slice [])).map
            (GoError.wrapf enames.FailureFieldReadPattern [enames.Extensions]) }) := by
  refine ⟨⟨rfl, rfl, rfl, rfl, rfl, rfl⟩, ?_, ?_, ?_, ?_, ?_, ?_, ?_, ?_⟩
  · exact fun st h => extensionsOnRead_nil enames set st h
  · exact fun f => flattenFilters_some names f
  · exact fun i => ⟨_, rfl, mapSet_length_pos _ _ _⟩
  · exact fun c => ⟨_, rfl, mapSet_length_pos _ _ _⟩
  · exact fun l => ⟨_, rfl, mapSet_length_pos _ _ _⟩
  · exact fun c => ⟨_, rfl, mapSet_length_pos _ _ _⟩
  · exact fun p => ⟨_, rfl, mapSet_length_pos _ _ _⟩
  · exact fun st h => extensionsOnRead_empty enames set st h

theorem flatten_nil_absent_witness :
    extensionsOnRead sampleExtensionNames (fun _ _ => none) (some { Compute := none })
        = GoResult.ok { sets := [], err := none } ∧
      extensionsOnRead sampleExtensionNames (fun _ _ => none) (some (sampleNode none))
        = GoResult.ok { sets := [], err := none } ∧
      flattenFilters sampleFilterNames none = none :=
  have h := flatten_nil_absent sampleFilterNames sampleIngressNames sampleExtensionNames
    (fun _ _ => none)
  ⟨h.2.1 (some { Compute := none }) rfl, h.2.1 (some (sampleNode none)) rfl, h.1.1⟩

/-! ## The list expanders on an empty list (claim C20) -/

/-- C20. Applied to the empty non-nil list, each of the seven list expanders reads the
element at index zero and ends in an index-out-of-range panic: none of them returns the
default object. The same happens inside `expandIngress` when a nested block of the ingress
map holds the empty list. -/
theorem expanders_empty_list (env : Env) (clusterID : String) (s : St) (names : FilterNames)
    (inames : IngressNames) (nullify : Bool) :
    expandOceanAWSClusterRollConfig env (Value.slice []) clusterID s
        = Outcome.fault "index out of range [0]" s ∧
      expandFilters names (Value.slice []) nullify = GoResult.panic "index out of range [0]" ∧
      expandIngress inames (Value.slice []) nullify = GoResult.panic "index out of range [0]" ∧
      expandController inames (Value.slice []) nullify
        = GoResult.panic "index out of range [0]" ∧
      expandLoadBalancer inames (Value.slice []) nullify
        = GoResult.panic "index out of range [0]" ∧
      expandCustomEndpoint inames (Value.slice []) nullify
        = GoResult.panic "index out of range [0]" ∧
      expandPrivateLink inames (Value.slice []) nullify
        = GoResult.panic "index out of range [0]" ∧
      expandIngress sampleIngressNames
          (Value.slice [Value.map [("controller", Value.slice [])]]) nullify
        = GoResult.panic "index out of range [0]" := by
  refine ⟨rfl, rfl, rfl, rfl, rfl, rfl, rfl, ?_⟩
  cases nullify <;> rfl

/-! ## Extensions of the stateful node (claim C21) -/

theorem expandExtensionsLoop_eq (names : ExtensionNames) (xs : List Value)
    (existing : Option (List (Option Extension))) :
    (expandExtensionsLoop names xs existing).getD [] =
        existing.getD [] ++ (mapShaped xs).map (fun m => some (expandExtension names m)) ∧
      ((expandExtensionsLoop names xs existing).isNone = true ↔
        existing.isNone = true ∧ mapShaped xs = []) := by
  induction xs generalizing existing with
  | nil => simp [expandExtensionsLoop, mapShaped]
  | cons v rest ih =>
    cases v with
    | map kvs =>
      have := ih (some (existing.getD [] ++ [some (expandExtension names kvs)]))
      simp only [expandExtensionsLoop, Value.asMap, if_true, mapShaped,
        List.filterMap_cons] at this ⊢
      refine ⟨by simpa [mapShaped] using this.1, ?_⟩
      rw [this.2]
      simp
    | nilMap =>
      have := ih (some (existing.getD [] ++ [some (expandExtension names [])]))
      simp only [expandExtensionsLoop, Value.asMap, if_true, mapShaped,
        List.filterMap_cons] at this ⊢
      refine ⟨by simpa [mapShaped] using this.1, ?_⟩
      rw [this.2]
      simp
    | _ =>
      have := ih existing
      simpa [expandExtensionsLoop, Value.asMap, mapShaped] using this

/-- C21. For every existing list and every configured set, `expandExtensions` returns, with
no error, the existing list followed by one new extension for each element of the set that
is a map, in the order of the set: its length is the length of the existing list plus the
number of such elements, the existing list is a prefix of it, and it is nil only when the
existing list is nil and no element is a map. The create-mapper and the update-mapper, on a
node that holds a launch specification, store that list in the launch specification. -/
theorem expandExtensions_appends (names : ExtensionNames) (xs : List Value)
    (existing : Option (List (Option Extension))) :
    (∃ r, expandExtensions names (Value.set xs) existing = GoResult.ok r ∧
      r.getD [] =
        existing.getD [] ++ (mapShaped xs).map (fun m => some (expandExtension names m)) ∧
      (r.getD []).length = (existing.getD []).length + (mapShaped xs).length ∧
      existing.getD [] <+: r.getD [] ∧
      (r.isNone = true ↔ existing.isNone = true ∧ mapShaped xs = [])) ∧
    (∀ (node : StatefulNode) (compute : AzureCompute)
        (launchSpecification : AzureLaunchSpecification) (rd : ResourceData),
      node.Compute = some compute →
      compute.LaunchSpecification = some launchSpecification →
      launchSpecification.Extensions = existing →
      rd.GetOk names.Extensions = (Value.set xs, true) →
      ∃ node', extensionsOnUpdate names (some node) rd = GoResult.ok (some node') ∧
        extensionsOnCreate names (some node) rd = GoResult.ok (some node') ∧
        (extensionsOf (some node')).getD [] =
          existing.getD [] ++
            (mapShaped xs).map (fun m => some (expandExtension names m))) := by
  obtain ⟨h1, h2⟩ := expandExtensionsLoop_eq names xs existing
  have he : expandExtensions names (Value.set xs) existing
      = GoResult.ok (expandExtensionsLoop names xs existing) := rfl
  refine ⟨⟨_, he, h1, ?_, ⟨_, h1.symm⟩, h2⟩, ?_⟩
  · rw [h1]
    simp
  · intro node compute launchSpecification rd hc hl hx hg
    subst hx
    refine ⟨{ node with Compute := some { compute with
      LaunchSpecification := some (launchSpecification.SetExtensions
        (expandExtensionsLoop names xs launchSpecification.Extensions)) } }, ?_, ?_, ?_⟩
    · simp [extensionsOnUpdate, hg, hc, hl, he, bind, GoResult.bind, pure]
    · simp [extensionsOnCreate, hg, hc, hl, he, bind, GoResult.bind, pure]
    · simpa [extensionsOf, AzureLaunchSpecification.SetExtensions] using h1

theorem expandExtensions_appends_witness :
    ∃ node', extensionsOnUpdate sampleExtensionNames
          (some (sampleNode (some [some sampleExtension])))
          (configuredData [("extension", sampleExtensionSet)]) = GoResult.ok (some node') ∧
      (extensionsOf (some node')).getD [] =
        [some sampleExtension,
          some { Name := some "script", Type_ := some "CustomScript",
                 MinorVersionAutoUpgrade := some false,
                 ProtectedSettings := none,
                 PublicSettings := some [("port", Value.int 22)],
                 nullFields := ["ProtectedSettings"] }] := by
  obtain ⟨node', h1, -, h3⟩ := (expandExtensions_appends sampleExtensionNames
    [Value.map [("name", Value.str "script"), ("type", Value.str "CustomScript"),
      ("minor_version_auto_upgrade", Value.bool false), ("protected_settings", Value.nilMap),
      ("public_settings", Value.map [("port", Value.int 22)])], Value.str "stray"]
    (some [some sampleExtension])).2
    (sampleNode (some [some sampleExtension])) _ _
    (configuredData [("extension", sampleExtensionSet)]) rfl rfl rfl rfl
  exact ⟨node', h1, h3.trans rfl⟩

/-! ## The list filters (claim C22) -/

theorem instanceTypeLoop_eq (xs : List Value) : instanceTypeLoop xs = nonEmptyStrings xs := by
  induction xs with
  | nil => rfl
  | cons v rest ih =>
    cases v with
    | str s =>
      by_cases hs : s = "" <;>
        simp [instanceTypeLoop, nonEmptyStrings, Value.asString, hs, ih]
    | _ => simp [instanceTypeLoop, nonEmptyStrings, Value.asString, ih]

theorem launchSpecIDsLoop_eq (xs : List Value) : launchSpecIDsLoop xs = nonEmptyStrings xs := by
  induction xs with
  | nil => rfl
  | cons v rest ih =>
    cases v with
    | str s =>
      by_cases hs : s = "" <;>
        simp [launchSpecIDsLoop, nonEmptyStrings, Value.asString, hs, ih]
    | _ => simp [launchSpecIDsLoop, nonEmptyStrings, Value.asString, ih]

theorem nonEmptyStrings_mem (xs : List Value) (t : String) :
    t ∈ nonEmptyStrings xs ↔ Value.str t ∈ xs ∧ t ≠ "" := by
  unfold nonEmptyStrings
  rw [List.mem_filterMap]
  constructor
  · rintro ⟨v, hv, h⟩
    cases v with
    | str s =>
      by_cases hs : s = ""
      · simp [hs] at h
      · simp only [hs, if_false, Option.some.injEq] at h
        subst h
        exact ⟨hv, hs⟩
    | _ => simp at h
  · rintro ⟨hv, ht⟩
    exact ⟨Value.str t, hv, by simp [ht]⟩

theorem nonEmptyStrings_sublist (xs : List Value) :
    ((nonEmptyStrings xs).map Value.str).Sublist xs := by
  induction xs with
  | nil => exact List.Sublist.slnil
  | cons v rest ih =>
    cases v with
    | str s =>
      by_cases hs : s = ""
      · have : nonEmptyStrings (Value.str s :: rest) = nonEmptyStrings rest := by
          simp [nonEmptyStrings, hs]
        rw [this]
        exact List.Sublist.cons _ ih
      · have : nonEmptyStrings (Value.str s :: rest) = s :: nonEmptyStrings rest := by
          simp [nonEmptyStrings, hs]
        rw [this]
        exact List.Sublist.cons₂ _ ih
    | _ =>
      refine List.Sublist.cons _ ?_
      simpa [nonEmptyStrings] using ih

theorem nonEmptyStrings_strings (r : List String) (h : "" ∉ r) :
    nonEmptyStrings (r.map Value.str) = r := by
  induction r with
  | nil => rfl
  | cons s rest ih =>
    have hs : s ≠ "" := fun e => h (by simp [e])
    have hr : "" ∉ rest := fun e => h (by simp [e])
    have ih' := ih hr
    unfold nonEmptyStrings at ih' ⊢
    simp [hs, ih']

/-- C22, as claimed, fails: the list `expandInstanceTypeList` returns is a `[]string`, and
applied to it the function panics on its type assertion; so does
`expandOceanAWSLaunchSpecIDs` on the list it returns. -/
theorem expand_result_again_panics :
    expandInstanceTypeList (Value.slice [Value.str "m5.large", Value.str ""])
        = GoResult.ok ["m5.large"] ∧
      expandInstanceTypeList (Value.strings ["m5.large"])
        = GoResult.panic "interface conversion: value is not a []interface" ∧
      expandOceanAWSLaunchSpecIDs (Value.slice [Value.str "ols-1", Value.str ""])
          (sampleState (Value.nil, false) Value.nil)
        = Outcome.ret ["ols-1"] (sampleState (Value.nil, false) Value.nil) ∧
      expandOceanAWSLaunchSpecIDs (Value.strings ["ols-1"])
          (sampleState (Value.nil, false) Value.nil)
        = Outcome.fault "interface conversion: value is not a []interface"
          (sampleState (Value.nil, false) Value.nil) :=
  ⟨rfl, rfl, rfl, rfl⟩

/-- C22, amended. For every list of untyped values, `expandInstanceTypeList` and
`expandOceanAWSLaunchSpecIDs` return, with no error and no change of state, the elements
that are non-empty strings in their order: the result, element by element, is a sublist of
the input, it holds a string exactly when the input holds it and it is not empty, it holds
no empty string and it is not longer than the input. Expanding the list of its elements,
taken again as untyped values, returns it unchanged; applied to a `[]string`, as the result
itself is, both functions panic on their type assertion. A nil list gives the empty
result. -/
theorem expand_lists_filter (xs : List Value) (s : St) :
    (expandInstanceTypeList (Value.slice xs) = GoResult.ok (nonEmptyStrings xs) ∧
      expandOceanAWSLaunchSpecIDs (Value.slice xs) s = Outcome.ret (nonEmptyStrings xs) s) ∧
    (expandInstanceTypeList Value.nilSlice = GoResult.ok [] ∧
      expandOceanAWSLaunchSpecIDs Value.nilSlice s = Outcome.ret [] s) ∧
    ((nonEmptyStrings xs).map Value.str).Sublist xs ∧
    (∀ t, t ∈ nonEmptyStrings xs ↔ Value.str t ∈ xs ∧ t ≠ "") ∧
    "" ∉ nonEmptyStrings xs ∧
    (nonEmptyStrings xs).length ≤ xs.length ∧
    (expandInstanceTypeList (Value.slice ((nonEmptyStrings xs).map Value.str))
        = GoResult.ok (nonEmptyStrings xs) ∧
      expandOceanAWSLaunchSpecIDs (Value.slice ((nonEmptyStrings xs).map Value.str)) s
        = Outcome.ret (nonEmptyStrings xs) s) ∧
    (∀ r : List String,
      expandInstanceTypeList (Value.strings r)
          = GoResult.panic "interface conversion: value is not a []interface" ∧
        expandOceanAWSLaunchSpecIDs (Value.strings r) s
          = Outcome.fault "interface conversion: value is not a []interface" s) := by
  have hne : "" ∉ nonEmptyStrings xs := fun h => ((nonEmptyStrings_mem xs "").1 h).2 rfl
  have h1 : ∀ ys, expandInstanceTypeList (Value.slice ys) = GoResult.ok (nonEmptyStrings ys) := by
    intro ys
    simp [expandInstanceTypeList, toSlice, bind, GoResult.bind, pure, instanceTypeLoop_eq]
  have h2 : ∀ ys, expandOceanAWSLaunchSpecIDs (Value.slice ys) s
      = Outcome.ret (nonEmptyStrings ys) s := by
    intro ys
    simp [expandOceanAWSLaunchSpecIDs, assertSlice, bind, M.bind, pure,
      launchSpecIDsLoop_eq]
  refine ⟨⟨h1 xs, h2 xs⟩, ⟨rfl, rfl⟩, nonEmptyStrings_sublist xs, nonEmptyStrings_mem xs,
    hne, ?_, ⟨?_, ?_⟩, fun r => ⟨rfl, rfl⟩⟩
  · exact List.length_filterMap_le _ _
  · rw [h1, nonEmptyStrings_strings _ hne]
  · rw [h2, nonEmptyStrings_strings _ hne]

theorem expand_lists_filter_witness :
    expandInstanceTypeList
        (Value.slice [Value.str "m5.large", Value.str "", Value.int 3, Value.str "c5.xlarge"])
      = GoResult.ok ["m5.large", "c5.xlarge"] ∧
    expandInstanceTypeList (Value.slice [Value.str "m5.large", Value.str "c5.xlarge"])
      = GoResult.ok ["m5.large", "c5.xlarge"] ∧
    expandInstanceTypeList (Value.strings ["m5.large", "c5.xlarge"])
      = GoResult.panic "interface conversion: value is not a []interface" :=
  have h := expand_lists_filter
    [Value.str "m5.large", Value.str "", Value.int 3, Value.str "c5.xlarge"]
    (sampleState (Value.nil, false) Value.nil)
  ⟨h.1.1, h.2.2.2.2.2.2.1.1, (h.2.2.2.2.2.2.2 ["m5.large", "c5.xlarge"]).1⟩

/-! ## Annotations (claim C23) -/

theorem mapSet_absent {α : Type} (m : List (String × α)) (key : String) (v : α)
    (h : key ∉ m.map Prod.fst) : mapSet m key v = m ++ [(key, v)] := by
  have hl : m.lookup key = none := by
    induction m with
    | nil => rfl
    | cons kv rest ih =>
      obtain ⟨k, w⟩ := kv
      simp only [List.map_cons, List.mem_cons, not_or] at h
      have hb : (key == k) = false := by simpa using h.1
      rw [List.lookup_cons, hb]
      exact ih h.2
  simp [mapSet, hl]

theorem flatten_fold (a acc : Annotations)
    (h : (acc.map Prod.fst ++ a.map Prod.fst).Nodup) :
    a.foldl (fun result kv => mapSet result kv.1 (Value.str kv.2)) acc.toValues
      = (acc ++ a).toValues := by
  induction a generalizing acc with
  | nil => simp
  | cons kv rest ih =>
    obtain ⟨k, w⟩ := kv
    have hk : k ∉ acc.toValues.map Prod.fst := by
      simp only [List.map_cons, List.nodup_append, List.nodup_cons] at h
      intro hk
      simp only [Annotations.toValues, List.map_map] at hk
      exact h.2.2 (by simpa using hk) (by simp)
    rw [List.foldl_cons, mapSet_absent _ _ _ hk]
    have h' : ((acc ++ [(k, w)]).map Prod.fst ++ rest.map Prod.fst).Nodup := by
      simpa using h
    have := ih (acc ++ [(k, w)]) h'
    simpa [Annotations.toValues] using this

theorem flattenAnnotations_nodup (a : Annotations) (h : (a.map Prod.fst).Nodup) :
    flattenAnnotations (some a) = a.toValues := by
  have := flatten_fold a [] (by simpa using h)
  simpa [flattenAnnotations, Annotations.toValues] using this

theorem annotationsLoop_strings (a acc : Annotations)
    (h : (acc.map Prod.fst ++ a.map Prod.fst).Nodup) :
    annotationsLoop a.toValues acc = GoResult.ok (acc ++ a) := by
  induction a generalizing acc with
  | nil => simp [Annotations.toValues, annotationsLoop]
  | cons kv rest ih =>
    obtain ⟨k, w⟩ := kv
    have hk : k ∉ acc.map Prod.fst := by
      simp only [List.map_cons, List.nodup_append, List.nodup_cons] at h
      intro hk
      exact h.2.2 hk (by simp)
    have h' : ((acc ++ [(k, w)]).map Prod.fst ++ rest.map Prod.fst).Nodup := by
      simpa using h
    have := ih (acc ++ [(k, w)]) h'
    simp only [Annotations.toValues, List.map_cons] at this ⊢
    unfold annotationsLoop
    simp only [Value.asString, if_true]
    rw [mapSet_absent _ _ _ hk, this]
    simp

theorem annotationsLoop_nonstring (m : List (String × Value)) (acc : Annotations)
    (h : ∃ kv ∈ m, kv.2.asString.2 = false) :
    annotationsLoop m acc
      = GoResult.err (GoError.errorf "could not cast annotation value to string" []) := by
  induction m generalizing acc with
  | nil => simp at h
  | cons kv rest ih =>
    obtain ⟨k, v⟩ := kv
    unfold annotationsLoop
    by_cases hv : v.asString.2 = true
    · rw [if_pos hv]
      apply ih
      obtain ⟨kv, hkv, hf⟩ := h
      rcases List.mem_cons.1 hkv with e | e
      · subst e
        simp [hv] at hf
      · exact ⟨kv, e, hf⟩
    · rw [if_neg hv]

theorem lookup_toValues (r : Annotations) (k : String) :
    (r.toValues.lookup k).isSome = (r.lookup k).isSome := by
  induction r with
  | nil => rfl
  | cons kv rest ih =>
    obtain ⟨k', w⟩ := kv
    simp only [Annotations.toValues, List.map_cons, List.lookup_cons] at ih ⊢
    split <;> simp_all

theorem mapSet_toValues (r : Annotations) (k w : String) :
    mapSet r.toValues k (Value.str w) = Annotations.toValues (mapSet r k w) := by
  unfold mapSet
  rw [lookup_toValues]
  split
  · simp only [Annotations.toValues, List.map_map]
    apply List.map_congr_left
    intro kv _
    simp only [Function.comp]
    split <;> rfl
  · simp [Annotations.toValues]

theorem mapSet_keys {α : Type} (m : List (String × α)) (k : String) (v : α)
    (h : (m.map Prod.fst).Nodup) : ((mapSet m k v).map Prod.fst).Nodup := by
  unfold mapSet
  split
  · have e : (m.map (fun kv => if kv.1 = k then (k, v) else kv)).map Prod.fst
        = m.map Prod.fst := by
      rw [List.map_map]
      apply List.map_congr_left
      intro kv _
      simp only [Function.comp]
      split
      · rename_i hk
        exact hk.symm
      · rfl
    rw [e]
    exact h
  · rename_i hl
    have hn : ∀ p ∈ m, k ≠ p.1 := by
      intro p hp hk
      apply hl
      rw [List.lookup_isSome_iff]
      exact ⟨p, hp, by simp [hk]⟩
    rw [List.map_append, List.nodup_append]
    refine ⟨h, by simp, ?_⟩
    intro x hx hx'
    simp only [List.map_cons, List.map_nil, List.mem_singleton] at hx'
    subst hx'
    obtain ⟨p, hp, hp'⟩ := List.mem_map.1 hx
    exact hn p hp hp'.symm

theorem flatten_fold_general (a acc : Annotations) (h : (acc.map Prod.fst).Nodup) :
    ∃ r : Annotations, (r.map Prod.fst).Nodup ∧
      a.foldl (fun result kv => mapSet result kv.1 (Value.str kv.2)) acc.toValues
        = r.toValues := by
  induction a generalizing acc with
  | nil => exact ⟨acc, h, rfl⟩
  | cons kv rest ih =>
    rw [List.foldl_cons, mapSet_toValues]
    exact ih (mapSet acc kv.1 kv.2) (mapSet_keys acc kv.1 kv.2 h)

theorem expandAnnotations_toValues (r : Annotations) (h : (r.map Prod.fst).Nodup) :
    expandAnnotations (Value.map r.toValues) = GoResult.ok r := by
  have := annotationsLoop_strings r [] (by simpa using h)
  simpa [expandAnnotations, Value.asMap] using this

/-- C23. For every string-to-string map `a`, `expandAnnotations` applied to
`flattenAnnotations a` succeeds and returns the entries `flattenAnnotations` built, each
key with its string; when the keys of `a` are distinct, as the keys of a map are, these are
the entries of `a` itself. For a nil map it returns the empty map. For every map holding a
value that is not a string, `expandAnnotations` returns an error. -/
theorem annotations_round_trip (a : Annotations) (m : List (String × Value)) :
    (∃ r : Annotations,
      expandAnnotations (Value.map (flattenAnnotations (some a))) = GoResult.ok r ∧
        r.toValues = flattenAnnotations (some a)) ∧
    ((a.map Prod.fst).Nodup →
      expandAnnotations (Value.map (flattenAnnotations (some a))) = GoResult.ok a) ∧
    expandAnnotations (Value.map (flattenAnnotations none)) = GoResult.ok [] ∧
    ((∃ kv ∈ m, kv.2.asString.2 = false) →
      expandAnnotations (Value.map m)
        = GoResult.err (GoError.errorf "could not cast annotation value to string" [])) := by
  refine ⟨?_, ?_, rfl, ?_⟩
  · obtain ⟨r, hr, he⟩ := flatten_fold_general a [] (by simp)
    have he' : flattenAnnotations (some a) = r.toValues := by
      simpa [flattenAnnotations, Annotations.toValues] using he
    exact ⟨r, by rw [he']; exact expandAnnotations_toValues r hr, he'.symm⟩
  · intro h
    rw [flattenAnnotations_nodup a h]
    exact expandAnnotations_toValues a h
  · intro h
    simpa [expandAnnotations, Value.asMap] using annotationsLoop_nonstring m [] h

theorem annotations_round_trip_witness :
    expandAnnotations (Value.map (flattenAnnotations
        (some [("service.beta/scheme", "internal"), ("owner", "")])))
      = GoResult.ok [("service.beta/scheme", "internal"), ("owner", "")] ∧
    expandAnnotations (Value.map [("owner", Value.str "ops"), ("replicas", Value.int 2)])
      = GoResult.err (GoError.errorf "could not cast annotation value to string" []) :=
  ⟨(annotations_round_trip [("service.beta/scheme", "internal"), ("owner", "")] []).2.1
      (by decide),
    (annotations_round_trip [] [("owner", Value.str "ops"), ("replicas", Value.int 2)]).2.2.2
      ⟨("replicas", Value.int 2), by simp, rfl⟩⟩

end Spotinst
